import Mathlib

/-!
OrdersManagment: the order lifecycle engine.

A shallow embedding of `models/Order`, `models/Product`, `models/Customer` and of the
order-related part of `managers/OrderManager`, `managers/ProductManager` and
`managers/CustomerManager`, followed by theorems about the embedded code.

Conventions of the embedding

* C++ `int` is a 32-bit two's complement integer: a value is an `Int`, and the result of
  an `int` addition or increment is reduced to 32 bits by `wrapInt32`, as the compiled
  code does when the sum leaves the range of `int`.
* C++ `double` amounts are read as exact decimals, i.e. as rationals `ℚ`.
* A `std::vector` is a `List`; an iterator or pointer obtained from `std::find_if` is the
  index of the first matching element together with its current value (`findIf`), `none`
  standing for `end()` / `nullptr`; a write through it is `List.set` at that index.
* A member function that mutates its object and returns `bool` becomes a function
  returning `Bool × state`.
* `OrderManager` holds raw pointers to a `ProductManager` and a `CustomerManager`; the
  state `OrderManager` below carries the pointees (`none` = `nullptr`), so that an
  effect on the catalog or on the directory would be visible in the resulting state.
* Logging (`LOG_INFO`, ...) and the write-through to the `Database` singleton
  (`saveOrders`) do not feed back into the in-memory state and are left out.
* `Utils::getCurrentDateTime()` is real time: constructors take the timestamp as an
  argument `now`.
-/

namespace OrdersManagment

/-! ## Generic helpers -/

/-- The iterator returned by `std::find_if(v.begin(), v.end(), p)`: the index of the first
element satisfying `p` together with the element it points to, or `none` for `v.end()`. -/
def findIf {α : Type} (p : α → Bool) : List α → Option (Nat × α)
  | [] => none
  | x :: xs => if p x then some (0, x) else (findIf p xs).map (fun r => (r.1 + 1, r.2))

/-- The value an `int` holds after an addition or increment whose mathematical result is
`n`: `n` itself when it lies in `[-2^31, 2^31)`, otherwise `n` reduced modulo `2^32` into
that range. -/
def wrapInt32 (n : Int) : Int := (n + 2147483648) % 4294967296 - 2147483648

/-! ## models/Order.h, models/Order.cpp -/

/-- The `enum class OrderStatus`. -/
inductive OrderStatus
  | PENDING
  | CONFIRMED
  | PROCESSING
  | SHIPPED
  | DELIVERED
  | CANCELLED
  deriving DecidableEq, Repr

/-- The `struct OrderItem`. -/
structure OrderItem where
  productId : Int
  productName : String
  quantity : Int
  unitPrice : ℚ
  totalPrice : ℚ
  deriving DecidableEq, Repr

/-- The constructor `OrderItem(prodId, name, qty, price)`: `totalPrice(qty * price)`. -/
def OrderItem.new (prodId : Int) (name : String) (qty : Int) (price : ℚ) : OrderItem :=
  { productId := prodId, productName := name, quantity := qty,
    unitPrice := price, totalPrice := (qty : ℚ) * price }

/-- The private data members of `class Order`. -/
structure Order where
  orderId : Int
  customerId : Int
  customerName : String
  items : List OrderItem
  status : OrderStatus
  orderDate : String
  shippingAddress : String
  totalAmount : ℚ
  discountAmount : ℚ
  finalAmount : ℚ
  notes : String
  deriving DecidableEq, Repr

/-- The default constructor `Order::Order()`. -/
def Order.default (now : String) : Order :=
  { orderId := 0, customerId := 0, customerName := "", items := [],
    status := OrderStatus.PENDING, orderDate := now, shippingAddress := "",
    totalAmount := 0, discountAmount := 0, finalAmount := 0, notes := "" }

/-- The constructor `Order::Order(id, customerId, customerName)`. -/
def Order.new (id customerId : Int) (customerName : String) (now : String) : Order :=
  { orderId := id, customerId := customerId, customerName := customerName, items := [],
    status := OrderStatus.PENDING, orderDate := now, shippingAddress := "",
    totalAmount := 0, discountAmount := 0, finalAmount := 0, notes := "" }

/-- `Order::setShippingAddress`. -/
def Order.setShippingAddress (o : Order) (address : String) : Order :=
  { o with shippingAddress := address }

/-- `Order::setStatus`. -/
def Order.setStatus (o : Order) (newStatus : OrderStatus) : Order :=
  { o with status := newStatus }

/-- `Order::calculateTotalAmount`: `totalAmount = 0.0; for item: totalAmount += item.totalPrice`. -/
def Order.calculateTotalAmount (o : Order) : Order :=
  { o with totalAmount := o.items.foldl (fun acc item => acc + item.totalPrice) 0 }

/-- `Order::calculateFinalAmount`: `finalAmount = totalAmount - discountAmount`, reset to 0
when negative. -/
def Order.calculateFinalAmount (o : Order) : Order :=
  let finalAmount := o.totalAmount - o.discountAmount
  { o with finalAmount := if finalAmount < 0 then 0 else finalAmount }

/-- `Order::setDiscountAmount` (inline in Order.h). -/
def Order.setDiscountAmount (o : Order) (discount : ℚ) : Order :=
  ({ o with discountAmount := discount }).calculateFinalAmount

/-- `Order::addItem`; `it->quantity += item.quantity` is an `int` addition. -/
def Order.addItem (o : Order) (item : OrderItem) : Order :=
  let items :=
    match findIf (fun existing => existing.productId == item.productId) o.items with
    | some (it, e) =>
      let quantity := wrapInt32 (e.quantity + item.quantity)
      o.items.set it { e with quantity := quantity, totalPrice := (quantity : ℚ) * e.unitPrice }
    | none => o.items ++ [item]
  ({ o with items := items }).calculateTotalAmount.calculateFinalAmount

/-- `Order::removeItem`. -/
def Order.removeItem (o : Order) (productId : Int) : Bool × Order :=
  match findIf (fun item => item.productId == productId) o.items with
  | some (it, _) =>
    (true, ({ o with items := o.items.eraseIdx it }).calculateTotalAmount.calculateFinalAmount)
  | none => (false, o)

/-- `Order::updateItemQuantity`. -/
def Order.updateItemQuantity (o : Order) (productId newQuantity : Int) : Bool × Order :=
  if newQuantity ≤ 0 then o.removeItem productId
  else
    match findIf (fun item => item.productId == productId) o.items with
    | some (it, e) =>
      let items := o.items.set it
        { e with quantity := newQuantity, totalPrice := (newQuantity : ℚ) * e.unitPrice }
      (true, ({ o with items := items }).calculateTotalAmount.calculateFinalAmount)
    | none => (false, o)

/-- `Order::clearItems`. -/
def Order.clearItems (o : Order) : Order :=
  ({ o with items := [] }).calculateTotalAmount.calculateFinalAmount

/-- `Order::applyDiscount`. -/
def Order.applyDiscount (o : Order) (discountPercent : ℚ) : Order :=
  if discountPercent ≥ 0 ∧ discountPercent ≤ 100 then
    ({ o with discountAmount := o.totalAmount * (discountPercent / 100) }).calculateFinalAmount
  else o

/-- `Order::canChangeStatusTo`. -/
def Order.canChangeStatusTo (o : Order) (newStatus : OrderStatus) : Bool :=
  match o.status with
  | OrderStatus.PENDING =>
    newStatus == OrderStatus.CONFIRMED || newStatus == OrderStatus.CANCELLED
  | OrderStatus.CONFIRMED =>
    newStatus == OrderStatus.PROCESSING || newStatus == OrderStatus.CANCELLED
  | OrderStatus.PROCESSING =>
    newStatus == OrderStatus.SHIPPED || newStatus == OrderStatus.CANCELLED
  | OrderStatus.SHIPPED => newStatus == OrderStatus.DELIVERED
  | OrderStatus.DELIVERED => false
  | OrderStatus.CANCELLED => false

/-- `Order::updateStatus`. -/
def Order.updateStatus (o : Order) (newStatus : OrderStatus) : Bool × Order :=
  if o.canChangeStatusTo newStatus then (true, { o with status := newStatus })
  else (false, o)

/-- `Order::isEmpty`. -/
def Order.isEmpty (o : Order) : Bool := o.items.isEmpty

/-- `Order::isValid`. -/
def Order.isValid (o : Order) : Bool :=
  decide (o.orderId > 0) && decide (o.customerId > 0) && !o.customerName.isEmpty &&
    !o.items.isEmpty && decide (o.finalAmount ≥ 0)

/-- The transition table of the status state machine as the specification gives it
(section 4.1): the list of allowed `(from, to)` pairs. -/
def specTransitionTable : List (OrderStatus × OrderStatus) :=
  [ (OrderStatus.PENDING, OrderStatus.CONFIRMED), (OrderStatus.PENDING, OrderStatus.CANCELLED),
    (OrderStatus.CONFIRMED, OrderStatus.PROCESSING), (OrderStatus.CONFIRMED, OrderStatus.CANCELLED),
    (OrderStatus.PROCESSING, OrderStatus.SHIPPED), (OrderStatus.PROCESSING, OrderStatus.CANCELLED),
    (OrderStatus.SHIPPED, OrderStatus.DELIVERED) ]

/-- One mutation of an order's items or discount, as a caller can issue it; `addItem`
carries the arguments of the `OrderItem` constructor. -/
inductive OrderOp
  | addItem (prodId : Int) (name : String) (qty : Int) (price : ℚ)
  | removeItem (productId : Int)
  | updateItemQuantity (productId : Int) (newQuantity : Int)
  | clearItems
  | applyDiscount (discountPercent : ℚ)
  | setDiscountAmount (discount : ℚ)

/-- The order after one mutation (the `bool` results are dropped). -/
def Order.step (o : Order) : OrderOp → Order
  | OrderOp.addItem prodId name qty price => o.addItem (OrderItem.new prodId name qty price)
  | OrderOp.removeItem productId => (o.removeItem productId).2
  | OrderOp.updateItemQuantity productId newQuantity =>
    (o.updateItemQuantity productId newQuantity).2
  | OrderOp.clearItems => o.clearItems
  | OrderOp.applyDiscount discountPercent => o.applyDiscount discountPercent
  | OrderOp.setDiscountAmount discount => o.setDiscountAmount discount

/-- The order after a sequence of mutations, applied from left to right. -/
def Order.run (o : Order) (ops : List OrderOp) : Order := ops.foldl Order.step o

/-- The sum of the items' `totalPrice`. -/
def sumTotalPrice (items : List OrderItem) : ℚ := (items.map (fun item => item.totalPrice)).sum

/-- The totals invariant of an order: `totalAmount` is the sum of the items' `totalPrice`
and `finalAmount` is `max(0, totalAmount - discountAmount)`. -/
def Order.totalsOk (o : Order) : Prop :=
  o.totalAmount = sumTotalPrice o.items ∧ o.finalAmount = max 0 (o.totalAmount - o.discountAmount)

/-! ## models/Product.h, models/Product.cpp -/

/-- The private data members of `class Product`. -/
structure Product where
  productId : Int
  name : String
  description : String
  category : String
  price : ℚ
  stockQuantity : Int
  minStockLevel : Int
  isActive : Bool
  deriving DecidableEq, Repr

/-- The constructor `Product::Product(id, name, description, category, price, stockQuantity,
minStockLevel)`. -/
def Product.new (id : Int) (name description category : String) (price : ℚ)
    (stockQuantity minStockLevel : Int) : Product :=
  { productId := id, name := name, description := description, category := category,
    price := price, stockQuantity := stockQuantity, minStockLevel := minStockLevel,
    isActive := true }

/-- `Product::isInStock`. -/
def Product.isInStock (p : Product) (quantity : Int) : Bool := decide (p.stockQuantity ≥ quantity)

/-! ## models/Customer.h -/

/-- The private data members of `class Customer`. -/
structure Customer where
  customerId : Int
  name : String
  email : String
  phone : String
  address : String
  city : String
  country : String
  isActive : Bool
  deriving DecidableEq, Repr

/-! ## managers/ProductManager -/

/-- The data members of `class ProductManager`. -/
structure ProductManager where
  products : List Product
  nextProductId : Int
  deriving DecidableEq, Repr

/-- `ProductManager::getProduct`: a pointer to the first product with that id, or `nullptr`. -/
def ProductManager.getProduct (pm : ProductManager) (productId : Int) : Option (Nat × Product) :=
  findIf (fun p => p.productId == productId) pm.products

/-- `ProductManager::isProductAvailable`: `product && product->isInStock(quantity)`. -/
def ProductManager.isProductAvailable (pm : ProductManager) (productId quantity : Int) : Bool :=
  match pm.getProduct productId with
  | some (_, product) => product.isInStock quantity
  | none => false

/-! ## managers/CustomerManager -/

/-- The data members of `class CustomerManager`. -/
structure CustomerManager where
  customers : List Customer
  nextCustomerId : Int
  deriving DecidableEq, Repr

/-- `CustomerManager::getCustomer`: a pointer to the first customer with that id, or
`nullptr`. -/
def CustomerManager.getCustomer (cm : CustomerManager) (customerId : Int) :
    Option (Nat × Customer) :=
  findIf (fun c => c.customerId == customerId) cm.customers

/-! ## managers/OrderManager -/

/-- The data members of `class OrderManager`; the two manager pointers are carried as their
pointees (`none` = `nullptr`). -/
structure OrderManager where
  orders : List Order
  nextOrderId : Int
  productManager : Option ProductManager
  customerManager : Option CustomerManager
  deriving DecidableEq, Repr

/-- `OrderManager::getOrder`: a pointer to the first order with that id, or `nullptr`. -/
def OrderManager.getOrder (m : OrderManager) (orderId : Int) : Option (Nat × Order) :=
  findIf (fun o => o.orderId == orderId) m.orders

/-- `OrderManager::generateNextId`: `return nextOrderId++`, an `int` increment. -/
def OrderManager.generateNextId (m : OrderManager) : Int × OrderManager :=
  (m.nextOrderId, { m with nextOrderId := wrapInt32 (m.nextOrderId + 1) })

/-- `OrderManager::createOrder`. -/
def OrderManager.createOrder (m : OrderManager) (customerId : Int) (now : String) :
    Bool × OrderManager :=
  match m.customerManager with
  | none => (false, m)
  | some cm =>
    match cm.getCustomer customerId with
    | none => (false, m)
    | some (_, customer) =>
      let (id, m1) := m.generateNextId
      let order := (Order.new id customerId customer.name now).setShippingAddress
        (customer.address ++ ", " ++ customer.city ++ ", " ++ customer.country)
      (true, { m1 with orders := m1.orders ++ [order] })

/-- `OrderManager::deleteOrder`. -/
def OrderManager.deleteOrder (m : OrderManager) (orderId : Int) : Bool × OrderManager :=
  match findIf (fun o => o.orderId == orderId) m.orders with
  | some (it, _) => (true, { m with orders := m.orders.eraseIdx it })
  | none => (false, m)

/-- `OrderManager::addItemToOrder`. -/
def OrderManager.addItemToOrder (m : OrderManager) (orderId productId quantity : Int) :
    Bool × OrderManager :=
  match m.productManager with
  | none => (false, m)
  | some pm =>
    match m.getOrder orderId, pm.getProduct productId with
    | some (i, order), some (_, product) =>
      if !product.isInStock quantity then (false, m)
      else
        let item := OrderItem.new productId product.name quantity product.price
        (true, { m with orders := m.orders.set i (order.addItem item) })
    | _, _ => (false, m)

/-- `OrderManager::removeItemFromOrder`: `order && order->removeItem(productId)`. -/
def OrderManager.removeItemFromOrder (m : OrderManager) (orderId productId : Int) :
    Bool × OrderManager :=
  match m.getOrder orderId with
  | some (i, order) =>
    let r := order.removeItem productId
    (r.1, { m with orders := m.orders.set i r.2 })
  | none => (false, m)

/-- `OrderManager::updateOrderItemQuantity`:
`order && order->updateItemQuantity(productId, newQuantity)`. -/
def OrderManager.updateOrderItemQuantity (m : OrderManager)
    (orderId productId newQuantity : Int) : Bool × OrderManager :=
  match m.getOrder orderId with
  | some (i, order) =>
    let r := order.updateItemQuantity productId newQuantity
    (r.1, { m with orders := m.orders.set i r.2 })
  | none => (false, m)

/-- `OrderManager::updateOrderStatus`. -/
def OrderManager.updateOrderStatus (m : OrderManager) (orderId : Int) (newStatus : OrderStatus) :
    Bool × OrderManager :=
  match m.getOrder orderId with
  | some (i, order) =>
    let r := order.updateStatus newStatus
    (r.1, { m with orders := m.orders.set i r.2 })
  | none => (false, m)

/-- `OrderManager::confirmOrder`. -/
def OrderManager.confirmOrder (m : OrderManager) (orderId : Int) : Bool × OrderManager :=
  m.updateOrderStatus orderId OrderStatus.CONFIRMED

/-- `OrderManager::processOrder`. -/
def OrderManager.processOrder (m : OrderManager) (orderId : Int) : Bool × OrderManager :=
  m.updateOrderStatus orderId OrderStatus.PROCESSING

/-- `OrderManager::shipOrder`. -/
def OrderManager.shipOrder (m : OrderManager) (orderId : Int) : Bool × OrderManager :=
  m.updateOrderStatus orderId OrderStatus.SHIPPED

/-- `OrderManager::deliverOrder`. -/
def OrderManager.deliverOrder (m : OrderManager) (orderId : Int) : Bool × OrderManager :=
  m.updateOrderStatus orderId OrderStatus.DELIVERED

/-- `OrderManager::cancelOrder`. -/
def OrderManager.cancelOrder (m : OrderManager) (orderId : Int) : Bool × OrderManager :=
  m.updateOrderStatus orderId OrderStatus.CANCELLED

/-- The lines of an order for product `productId`, in list order. -/
def Order.linesFor (o : Order) (productId : Int) : List OrderItem :=
  o.items.filter (fun item => item.productId == productId)

/-! ## The fixture of the repository's tests

The state that `OrderManagerTest::SetUp` and `IntegrationTest::SetUp` build on an empty
database: two customers (ids 1, 2) and three products (ids 1, 2, 3). -/

/-- The directory after `addCustomer(customer1)`, `addCustomer(customer2)`. -/
def testCustomerManager : CustomerManager :=
  { customers :=
      [ { customerId := 1, name := "John Doe", email := "john@email.com", phone := "+1234567890",
          address := "123 Main St", city := "New York", country := "USA", isActive := true },
        { customerId := 2, name := "Jane Smith", email := "jane@email.com",
          phone := "+1987654321", address := "456 Oak Ave", city := "Los Angeles",
          country := "USA", isActive := true } ],
    nextCustomerId := 3 }

/-- The catalog after `addProduct` of Laptop (999.99, stock 50), Mouse (29.99, stock 100) and
Keyboard (79.99, stock 75). -/
def testProductManager : ProductManager :=
  { products :=
      [ Product.new 1 "Laptop" "High-performance laptop" "Electronics" (99999 / 100) 50 10,
        Product.new 2 "Mouse" "Wireless mouse" "Electronics" (2999 / 100) 100 5,
        Product.new 3 "Keyboard" "Mechanical keyboard" "Electronics" (7999 / 100) 75 8 ],
    nextProductId := 4 }

/-- The `OrderManager` of the test fixtures: no orders, both managers set. -/
def testOrderManager : OrderManager :=
  { orders := [], nextOrderId := 1, productManager := some testProductManager,
    customerManager := some testCustomerManager }

/-- The timestamp used for the orders created in the scenarios below. -/
def testNow : String := "2024-01-15 10:30:00"

/-- Test `AddItemToOrder`: one order for customer 1 holding 2 laptops. -/
def managerWithTwoLaptops : OrderManager :=
  ((testOrderManager.createOrder 1 testNow).2.addItemToOrder 1 1 2).2

/-- The line `OrderItem(1, "Laptop", 2, 999.99)`. -/
def twoLaptops : OrderItem := OrderItem.new 1 "Laptop" 2 (99999 / 100)

/-- The order held by `managerWithTwoLaptops`: the order the code builds by
`Order(1, 1, "John Doe")`, `setShippingAddress`, `addItem(OrderItem(1, "Laptop", 2, 999.99))`. -/
def orderWithTwoLaptops : Order :=
  ((Order.new 1 1 "John Doe" testNow).setShippingAddress "123 Main St, New York, USA").addItem
    twoLaptops

/-- The calls of test `StockManagementIntegration` up to its availability checks: order 1
with 10 laptops, order 2 with 5 laptops and 30 mice. -/
def stockScenario : OrderManager :=
  (((((testOrderManager.createOrder 1 testNow).2.addItemToOrder 1 1 10).2.createOrder 2
    testNow).2.addItemToOrder 2 1 5).2.addItemToOrder 2 2 30).2

/-- The order-manager calls of test `CompleteOrderLifecycle`: order 1 with 2 laptops and 1
mouse, then confirmed, processed, shipped and delivered. -/
def lifecycleScenario : OrderManager :=
  (((((((testOrderManager.createOrder 1 testNow).2.addItemToOrder 1 1 2).2.addItemToOrder 1 2
    1).2.confirmOrder 1).2.processOrder 1).2.shipOrder 1).2.deliverOrder 1).2

/-- The stock quantity of the product a `getProduct` pointer refers to (`none` for
`nullptr`, also when no product manager is set). -/
def OrderManager.stockOf (m : OrderManager) (productId : Int) : Option Int :=
  match m.productManager with
  | none => none
  | some pm => (pm.getProduct productId).map (fun r => r.2.stockQuantity)

/-- Test `LargeOrderQuantities` up to its last call: order 1 holding 50 mice (stock 100). -/
def largeQuantitiesScenario : OrderManager :=
  ((testOrderManager.createOrder 1 testNow).2.addItemToOrder 1 2 50).2

/-- The calls of test `DataConsistencyValidation` that lead to a confirmed order: order 1
with 1 laptop, then confirmed. -/
def confirmedOrderScenario : OrderManager :=
  (((testOrderManager.createOrder 1 testNow).2.addItemToOrder 1 1 1).2.confirmOrder 1).2

/-- The view of a stored order used in the scenario theorems: status, the lines as
`(productId, quantity)` pairs, and the three amounts. -/
structure OrderSummary where
  status : OrderStatus
  lines : List (Int × Int)
  totalAmount : ℚ
  discountAmount : ℚ
  finalAmount : ℚ
  deriving DecidableEq, Repr

/-- The summary of the order that `getOrder(orderId)` points to (`none` for `nullptr`). -/
def OrderManager.orderSummary (m : OrderManager) (orderId : Int) : Option OrderSummary :=
  (m.getOrder orderId).map (fun r =>
    { status := r.2.status, lines := r.2.items.map (fun item => (item.productId, item.quantity)),
      totalAmount := r.2.totalAmount, discountAmount := r.2.discountAmount,
      finalAmount := r.2.finalAmount })

/-- `OrderManager::applyDiscount`: the placeholder implementation `{ return false; }`. -/
def OrderManager.applyDiscount (m : OrderManager) (_orderId : Int) (_discountPercent : ℚ) :
    Bool × OrderManager :=
  (false, m)

/-- The end-to-end scenario after the order is filled: order 1 for customer 1 with 2 laptops
(999.99) and 1 mouse (29.99). -/
def endToEndOrdered : OrderManager :=
  (((testOrderManager.createOrder 1 testNow).2.addItemToOrder 1 1 2).2.addItemToOrder 1 2 1).2

/-- The end-to-end scenario after the call `applyDiscount(1, 10.0)`. -/
def endToEndDiscounted : OrderManager := (endToEndOrdered.applyDiscount 1 10).2

/-- The end-to-end scenario after confirm, process and ship of order 1. -/
def endToEndShipped : OrderManager :=
  (((endToEndDiscounted.confirmOrder 1).2.processOrder 1).2.shipOrder 1).2

/-- A sequence of `updateStatus` calls on one order, with the given targets: the results of
the calls, in call order, and the order afterwards. -/
def Order.updateStatusAll (o : Order) : List OrderStatus → List Bool × Order
  | [] => ([], o)
  | newStatus :: rest =>
    let r := o.updateStatus newStatus
    let rs := r.2.updateStatusAll rest
    (r.1 :: rs.1, rs.2)

/-- One status call on the order manager: `updateOrderStatus` or one of its fixed-target
wrappers. -/
inductive StatusCall
  | updateOrderStatus (orderId : Int) (newStatus : OrderStatus)
  | confirmOrder (orderId : Int)
  | processOrder (orderId : Int)
  | shipOrder (orderId : Int)
  | deliverOrder (orderId : Int)
  | cancelOrder (orderId : Int)

/-- The order id a status call addresses. -/
def StatusCall.orderId : StatusCall → Int
  | StatusCall.updateOrderStatus orderId _ => orderId
  | StatusCall.confirmOrder orderId => orderId
  | StatusCall.processOrder orderId => orderId
  | StatusCall.shipOrder orderId => orderId
  | StatusCall.deliverOrder orderId => orderId
  | StatusCall.cancelOrder orderId => orderId

/-- The manager after one status call, with the call's result. -/
def OrderManager.statusCall (m : OrderManager) : StatusCall → Bool × OrderManager
  | StatusCall.updateOrderStatus orderId newStatus => m.updateOrderStatus orderId newStatus
  | StatusCall.confirmOrder orderId => m.confirmOrder orderId
  | StatusCall.processOrder orderId => m.processOrder orderId
  | StatusCall.shipOrder orderId => m.shipOrder orderId
  | StatusCall.deliverOrder orderId => m.deliverOrder orderId
  | StatusCall.cancelOrder orderId => m.cancelOrder orderId

/-- The manager after a sequence of status calls, applied from left to right. -/
def OrderManager.runStatusCalls (m : OrderManager) (calls : List StatusCall) : OrderManager :=
  calls.foldl (fun acc call => (acc.statusCall call).2) m

/-- The order of the end-to-end scenario once delivered, built by the same `Order` calls. -/
def deliveredOrder : Order :=
  ((((Order.new 1 1 "John Doe" testNow).setShippingAddress "123 Main St, New York, USA").addItem
    (OrderItem.new 1 "Laptop" 2 (99999 / 100))).addItem
    (OrderItem.new 2 "Mouse" 1 (2999 / 100))).setStatus OrderStatus.DELIVERED

/-- The manager of the end-to-end scenario after `deliverOrder(1)`. -/
def endToEndDelivered : OrderManager := (endToEndShipped.deliverOrder 1).2

/-! ## Order queries, serialisation (models/Order.cpp, utils/Utils.cpp) -/

/-- `Order::getItemCount`: `int count = 0; for item: count += item.quantity`. -/
def Order.getItemCount (o : Order) : Int :=
  o.items.foldl (fun count item => wrapInt32 (count + item.quantity)) 0

/-- The `std::getline` loop of `Utils::split` on the characters still in the stream, `item`
being the characters read since the last delimiter. At a delimiter the item read so far is
pushed, also when it is empty; at the end of the stream the last item is pushed only when
at least one character was read for it (a `getline` that extracts nothing fails). -/
def Utils.splitLoop (delimiter : Char) : List Char → List Char → List String
  | [], item => if item.isEmpty then [] else [String.mk item]
  | c :: rest, item =>
    if c = delimiter then String.mk item :: Utils.splitLoop delimiter rest []
    else Utils.splitLoop delimiter rest (item ++ [c])

/-- `Utils::split`. -/
def Utils.split (str : String) (delimiter : Char) : List String :=
  Utils.splitLoop delimiter str.data []

/-- The conversions between numbers and text that `serialize` and `deserialize` take from the
C++ standard library, as parameters: `showDouble` is what `operator<<` writes for a `double`,
`stod` and `stoi` are `std::stod` and `std::stoi`, with `none` for a thrown exception. -/
structure NumText where
  showDouble : ℚ → String
  stod : String → Option ℚ
  stoi : String → Option Int

/-- What `operator<<` writes for an `int`: the decimal digits, after `-` when negative. -/
def showInt (n : Int) : String := toString n

/-- `Order::statusToString`. -/
def Order.statusToString : OrderStatus → String
  | OrderStatus.PENDING => "Pending"
  | OrderStatus.CONFIRMED => "Confirmed"
  | OrderStatus.PROCESSING => "Processing"
  | OrderStatus.SHIPPED => "Shipped"
  | OrderStatus.DELIVERED => "Delivered"
  | OrderStatus.CANCELLED => "Cancelled"

/-- `Order::stringToStatus`. -/
def Order.stringToStatus (statusStr : String) : OrderStatus :=
  if statusStr = "Pending" then OrderStatus.PENDING
  else if statusStr = "Confirmed" then OrderStatus.CONFIRMED
  else if statusStr = "Processing" then OrderStatus.PROCESSING
  else if statusStr = "Shipped" then OrderStatus.SHIPPED
  else if statusStr = "Delivered" then OrderStatus.DELIVERED
  else if statusStr = "Cancelled" then OrderStatus.CANCELLED
  else OrderStatus.PENDING

/-- The text written for one item by the loop of `Order::serialize`:
`productId,productName,quantity,unitPrice`. -/
def OrderItem.serialize (nt : NumText) (item : OrderItem) : String :=
  showInt item.productId ++ "," ++ item.productName ++ "," ++ showInt item.quantity ++ "," ++
    nt.showDouble item.unitPrice

/-- The item loop of `Order::serialize`: the items' texts, with `;` written before every
item but the first. -/
def Order.serializeItems (nt : NumText) (items : List OrderItem) : String :=
  String.intercalate ";" (items.map (OrderItem.serialize nt))

/-- `Order::serialize`: ten fields, each followed by `|`, then the items. -/
def Order.serialize (nt : NumText) (o : Order) : String :=
  showInt o.orderId ++ "|" ++ showInt o.customerId ++ "|" ++ o.customerName ++ "|" ++
    Order.statusToString o.status ++ "|" ++ o.orderDate ++ "|" ++ o.shippingAddress ++ "|" ++
    nt.showDouble o.totalAmount ++ "|" ++ nt.showDouble o.discountAmount ++ "|" ++
    nt.showDouble o.finalAmount ++ "|" ++ o.notes ++ "|" ++ Order.serializeItems nt o.items

/-- The item loop of `Order::deserialize`: an item text with at least 4 comma-separated parts
gives an item, one with fewer is skipped; `none` when `stoi` or `stod` throws. Inside the
guard the indices 0..3 are in range. -/
def Order.deserializeItems (nt : NumText) : List String → Option (List OrderItem)
  | [] => some []
  | itemStr :: rest =>
    let itemParts := Utils.split itemStr ','
    if itemParts.length ≥ 4 then do
      let productId ← nt.stoi (itemParts.getD 0 "")
      let quantity ← nt.stoi (itemParts.getD 2 "")
      let unitPrice ← nt.stod (itemParts.getD 3 "")
      let items ← Order.deserializeItems nt rest
      some (OrderItem.new productId (itemParts.getD 1 "") quantity unitPrice :: items)
    else Order.deserializeItems nt rest

/-- `Order::deserialize`; `now` is the timestamp the default-constructed `Order order;` gets,
`none` stands for an exception thrown by `stoi` or `stod`. Inside the guard
`parts.size() >= 11` the indices 0..10 are in range. -/
def Order.deserialize (nt : NumText) (now : String) (data : String) : Option Order :=
  let parts := Utils.split data '|'
  let order := Order.default now
  if parts.length ≥ 11 then do
    let orderId ← nt.stoi (parts.getD 0 "")
    let customerId ← nt.stoi (parts.getD 1 "")
    let totalAmount ← nt.stod (parts.getD 6 "")
    let discountAmount ← nt.stod (parts.getD 7 "")
    let finalAmount ← nt.stod (parts.getD 8 "")
    let items ←
      if !(parts.getD 10 "").isEmpty then
        Order.deserializeItems nt (Utils.split (parts.getD 10 "") ';')
      else some []
    some { order with
      orderId := orderId, customerId := customerId, customerName := parts.getD 2 "",
      status := Order.stringToStatus (parts.getD 3 ""), orderDate := parts.getD 4 "",
      shippingAddress := parts.getD 5 "", totalAmount := totalAmount,
      discountAmount := discountAmount, finalAmount := finalAmount, notes := parts.getD 9 "",
      items := items }
  else some order

/-! ## managers/OrderManager: fulfilment check -/

/-- The loop of `OrderManager::canFulfillOrder` over the order's items: false at the first
item that `isProductAvailable` rejects. -/
def OrderManager.canFulfillItems (pm : ProductManager) : List OrderItem → Bool
  | [] => true
  | item :: rest =>
    if !pm.isProductAvailable item.productId item.quantity then false
    else OrderManager.canFulfillItems pm rest

/-- `OrderManager::canFulfillOrder` (not a `const` member: the state is returned with the
result). -/
def OrderManager.canFulfillOrder (m : OrderManager) (orderId : Int) : Bool × OrderManager :=
  match m.getOrder orderId, m.productManager with
  | some (_, order), some pm => (OrderManager.canFulfillItems pm order.items, m)
  | _, _ => (false, m)

/-! ## Sequences of item calls on the order manager -/

/-- One of the calls `createOrder`, `addItemToOrder`, `removeItemFromOrder`,
`updateOrderItemQuantity`, with its arguments. -/
inductive ItemCall
  | createOrder (customerId : Int) (now : String)
  | addItemToOrder (orderId productId quantity : Int)
  | removeItemFromOrder (orderId productId : Int)
  | updateOrderItemQuantity (orderId productId newQuantity : Int)

/-- The manager after one such call, with the call's result. -/
def OrderManager.itemCall (m : OrderManager) : ItemCall → Bool × OrderManager
  | ItemCall.createOrder customerId now => m.createOrder customerId now
  | ItemCall.addItemToOrder orderId productId quantity =>
    m.addItemToOrder orderId productId quantity
  | ItemCall.removeItemFromOrder orderId productId => m.removeItemFromOrder orderId productId
  | ItemCall.updateOrderItemQuantity orderId productId newQuantity =>
    m.updateOrderItemQuantity orderId productId newQuantity

/-- The manager after a sequence of such calls, applied from left to right. -/
def OrderManager.runItemCalls (m : OrderManager) (calls : List ItemCall) : OrderManager :=
  calls.foldl (fun acc call => (acc.itemCall call).2) m

/-- Every line item of every stored order has a positive quantity, at most `bound`. -/
def OrderManager.quantitiesWithin (m : OrderManager) (bound : Int) : Prop :=
  ∀ o ∈ m.orders, ∀ item ∈ o.items, 0 < item.quantity ∧ item.quantity ≤ bound

/-- The quantity a call can put on a line: the quantity passed to `addItemToOrder`, the new
quantity passed to `updateOrderItemQuantity` when it is positive, 0 otherwise. -/
def ItemCall.amount : ItemCall → Int
  | ItemCall.addItemToOrder _ _ quantity => quantity
  | ItemCall.updateOrderItemQuantity _ _ newQuantity => if newQuantity > 0 then newQuantity else 0
  | _ => 0

/-- The restriction on a call under which positive quantities are kept: an `addItemToOrder`
call passes a positive quantity (the other calls are unrestricted). -/
def ItemCall.addsPositive : ItemCall → Prop
  | ItemCall.addItemToOrder _ _ quantity => quantity > 0
  | _ => True

/-- The line `OrderItem(2, "Mouse", 1, 29.99)`. -/
def oneMouse : OrderItem := OrderItem.new 2 "Mouse" 1 (2999 / 100)

/-- The order of tests `RemoveItem` and `UpdateItemQuantity`: `Order(1, 100, "John Doe")` with
2 laptops and 1 mouse added. -/
def orderLaptopMouse : Order :=
  ((Order.new 1 100 "John Doe" testNow).addItem twoLaptops).addItem oneMouse

/-- The order of test `UpdateItemQuantity`: `Order(1, 100, "John Doe")` with 2 laptops. -/
def orderLaptop : Order := (Order.new 1 100 "John Doe" testNow).addItem twoLaptops

/-- Test `CanFulfillOrder`-like state: order 1 holding 10 laptops (stock 50). -/
def managerWithTenLaptops : OrderManager :=
  ((testOrderManager.createOrder 1 testNow).2.addItemToOrder 1 1 10).2

/-- The state of test `UpdateOrderStatusInvalidTransition`: order 1 holding 1 laptop,
PENDING. -/
def managerWithOneLaptop : OrderManager :=
  ((testOrderManager.createOrder 1 testNow).2.addItemToOrder 1 1 1).2

/-- Two calls from an empty order collection: `createOrder(1)`, then
`addItemToOrder(1, 1, -5)`. -/
def negativeQuantityCalls : List ItemCall :=
  [ItemCall.createOrder 1 testNow, ItemCall.addItemToOrder 1 1 (-5)]

/-- Calls with positive quantities in `addItemToOrder`, and a non-positive one in
`updateOrderItemQuantity`. -/
def positiveQuantityCalls : List ItemCall :=
  [ItemCall.createOrder 1 testNow, ItemCall.addItemToOrder 1 1 2,
    ItemCall.addItemToOrder 1 2 3, ItemCall.updateOrderItemQuantity 1 1 (-4),
    ItemCall.updateOrderItemQuantity 1 2 7, ItemCall.removeItemFromOrder 1 9]

/-- Conversions used to run the serialisation theorems on concrete inputs. `showDouble`
writes a whole amount in decimal digits, as `operator<<` writes a `double` holding a whole
number of fewer than seven digits (other amounts come out as a fraction, which `operator<<`
never writes: this instance is for whole amounts only); `stoi` and `stod` read an optional
sign followed by decimal digits and throw on anything else. -/
def sampleNumText : NumText :=
  { showDouble := fun x => toString x,
    stod := fun str => str.toInt?.map (fun n => (n : ℚ)),
    stoi := fun str => str.toInt? }

/-- The ten fields that `Order::serialize` writes before the items, each followed by `|`. -/
def Order.headerFields (nt : NumText) (o : Order) : List String :=
  [showInt o.orderId, showInt o.customerId, o.customerName, Order.statusToString o.status,
    o.orderDate, o.shippingAddress, nt.showDouble o.totalAmount,
    nt.showDouble o.discountAmount, nt.showDouble o.finalAmount, o.notes]

/-- The order `Order(1, 100, "John Doe")` of the tests, before any item is added. -/
def freshOrder : Order := Order.new 1 100 "John Doe" testNow

/-! ## Stock and price (models/Product.cpp, managers/ProductManager.cpp) -/

/-- `Product::setStockQuantity`. -/
def Product.setStockQuantity (p : Product) (quantity : Int) : Product :=
  { p with stockQuantity := quantity }

/-- `Product::setPrice`. -/
def Product.setPrice (p : Product) (price : ℚ) : Product := { p with price := price }

/-- `Product::reduceStock`; past the guard `0 < quantity <= stockQuantity`, so the
difference does not leave the range of `int`. -/
def Product.reduceStock (p : Product) (quantity : Int) : Bool × Product :=
  if quantity ≤ 0 ∨ quantity > p.stockQuantity then (false, p)
  else (true, { p with stockQuantity := p.stockQuantity - quantity })

/-- `Product::addStock`; `stockQuantity += quantity` is an `int` addition. -/
def Product.addStock (p : Product) (quantity : Int) : Product :=
  if quantity > 0 then { p with stockQuantity := wrapInt32 (p.stockQuantity + quantity) }
  else p

/-- `ProductManager::updateStock`. -/
def ProductManager.updateStock (pm : ProductManager) (productId newQuantity : Int) :
    Bool × ProductManager :=
  match pm.getProduct productId with
  | some (i, product) =>
    (true, { pm with products := pm.products.set i (product.setStockQuantity newQuantity) })
  | none => (false, pm)

/-- `ProductManager::addStock`. -/
def ProductManager.addStock (pm : ProductManager) (productId quantity : Int) :
    Bool × ProductManager :=
  match pm.getProduct productId with
  | some (i, product) =>
    (true, { pm with products := pm.products.set i (product.addStock quantity) })
  | none => (false, pm)

/-- `ProductManager::reduceStock`: `product && product->reduceStock(quantity)`. -/
def ProductManager.reduceStock (pm : ProductManager) (productId quantity : Int) :
    Bool × ProductManager :=
  match pm.getProduct productId with
  | some (i, product) =>
    let r := product.reduceStock quantity
    (r.1, { pm with products := pm.products.set i r.2 })
  | none => (false, pm)

/-- The stock quantity of the product that `getProduct(productId)` points to. -/
def ProductManager.stockOf (pm : ProductManager) (productId : Int) : Option Int :=
  (pm.getProduct productId).map (fun r => r.2.stockQuantity)

/-- `OrderManager::calculateOrderTotal`: the placeholder implementation `{ return 0.0; }`. -/
def OrderManager.calculateOrderTotal (_m : OrderManager) (_orderId : Int) : ℚ := 0

/-- The state of test `CalculateOrderTotal`: order 1 with 2 laptops and 3 mice. -/
def managerLaptopsAndMice : OrderManager :=
  (((testOrderManager.createOrder 1 testNow).2.addItemToOrder 1 1 2).2.addItemToOrder 1 2 3).2

/-- The test product `Product(1, "Laptop", ..., 999.99, 50, 10)`. -/
def testLaptop : Product :=
  Product.new 1 "Laptop" "High-performance laptop" "Electronics" (99999 / 100) 50 10

/-- The catalog of the test fixture after the laptop's price was changed from 999.99 to
1099.99 (`getProduct(1)->setPrice(1099.99)`). -/
def repricedProductManager : ProductManager :=
  { testProductManager with
    products := testProductManager.products.set 0 (testLaptop.setPrice (109999 / 100)) }

/-- Order 1 holding 2 laptops bought at 999.99, with the laptop now at 1099.99 in the
catalog. -/
def repricedManager : OrderManager :=
  { managerWithTwoLaptops with productManager := some repricedProductManager }

/-- The productIds of the lines of an order, in list order. -/
def Order.productIds (o : Order) : List Int := o.items.map (fun item => item.productId)

/-- A sequence of item calls on one order: laptop, mouse, laptop again, keyboard, the mouse
removed, the laptop set to 7 units. -/
def sampleOrderOps : List OrderOp :=
  [OrderOp.addItem 1 "Laptop" 2 (99999 / 100), OrderOp.addItem 2 "Mouse" 1 (2999 / 100),
    OrderOp.addItem 1 "Laptop" 3 (99999 / 100), OrderOp.addItem 3 "Keyboard" 1 (7999 / 100),
    OrderOp.removeItem 2, OrderOp.updateItemQuantity 1 7]

/-! ## Customers (utils/Utils.cpp, models/Customer.cpp, managers/CustomerManager.cpp) -/

/-- `Utils::toLower`: `::tolower` applied to every character. -/
def Utils.toLower (str : String) : String := String.mk (str.data.map Char.toLower)

/-- The character class `[a-zA-Z0-9._%+-]` of the e-mail pattern. -/
def Utils.isEmailLocalChar (c : Char) : Bool :=
  c.isAlphanum || c == '.' || c == '_' || c == '%' || c == '+' || c == '-'

/-- The character class `[a-zA-Z0-9.-]` of the e-mail pattern. -/
def Utils.isEmailDomainChar (c : Char) : Bool := c.isAlphanum || c == '.' || c == '-'

/-- `Utils::isValidEmail`: `std::regex_match` of the whole string against
`[a-zA-Z0-9._%+-]+@[a-zA-Z0-9.-]+\.[a-zA-Z]{2,}`. The local part is the longest prefix in
the first class and must be followed by `@`; of the rest, the letters after the last `.` are
the final group (at least 2) and what precedes that `.` is the non-empty domain in the
second class. -/
def Utils.isValidEmail (email : String) : Bool :=
  match email.data.span Utils.isEmailLocalChar with
  | (localPart, '@' :: rest) =>
    match rest.reverse.span Char.isAlpha with
    | (letters, '.' :: domain) =>
      !localPart.isEmpty && decide (letters.length ≥ 2) && !domain.isEmpty &&
        domain.all Utils.isEmailDomainChar
    | _ => false
  | _ => false

/-- The default constructor `Customer::Customer()`. -/
def Customer.default : Customer :=
  { customerId := 0, name := "", email := "", phone := "", address := "", city := "",
    country := "", isActive := true }

/-- The constructor `Customer::Customer(id, name, email, phone, address, city, country)`. -/
def Customer.new (id : Int) (name email phone address city country : String) : Customer :=
  { customerId := id, name := name, email := email, phone := phone, address := address,
    city := city, country := country, isActive := true }

/-- `Customer::setCustomerId`. -/
def Customer.setCustomerId (c : Customer) (id : Int) : Customer := { c with customerId := id }

/-- `Customer::isValid`. -/
def Customer.isValid (c : Customer) : Bool :=
  !c.name.isEmpty && Utils.isValidEmail c.email && !c.phone.isEmpty && !c.address.isEmpty &&
    !c.city.isEmpty && !c.country.isEmpty

/-- `Customer::serialize`. -/
def Customer.serialize (c : Customer) : String :=
  showInt c.customerId ++ "|" ++ c.name ++ "|" ++ c.email ++ "|" ++ c.phone ++ "|" ++
    c.address ++ "|" ++ c.city ++ "|" ++ c.country ++ "|" ++ (if c.isActive then "1" else "0")

/-- `Customer::deserialize`; `none` stands for an exception thrown by `stoi`. Inside the
guard `parts.size() >= 8` the indices 0..7 are in range. -/
def Customer.deserialize (nt : NumText) (data : String) : Option Customer :=
  let parts := Utils.split data '|'
  let customer := Customer.default
  if parts.length ≥ 8 then do
    let customerId ← nt.stoi (parts.getD 0 "")
    some { customer with
      customerId := customerId, name := parts.getD 1 "", email := parts.getD 2 "",
      phone := parts.getD 3 "", address := parts.getD 4 "", city := parts.getD 5 "",
      country := parts.getD 6 "", isActive := parts.getD 7 "" == "1" }
  else some customer

/-- `CustomerManager::isEmailUnique`: `std::none_of` over the stored customers. -/
def CustomerManager.isEmailUnique (cm : CustomerManager) (email : String)
    (excludeCustomerId : Int) : Bool :=
  !cm.customers.any (fun c =>
    c.customerId != excludeCustomerId && Utils.toLower c.email == Utils.toLower email)

/-- `CustomerManager::isPhoneUnique`: `std::none_of` over the stored customers. -/
def CustomerManager.isPhoneUnique (cm : CustomerManager) (phone : String)
    (excludeCustomerId : Int) : Bool :=
  !cm.customers.any (fun c => c.customerId != excludeCustomerId && c.phone == phone)

/-- `CustomerManager::validateCustomer`. -/
def CustomerManager.validateCustomer (cm : CustomerManager) (customer : Customer) : Bool :=
  if !customer.isValid then false
  else if !cm.isEmailUnique customer.email customer.customerId then false
  else if !cm.isPhoneUnique customer.phone customer.customerId then false
  else true

/-- `CustomerManager::generateNextId`: `return nextCustomerId++`, an `int` increment. -/
def CustomerManager.generateNextId (cm : CustomerManager) : Int × CustomerManager :=
  (cm.nextCustomerId, { cm with nextCustomerId := wrapInt32 (cm.nextCustomerId + 1) })

/-- `CustomerManager::addCustomer`. -/
def CustomerManager.addCustomer (cm : CustomerManager) (customer : Customer) :
    Bool × CustomerManager :=
  if !cm.validateCustomer customer then (false, cm)
  else
    let (id, cm1) := cm.generateNextId
    let newCustomer := customer.setCustomerId id
    (true, { cm1 with customers := cm1.customers ++ [newCustomer] })

/-- `CustomerManager::updateCustomer`. -/
def CustomerManager.updateCustomer (cm : CustomerManager) (customer : Customer) :
    Bool × CustomerManager :=
  match findIf (fun c => c.customerId == customer.customerId) cm.customers with
  | some (it, _) =>
    if !cm.validateCustomer customer then (false, cm)
    else (true, { cm with customers := cm.customers.set it customer })
  | none => (false, cm)

/-- The loop of `CustomerManager::loadCustomers` over the persisted lines: a non-empty line
is deserialized and stored, and the counter is moved past its id when
`customer.getCustomerId() > nextCustomerId`. -/
def CustomerManager.loadLines (nt : NumText) : List String → CustomerManager →
    Option CustomerManager
  | [], cm => some cm
  | line :: rest, cm =>
    if !line.isEmpty then do
      let customer ← Customer.deserialize nt line
      let cm1 := { cm with customers := cm.customers ++ [customer] }
      let cm2 :=
        if customer.customerId > cm1.nextCustomerId then
          { cm1 with nextCustomerId := wrapInt32 (customer.customerId + 1) }
        else cm1
      CustomerManager.loadLines nt rest cm2
    else CustomerManager.loadLines nt rest cm

/-- `CustomerManager::loadCustomers` on the lines that `Database::loadCustomers` returns:
`customers.clear()`, then the loop. -/
def CustomerManager.loadCustomers (nt : NumText) (data : List String) (cm : CustomerManager) :
    Option CustomerManager :=
  CustomerManager.loadLines nt data { cm with customers := [] }

/-- The constructor `CustomerManager::CustomerManager()`: `nextCustomerId(1)`, then
`loadCustomers()`. -/
def CustomerManager.new (nt : NumText) (data : List String) : Option CustomerManager :=
  CustomerManager.loadCustomers nt data { customers := [], nextCustomerId := 1 }

/-- The customer `Customer(1, "John Doe", "john@email.com", ...)` of the tests. -/
def johnDoe : Customer :=
  Customer.new 1 "John Doe" "john@email.com" "+1234567890" "123 Main St" "New York" "USA"

/-- The customer `Customer(2, "Jane Smith", "jane@email.com", ...)` of the tests. -/
def janeSmith : Customer :=
  Customer.new 2 "Jane Smith" "jane@email.com" "+1987654321" "456 Oak Ave" "Los Angeles" "USA"

/-- A customer with John's e-mail address written in capitals, another phone number, and
customerId 1 in the argument. -/
def bobWithJohnsEmail : Customer :=
  Customer.new 1 "Bob Johnson" "JOHN@EMAIL.COM" "+1555666777" "789 Pine Rd" "Chicago" "USA"

/-- The customer as the test `DataConsistencyValidation` passes it: customerId 3 in the
argument and the e-mail address of John Doe. -/
def bobAsInTest : Customer :=
  Customer.new 3 "Bob Johnson" "john@email.com" "+1555666777" "789 Pine Rd" "Chicago" "USA"

/-- The directory after `addCustomer(johnDoe)` on an empty directory. -/
def directoryWithJohn : CustomerManager :=
  (CustomerManager.addCustomer { customers := [], nextCustomerId := 1 } johnDoe).2

/-! ## Loading orders and assigning order ids (managers/OrderManager.cpp) -/

/-- The loop of `OrderManager::loadOrders` over the persisted lines: a non-empty line is
deserialized and stored, and the counter is moved past its id when
`order.getOrderId() >= nextOrderId`. -/
def OrderManager.loadLines (nt : NumText) (now : String) : List String → OrderManager →
    Option OrderManager
  | [], m => some m
  | line :: rest, m =>
    if !line.isEmpty then do
      let order ← Order.deserialize nt now line
      let m1 := { m with orders := m.orders ++ [order] }
      let m2 :=
        if order.orderId ≥ m1.nextOrderId then
          { m1 with nextOrderId := wrapInt32 (order.orderId + 1) }
        else m1
      OrderManager.loadLines nt now rest m2
    else OrderManager.loadLines nt now rest m

/-- `OrderManager::loadOrders` on the lines that `Database::loadOrders` returns:
`orders.clear()`, then the loop. -/
def OrderManager.loadOrders (nt : NumText) (now : String) (data : List String)
    (m : OrderManager) : Option OrderManager :=
  OrderManager.loadLines nt now data { m with orders := [] }

/-- The constructor `OrderManager::OrderManager(prodMgr, custMgr)`: `nextOrderId(1)`, the two
pointers, then `loadOrders()`. -/
def OrderManager.new (nt : NumText) (now : String) (data : List String)
    (prodMgr : Option ProductManager) (custMgr : Option CustomerManager) :
    Option OrderManager :=
  OrderManager.loadOrders nt now data
    { orders := [], nextOrderId := 1, productManager := prodMgr, customerManager := custMgr }

/-- One of the calls `createOrder`, `deleteOrder`, with its arguments. -/
inductive IdCall
  | createOrder (customerId : Int) (now : String)
  | deleteOrder (orderId : Int)

/-- The manager after one such call, together with the list of the ids assigned so far: a
successful `createOrder` adds the id of the order it stored. -/
def OrderManager.idCall (m : OrderManager) (assigned : List Int) :
    IdCall → OrderManager × List Int
  | IdCall.createOrder customerId now =>
    let r := m.createOrder customerId now
    if r.1 then (r.2, assigned ++ (r.2.orders.getLast?.map (fun o => o.orderId)).toList)
    else (r.2, assigned)
  | IdCall.deleteOrder orderId => ((m.deleteOrder orderId).2, assigned)

/-- The manager after a sequence of such calls, applied from left to right, and the ids that
its `createOrder` calls assigned, in the order of assignment. -/
def OrderManager.runIdCalls (m : OrderManager) (calls : List IdCall) : OrderManager × List Int :=
  calls.foldl (fun acc call => acc.1.idCall acc.2 call) (m, [])

/-- Two persisted orders, with ids 3 and 7 (each with one line, whole amounts). -/
def persistedOrders : List String :=
  ["3|1|John Doe|Pending|2024-01-10 09:00:00|123 Main St|10|0|10||5,Pen,2,5",
    "7|2|Jane Smith|Confirmed|2024-01-11 09:00:00|456 Oak Ave|8|0|8||6,Ink,1,8"]

/-- Calls after the load: an order is created, order 7 and the new order are deleted, two
more orders are created. -/
def sampleIdCalls : List IdCall :=
  [IdCall.createOrder 1 testNow, IdCall.deleteOrder 7, IdCall.deleteOrder 8,
    IdCall.createOrder 2 testNow, IdCall.createOrder 999 testNow, IdCall.createOrder 1 testNow]

/-- Whether the call is a `createOrder`. -/
def IdCall.isCreate : IdCall → Bool
  | IdCall.createOrder _ _ => true
  | IdCall.deleteOrder _ => false

/-- One persisted order whose id is the largest `int`, 2147483647. -/
def persistedOrderAtIntMax : List String :=
  ["2147483647|2|Jane Smith|Confirmed|2024-01-11 09:00:00|456 Oak Ave|8|0|8||6,Ink,1,8"]

/-- Two persisted orders, with the smallest and the largest `int` as ids. -/
def persistedOrdersAtIntEnds : List String :=
  ["-2147483648|1|John Doe|Pending|2024-01-10 09:00:00|123 Main St|10|0|10||5,Pen,2,5",
    "2147483647|2|Jane Smith|Confirmed|2024-01-11 09:00:00|456 Oak Ave|8|0|8||6,Ink,1,8"]

/-- The manager that the constructor builds from the given persisted lines (the customer
directory of the test fixture, no product manager). -/
def managerLoadedFrom (data : List String) : OrderManager :=
  (OrderManager.new sampleNumText testNow data none (some testCustomerManager)).getD
    testOrderManager

/-- Every stored order id is below the next-id counter. -/
def OrderManager.idsBelowCounter (m : OrderManager) : Prop :=
  ∀ o ∈ m.orders, o.orderId < m.nextOrderId

/-- The facts kept along a sequence of `createOrder` / `deleteOrder` calls that started in
`m0`, as long as the counter stays in the range of `int`: stored ids pairwise distinct and
below the counter, assigned ids increasing, below the counter and above every id of `m0`,
every stored order from `m0` or assigned, and the counter not below that of `m0`. -/
def OrderManager.idsConsistent (m0 m : OrderManager) (assigned : List Int) : Prop :=
  (m.orders.map (fun o => o.orderId)).Nodup ∧ m.idsBelowCounter ∧
  (∀ a ∈ assigned, a < m.nextOrderId) ∧ assigned.Pairwise (fun a b => a < b) ∧
  (∀ a ∈ assigned, ∀ o ∈ m0.orders, o.orderId < a) ∧
  (∀ o ∈ m.orders, o ∈ m0.orders ∨ o.orderId ∈ assigned) ∧
  m0.nextOrderId ≤ m.nextOrderId

/-- The manager that the constructor builds from `persistedOrders` (the customer directory of
the test fixture, no product manager). -/
def loadedOrderManager : OrderManager :=
  (OrderManager.new sampleNumText testNow persistedOrders none (some testCustomerManager)).getD
    testOrderManager

/-! ## Orders written and read back -/

/-- `Order(1, 100, "John Doe")` after `setStatus(OrderStatus::CANCELLED)`, without items. -/
def cancelledFreshOrder : Order := freshOrder.setStatus OrderStatus.CANCELLED

/-- `Order(3, 1, "John Doe")` with shipping address "7", two pens at 5 and status
CONFIRMED. -/
def confirmedPenOrder : Order :=
  (((Order.new 3 1 "John Doe" testNow).setShippingAddress "7").addItem
    (OrderItem.new 5 "Pen" 2 5)).setStatus OrderStatus.CONFIRMED

/-! ## Quantities near the end of the range of `int` -/

/-- A catalog holding one product in bulk: bolts at 1 per unit, stock 2000000000. -/
def bulkProductManager : ProductManager :=
  { products := [Product.new 1 "Bolt" "Steel bolt" "Hardware" 1 2000000000 0],
    nextProductId := 2 }

/-- An `OrderManager` without orders on the bulk catalog and the customers of the test
fixture. -/
def bulkOrderManager : OrderManager :=
  { orders := [], nextOrderId := 1, productManager := some bulkProductManager,
    customerManager := some testCustomerManager }

/-- The line `OrderItem(1, "Bolt", 2000000000, 1.0)`. -/
def manyBolts : OrderItem := OrderItem.new 1 "Bolt" 2000000000 1

/-- The order that `createOrder(1)` and `addItemToOrder(1, 1, 2000000000)` build on the bulk
catalog: one line of 2000000000 bolts. -/
def boltOrder : Order :=
  ((Order.new 1 1 "John Doe" testNow).setShippingAddress "123 Main St, New York, USA").addItem
    manyBolts

/-- The bolt order with a second line, 2000000000 nuts: two lines of 2000000000 units. -/
def boltAndNutOrder : Order := boltOrder.addItem (OrderItem.new 2 "Nut" 2000000000 1)

/-- Three calls on the bulk catalog: `createOrder(1)`, then `addItemToOrder(1, 1, 2000000000)`
twice. -/
def bulkQuantityCalls : List ItemCall :=
  [ItemCall.createOrder 1 testNow, ItemCall.addItemToOrder 1 1 2000000000,
    ItemCall.addItemToOrder 1 1 2000000000]

/-! ## 32-bit arithmetic -/

/-- An `int` addition whose mathematical result lies in the range of `int` gives that
result. -/
theorem wrapInt32_of_inRange (n : Int) (hlo : -2147483648 ≤ n) (hhi : n ≤ 2147483647) :
    wrapInt32 n = n := by
  unfold wrapInt32
  omega

/-- The result of an `int` addition lies in the range of `int`. -/
theorem wrapInt32_range (n : Int) : -2147483648 ≤ wrapInt32 n ∧ wrapInt32 n ≤ 2147483647 := by
  unfold wrapInt32
  omega

/-- Reducing an intermediate sum to 32 bits does not change the 32-bit result. -/
theorem wrapInt32_add_wrap (a b : Int) : wrapInt32 (wrapInt32 a + b) = wrapInt32 (a + b) := by
  unfold wrapInt32
  omega

/-! ## Lemmas on `findIf` and on writes through an iterator -/

/-- `find_if` reaches `end()` exactly when no element satisfies the predicate. -/
theorem findIf_eq_none {α : Type} (p : α → Bool) (xs : List α) :
    findIf p xs = none ↔ ∀ x ∈ xs, p x = false := by
  induction xs with
  | nil => simp [findIf]
  | cons x xs ih =>
    by_cases hx : p x = true
    · simp [findIf, hx]
    · simp [findIf, hx, ih]

/-- `find_if` returns position `i` and element `x` exactly when `x` is the first element
satisfying the predicate and `i` elements precede it. -/
theorem findIf_eq_some {α : Type} (p : α → Bool) (xs : List α) (i : Nat) (x : α) :
    findIf p xs = some (i, x) ↔
      ∃ a b, xs = a ++ x :: b ∧ a.length = i ∧ p x = true ∧ ∀ y ∈ a, p y = false := by
  induction xs generalizing i with
  | nil => simp [findIf]
  | cons y ys ih =>
    by_cases hy : p y = true
    · simp only [findIf, hy, if_true, Option.some.injEq, Prod.mk.injEq]
      constructor
      · rintro ⟨rfl, rfl⟩
        exact ⟨[], ys, rfl, rfl, hy, by simp⟩
      · rintro ⟨a, b, hxs, hlen, hpx, hall⟩
        cases a with
        | nil =>
          simp at hxs hlen
          exact ⟨hlen, hxs.1⟩
        | cons a0 a' =>
          simp at hxs
          have := hall a0 (by simp)
          rw [← hxs.1, hy] at this
          exact absurd this (by simp)
    · have hy' : p y = false := by simpa using hy
      simp only [findIf, hy', Bool.false_eq_true, if_false, Option.map_eq_some', Prod.mk.injEq,
        Prod.exists]
      constructor
      · rintro ⟨j, z, hf, rfl, rfl⟩
        obtain ⟨a, b, hxs, hlen, hpx, hall⟩ := (ih j).mp hf
        refine ⟨y :: a, b, by simp [hxs], by simp [hlen], hpx, ?_⟩
        intro w hw
        rcases List.mem_cons.mp hw with rfl | hw
        · exact hy'
        · exact hall w hw
      · rintro ⟨a, b, hxs, hlen, hpx, hall⟩
        cases a with
        | nil =>
          simp at hxs
          rw [← hxs.1, hy'] at hpx
          exact absurd hpx (by simp)
        | cons a0 a' =>
          simp at hxs hlen
          refine ⟨a'.length, x, (ih _).mpr ⟨a', b, hxs.2, rfl, hpx, ?_⟩, hlen, rfl⟩
          intro w hw
          exact hall w (by simp [hw])

/-- Writing through an iterator replaces the element it points to. -/
theorem set_append_cons {α : Type} (a b : List α) (x v : α) :
    (a ++ x :: b).set a.length v = a ++ v :: b := by
  induction a with
  | nil => simp
  | cons y ys ih => simp [ih]

/-- Erasing at an iterator removes the element it points to. -/
theorem eraseIdx_append_cons {α : Type} (a b : List α) (x : α) :
    (a ++ x :: b).eraseIdx a.length = a ++ b := by
  induction a with
  | nil => simp
  | cons y ys ih => simp [ih]
/-! ## The status state machine -/

/-- `canChangeStatusTo` decides membership in the transition table. -/
theorem canChangeStatusTo_eq_mem_table (o : Order) (newStatus : OrderStatus) :
    o.canChangeStatusTo newStatus = decide ((o.status, newStatus) ∈ specTransitionTable) := by
  obtain ⟨oid, cid, cname, items, st, od, sa, ta, da, fa, notes⟩ := o
  cases st <;> cases newStatus <;> simp [Order.canChangeStatusTo, specTransitionTable]

/-- C1. For every order and every pair of statuses `(from, to)` outside the transition
table, `Order.updateStatus(to)` on an order with status `from` returns false and leaves the
status and every other field of the order unchanged. -/
theorem C1_updateStatus_rejects_outside_table (o : Order) (newStatus : OrderStatus)
    (h : (o.status, newStatus) ∉ specTransitionTable) :
    o.updateStatus newStatus = (false, o) := by
  simp [Order.updateStatus, canChangeStatusTo_eq_mem_table, h]

/-- C1, at a concrete input: an order in SHIPPED asked to go to CANCELLED is rejected and
stays as it is. -/
theorem C1_updateStatus_rejects_outside_table_witness :
    ((((Order.new 1 100 "John Doe" "2024-01-01 10:00:00").setStatus OrderStatus.SHIPPED).status,
        OrderStatus.CANCELLED) ∉ specTransitionTable) ∧
    ((Order.new 1 100 "John Doe" "2024-01-01 10:00:00").setStatus OrderStatus.SHIPPED).updateStatus
        OrderStatus.CANCELLED =
      (false, (Order.new 1 100 "John Doe" "2024-01-01 10:00:00").setStatus OrderStatus.SHIPPED) :=
  ⟨by decide, C1_updateStatus_rejects_outside_table _ _ (by decide)⟩

/-- C2. `Order.canChangeStatusTo(to)` on an order with status `from` is true exactly for the
seven pairs of the transition table; it is false for every target from DELIVERED or
CANCELLED, and false whenever the target equals the current status. -/
theorem C2_canChangeStatusTo_iff_table (o : Order) (newStatus : OrderStatus) :
    (o.canChangeStatusTo newStatus = true ↔ (o.status, newStatus) ∈ specTransitionTable) ∧
    (o.canChangeStatusTo newStatus = true ↔
      (o.status = OrderStatus.PENDING ∧
        (newStatus = OrderStatus.CONFIRMED ∨ newStatus = OrderStatus.CANCELLED)) ∨
      (o.status = OrderStatus.CONFIRMED ∧
        (newStatus = OrderStatus.PROCESSING ∨ newStatus = OrderStatus.CANCELLED)) ∨
      (o.status = OrderStatus.PROCESSING ∧
        (newStatus = OrderStatus.SHIPPED ∨ newStatus = OrderStatus.CANCELLED)) ∨
      (o.status = OrderStatus.SHIPPED ∧ newStatus = OrderStatus.DELIVERED)) ∧
    (o.status = OrderStatus.DELIVERED ∨ o.status = OrderStatus.CANCELLED →
      o.canChangeStatusTo newStatus = false) ∧
    (newStatus = o.status → o.canChangeStatusTo newStatus = false) := by
  obtain ⟨oid, cid, cname, items, st, od, sa, ta, da, fa, notes⟩ := o
  cases st <;> cases newStatus <;> simp [Order.canChangeStatusTo, specTransitionTable]

/-! ## Order totals -/

/-- The accumulation loop of `calculateTotalAmount` computes the sum of the `totalPrice`s. -/
theorem foldl_totalPrice (items : List OrderItem) (z : ℚ) :
    items.foldl (fun acc item => acc + item.totalPrice) z = z + sumTotalPrice items := by
  induction items generalizing z with
  | nil => simp [sumTotalPrice]
  | cons x xs ih =>
    simp only [List.foldl_cons, ih, sumTotalPrice, List.map_cons, List.sum_cons]
    ring

/-- The clamp of `calculateFinalAmount` is `max 0`. -/
theorem clamp_eq_max (x : ℚ) : (if x < 0 then 0 else x) = max 0 x := by
  split_ifs with h
  · exact (max_eq_left (le_of_lt h)).symm
  · exact (max_eq_right (not_lt.mp h)).symm

/-- The result of `calculateFinalAmount`, field by field. -/
theorem calculateFinalAmount_fields (o : Order) :
    o.calculateFinalAmount.finalAmount = max 0 (o.totalAmount - o.discountAmount) ∧
    o.calculateFinalAmount.totalAmount = o.totalAmount ∧
    o.calculateFinalAmount.discountAmount = o.discountAmount ∧
    o.calculateFinalAmount.items = o.items :=
  ⟨clamp_eq_max _, rfl, rfl, rfl⟩

/-- Recomputing both totals establishes the totals invariant, whatever the order was. -/
theorem totalsOk_recalculate (o : Order) :
    (o.calculateTotalAmount.calculateFinalAmount).totalsOk := by
  obtain ⟨hf, ht, hd, hi⟩ := calculateFinalAmount_fields o.calculateTotalAmount
  refine ⟨?_, ?_⟩
  · rw [ht, hi]
    simp [Order.calculateTotalAmount, foldl_totalPrice]
  · rw [hf, ht, hd]

/-- Recomputing the final amount after a change of the discount keeps the totals invariant. -/
theorem totalsOk_setDiscountAmount (o : Order) (discount : ℚ) (h : o.totalsOk) :
    (o.setDiscountAmount discount).totalsOk := by
  obtain ⟨hf, ht, hd, hi⟩ := calculateFinalAmount_fields { o with discountAmount := discount }
  refine ⟨?_, ?_⟩
  · simp only [Order.setDiscountAmount]
    rw [ht, hi]
    exact h.1
  · simp only [Order.setDiscountAmount]
    rw [hf, ht, hd]

/-- Every single mutation preserves the totals invariant. -/
theorem totalsOk_step (o : Order) (op : OrderOp) (h : o.totalsOk) : (o.step op).totalsOk := by
  cases op with
  | addItem prodId name qty price => exact totalsOk_recalculate _
  | removeItem productId =>
    simp only [Order.step, Order.removeItem]
    split
    · exact totalsOk_recalculate _
    · exact h
  | updateItemQuantity productId newQuantity =>
    simp only [Order.step, Order.updateItemQuantity, Order.removeItem]
    split_ifs
    · split
      · exact totalsOk_recalculate _
      · exact h
    · split
      · exact totalsOk_recalculate _
      · exact h
  | clearItems => exact totalsOk_recalculate _
  | applyDiscount discountPercent =>
    simp only [Order.step, Order.applyDiscount]
    split_ifs
    · exact totalsOk_setDiscountAmount o _ h
    · exact h
  | setDiscountAmount discount => exact totalsOk_setDiscountAmount o _ h

/-- Every sequence of mutations preserves the totals invariant. -/
theorem totalsOk_run (ops : List OrderOp) (o : Order) (h : o.totalsOk) : (o.run ops).totalsOk := by
  induction ops generalizing o with
  | nil => exact h
  | cons op ops ih => exact ih (o.step op) (totalsOk_step o op h)

/-- C3. Totals invariant: starting from a newly constructed order (either constructor),
after every prefix of any sequence of addItem / removeItem / updateItemQuantity /
clearItems / applyDiscount / setDiscountAmount calls, that is after every single step,
`totalAmount` is the sum of the current items' `totalPrice` and `finalAmount` is
`max(0, totalAmount - discountAmount)`. -/
theorem C3_totals_invariant (id customerId : Int) (customerName now : String)
    (ops : List OrderOp) (k : Nat) :
    (((Order.new id customerId customerName now).run (ops.take k)).totalAmount =
        sumTotalPrice ((Order.new id customerId customerName now).run (ops.take k)).items ∧
      ((Order.new id customerId customerName now).run (ops.take k)).finalAmount =
        max 0 (((Order.new id customerId customerName now).run (ops.take k)).totalAmount -
          ((Order.new id customerId customerName now).run (ops.take k)).discountAmount)) ∧
    (((Order.default now).run (ops.take k)).totalAmount =
        sumTotalPrice ((Order.default now).run (ops.take k)).items ∧
      ((Order.default now).run (ops.take k)).finalAmount =
        max 0 (((Order.default now).run (ops.take k)).totalAmount -
          ((Order.default now).run (ops.take k)).discountAmount)) := by
  constructor
  · exact totalsOk_run _ _ (by simp [Order.totalsOk, Order.new, sumTotalPrice])
  · exact totalsOk_run _ _ (by simp [Order.totalsOk, Order.default, sumTotalPrice])

/-! ## The validity gate -/

/-- C4. On the state of test `EmptyOrder` (one freshly created order, PENDING, no items,
`isValid()` false), `confirmOrder(1)` returns true and the order becomes CONFIRMED: the
code has no validity gate in front of the transition. The second half of the claim holds:
after one item is added, `confirmOrder(1)` returns true and the order is CONFIRMED. -/
theorem C4_confirmOrder_accepts_empty_order :
    (((testOrderManager.createOrder 1 testNow).2.getOrder 1).map
        (fun r => (r.2.status, r.2.items, r.2.isValid)) =
      some (OrderStatus.PENDING, [], false)) ∧
    ((testOrderManager.createOrder 1 testNow).2.confirmOrder 1).1 = true ∧
    ((((testOrderManager.createOrder 1 testNow).2.confirmOrder 1).2.getOrder 1).map
        (fun r => r.2.status) = some OrderStatus.CONFIRMED) ∧
    ((((testOrderManager.createOrder 1 testNow).2.addItemToOrder 1 1 1).2.confirmOrder 1).1 = true) ∧
    (((((testOrderManager.createOrder 1 testNow).2.addItemToOrder 1 1 1).2.confirmOrder 1).2.getOrder
        1).map (fun r => r.2.status) = some OrderStatus.CONFIRMED) := by
  decide!

/-! ## Adding items -/

/-- Writing an element that still satisfies the predicate through the iterator leaves the
iterator's position the first match. -/
theorem findIf_set_same {α : Type} (p : α → Bool) (xs : List α) (i : Nat) (x v : α)
    (h : findIf p xs = some (i, x)) (hv : p v = true) :
    findIf p (xs.set i v) = some (i, v) := by
  obtain ⟨a, b, hxs, hlen, _, hall⟩ := (findIf_eq_some p xs i x).mp h
  subst hxs hlen
  rw [set_append_cons]
  exact (findIf_eq_some p _ _ v).mpr ⟨a, b, rfl, rfl, hv, hall⟩

/-- The items of an order after `addItem`, when the product is already on the order. -/
theorem addItem_items_found (o : Order) (item : OrderItem) (i : Nat) (e : OrderItem)
    (h : findIf (fun existing => existing.productId == item.productId) o.items = some (i, e)) :
    (o.addItem item).items =
      o.items.set i
        { e with quantity := wrapInt32 (e.quantity + item.quantity),
                 totalPrice := ((wrapInt32 (e.quantity + item.quantity) : Int) : ℚ) *
                   e.unitPrice } := by
  simp [Order.addItem, h, Order.calculateTotalAmount, Order.calculateFinalAmount]

/-- The items of an order after `addItem`, when the product is not yet on the order. -/
theorem addItem_items_not_found (o : Order) (item : OrderItem)
    (h : findIf (fun existing => existing.productId == item.productId) o.items = none) :
    (o.addItem item).items = o.items ++ [item] := by
  simp [Order.addItem, h, Order.calculateTotalAmount, Order.calculateFinalAmount]

/-- `addItem` changes the items and the two derived amounts only. -/
theorem addItem_frame (o : Order) (item : OrderItem) :
    (o.addItem item).orderId = o.orderId ∧ (o.addItem item).customerId = o.customerId ∧
    (o.addItem item).customerName = o.customerName ∧ (o.addItem item).status = o.status ∧
    (o.addItem item).orderDate = o.orderDate ∧
    (o.addItem item).shippingAddress = o.shippingAddress ∧
    (o.addItem item).discountAmount = o.discountAmount ∧ (o.addItem item).notes = o.notes :=
  ⟨rfl, rfl, rfl, rfl, rfl, rfl, rfl, rfl⟩

/-- When the order has exactly one line `l` for the product, `find_if` points to it. -/
theorem findIf_of_filter_singleton {α : Type} (p : α → Bool) (xs : List α) (l : α)
    (h : xs.filter p = [l]) :
    ∃ a b, xs = a ++ l :: b ∧ findIf p xs = some (a.length, l) ∧ p l = true ∧
      (∀ y ∈ a, p y = false) ∧ (∀ y ∈ b, p y = false) := by
  have hl : l ∈ xs.filter p := by rw [h]; simp
  have hne : findIf p xs ≠ none := by
    intro hnone
    have := (findIf_eq_none p xs).mp hnone l (List.mem_filter.mp hl).1
    rw [(List.mem_filter.mp hl).2] at this
    exact absurd this (by simp)
  obtain ⟨⟨i, x⟩, hsome⟩ := Option.ne_none_iff_exists'.mp hne
  obtain ⟨a, b, hxs, hlen, hpx, hall⟩ := (findIf_eq_some p xs i x).mp hsome
  have hfa : a.filter p = [] := List.filter_eq_nil_iff.mpr (fun y hy => by simp [hall y hy])
  rw [hxs, List.filter_append, hfa, List.nil_append, List.filter_cons_of_pos hpx] at h
  have hx : x = l := (List.cons.inj h).1
  have hfb : b.filter p = [] := (List.cons.inj h).2
  subst hx hlen
  refine ⟨a, b, hxs, hsome, hpx, hall, ?_⟩
  intro y hy
  have := List.filter_eq_nil_iff.mp hfb y hy
  simpa using this

/-- The merge performed by `addItem` on an order with exactly one line `l` for the item's
product: same number of lines, and the one line for the product is `l` with the incoming
quantity added (as an `int`) and the total price recomputed from `l`'s unit price. -/
theorem addItem_merge (o : Order) (item l : OrderItem)
    (h : o.linesFor item.productId = [l]) :
    (o.addItem item).items.length = o.items.length ∧
    (o.addItem item).linesFor item.productId =
      [{ l with quantity := wrapInt32 (l.quantity + item.quantity),
                totalPrice := ((wrapInt32 (l.quantity + item.quantity) : Int) : ℚ) *
                  l.unitPrice }] := by
  obtain ⟨a, b, hxs, hfind, hpl, ha, hb⟩ := findIf_of_filter_singleton _ _ _ h
  have hitems := addItem_items_found o item a.length l hfind
  have hfa : a.filter (fun e => e.productId == item.productId) = [] :=
    List.filter_eq_nil_iff.mpr (fun y hy => by simp [ha y hy])
  have hfb : b.filter (fun e => e.productId == item.productId) = [] :=
    List.filter_eq_nil_iff.mpr (fun y hy => by simp [hb y hy])
  refine ⟨by rw [hitems, List.length_set], ?_⟩
  unfold Order.linesFor
  rw [hitems, hxs, set_append_cons, List.filter_append, hfa, List.nil_append,
    List.filter_cons_of_pos (by simpa using hpl), hfb]

/-- `addItemToOrder` on its success path: the product manager is set, the order and the
product are found and the stock check passes. -/
theorem addItemToOrder_success (m : OrderManager) (pm : ProductManager)
    (orderId productId quantity : Int) (i j : Nat) (o : Order) (p : Product)
    (hpm : m.productManager = some pm) (ho : m.getOrder orderId = some (i, o))
    (hp : pm.getProduct productId = some (j, p)) (hs : p.stockQuantity ≥ quantity) :
    m.addItemToOrder orderId productId quantity =
      (true,
        { m with
          orders := m.orders.set i (o.addItem (OrderItem.new productId p.name quantity p.price)) }) := by
  simp [OrderManager.addItemToOrder, hpm, ho, hp, Product.isInStock, hs]

/-- After a write through the pointer returned by `getOrder` that keeps the order id,
`getOrder` returns the same position and the written order. -/
theorem getOrder_set (m : OrderManager) (orderId : Int) (i : Nat) (o o' : Order)
    (ho : m.getOrder orderId = some (i, o)) (hid : o'.orderId = o.orderId) :
    OrderManager.getOrder { m with orders := m.orders.set i o' } orderId = some (i, o') := by
  have hpo : o.orderId = orderId := by
    obtain ⟨a, b, _, _, hp, _⟩ := (findIf_eq_some _ _ _ _).mp ho
    simpa using hp
  exact findIf_set_same _ _ _ _ _ ho (by simp [hid, hpo])

/-- C5, as stated, fails when q1 + q2 leaves the range of `int`: the order holds one line of
2000000000 bolts, `addItem` of 2000000000 more bolts leaves one line whose quantity is
-294967296 and whose totalPrice is -294967296 * 1, not 4000000000 and 4000000000 * 1. -/
theorem C5_duplicate_item_merge_counterexample :
    boltOrder.linesFor 1 = [manyBolts] ∧ manyBolts.quantity = 2000000000 ∧
    (boltOrder.addItem (OrderItem.new 1 "Bolt" 2000000000 1)).linesFor 1 =
      [{ productId := 1, productName := "Bolt", quantity := -294967296, unitPrice := 1,
         totalPrice := -294967296 }] ∧
    (boltOrder.addItem (OrderItem.new 1 "Bolt" 2000000000 1)).linesFor 1 ≠
      [{ manyBolts with
          quantity := manyBolts.quantity + 2000000000,
          totalPrice := ((manyBolts.quantity + 2000000000 : Int) : ℚ) * manyBolts.unitPrice }] := by
  decide!

/-- C5, amended. Duplicate-item merge: for every order that has a line `l` for product P (its
one line for P, of quantity q1 = `l.quantity`) and every q2 such that q1 + q2 lies in the
range of `int`, `Order.addItem` of an item with productId P and quantity q2 leaves the number
of lines unchanged and yields exactly one line for P, whose quantity is q1 + q2 and whose
totalPrice is (q1 + q2) * unitPrice; the same holds for the addressed order through a
successful `OrderManager.addItemToOrder`. -/
theorem C5_duplicate_item_merge_amended (o : Order) (l : OrderItem) (productId q2 : Int)
    (h : o.linesFor productId = [l])
    (hlo : -2147483648 ≤ l.quantity + q2) (hhi : l.quantity + q2 ≤ 2147483647) :
    (∀ item : OrderItem, item.productId = productId → item.quantity = q2 →
      (o.addItem item).items.length = o.items.length ∧
      (o.addItem item).linesFor productId =
        [{ l with quantity := l.quantity + q2,
                  totalPrice := ((l.quantity + q2 : Int) : ℚ) * l.unitPrice }]) ∧
    (∀ (m : OrderManager) (pm : ProductManager) (orderId : Int) (i j : Nat) (p : Product),
      m.productManager = some pm → m.getOrder orderId = some (i, o) →
      pm.getProduct productId = some (j, p) → p.stockQuantity ≥ q2 →
      ∃ o' : Order, (m.addItemToOrder orderId productId q2).1 = true ∧
        (m.addItemToOrder orderId productId q2).2.getOrder orderId = some (i, o') ∧
        o'.items.length = o.items.length ∧
        o'.linesFor productId =
          [{ l with quantity := l.quantity + q2,
                    totalPrice := ((l.quantity + q2 : Int) : ℚ) * l.unitPrice }]) := by
  have hw := wrapInt32_of_inRange (l.quantity + q2) hlo hhi
  constructor
  · intro item hid hq
    subst hid hq
    have hm := addItem_merge o item l h
    rw [hw] at hm
    exact hm
  · intro m pm orderId i j p hpm ho hp hs
    rw [addItemToOrder_success m pm orderId productId q2 i j o p hpm ho hp hs]
    refine ⟨o.addItem (OrderItem.new productId p.name q2 p.price), rfl, ?_, ?_⟩
    · exact getOrder_set m orderId i o _ ho rfl
    · have hm := addItem_merge o (OrderItem.new productId p.name q2 p.price) l h
      simp only [OrderItem.new] at hm hw ⊢
      rw [hw] at hm
      exact hm

/-- C5 amended, at a concrete input: an order with one line of 2 laptops, 3 more laptops
added, directly and through the manager: one line, of quantity 5. -/
theorem C5_duplicate_item_merge_amended_witness :
    orderWithTwoLaptops.linesFor 1 = [twoLaptops] ∧
    ((orderWithTwoLaptops.addItem (OrderItem.new 1 "Laptop" 3 (99999 / 100))).items.length =
        orderWithTwoLaptops.items.length ∧
      (orderWithTwoLaptops.addItem (OrderItem.new 1 "Laptop" 3 (99999 / 100))).linesFor 1 =
        [{ twoLaptops with
            quantity := twoLaptops.quantity + 3,
            totalPrice := ((twoLaptops.quantity + 3 : Int) : ℚ) *
              twoLaptops.unitPrice }]) ∧
    (∃ o' : Order, (managerWithTwoLaptops.addItemToOrder 1 1 3).1 = true ∧
      (managerWithTwoLaptops.addItemToOrder 1 1 3).2.getOrder 1 = some (0, o') ∧
      o'.items.length = orderWithTwoLaptops.items.length ∧
      o'.linesFor 1 =
        [{ twoLaptops with
            quantity := twoLaptops.quantity + 3,
            totalPrice := ((twoLaptops.quantity + 3 : Int) : ℚ) *
              twoLaptops.unitPrice }]) :=
  ⟨by decide!,
   (C5_duplicate_item_merge_amended orderWithTwoLaptops twoLaptops 1 3
      (by decide!) (by decide) (by decide)).1 (OrderItem.new 1 "Laptop" 3 (99999 / 100)) rfl rfl,
   (C5_duplicate_item_merge_amended orderWithTwoLaptops twoLaptops 1 3
      (by decide!) (by decide) (by decide)).2 managerWithTwoLaptops testProductManager 1 0 0
      (Product.new 1 "Laptop" "High-performance laptop" "Electronics" (99999 / 100) 50 10)
      (by decide!) (by decide!) (by decide!) (by decide)⟩

/-- The iterator returned by `find_if` points into the vector, at the element it carries. -/
theorem findIf_getElem {α : Type} (p : α → Bool) (xs : List α) (i : Nat) (x : α)
    (h : findIf p xs = some (i, x)) : i < xs.length ∧ xs[i]? = some x ∧ p x = true := by
  obtain ⟨a, b, hxs, hlen, hpx, _⟩ := (findIf_eq_some p xs i x).mp h
  subst hxs hlen
  refine ⟨by simp, ?_, hpx⟩
  rw [List.getElem?_append_right (le_refl _)]
  simp

/-- When some element satisfies the predicate, `find_if` does not reach `end()`. -/
theorem findIf_of_exists {α : Type} (p : α → Bool) (xs : List α)
    (h : ∃ x ∈ xs, p x = true) : ∃ i x, findIf p xs = some (i, x) := by
  cases hf : findIf p xs with
  | none =>
    obtain ⟨x, hx, hpx⟩ := h
    have := (findIf_eq_none p xs).mp hf x hx
    rw [hpx] at this
    exact absurd this (by simp)
  | some r => exact ⟨r.1, r.2, rfl⟩

/-- `addItemToOrder` on its failure paths. -/
theorem addItemToOrder_failure (m : OrderManager) (orderId productId quantity : Int)
    (h : m.productManager = none ∨ m.getOrder orderId = none ∨
      (∃ pm, m.productManager = some pm ∧ pm.getProduct productId = none) ∨
      (∃ pm j p, m.productManager = some pm ∧ pm.getProduct productId = some (j, p) ∧
        p.stockQuantity < quantity)) :
    m.addItemToOrder orderId productId quantity = (false, m) := by
  unfold OrderManager.addItemToOrder
  rcases h with h | h | ⟨pm, hpm, hp⟩ | ⟨pm, j, p, hpm, hp, hs⟩
  · simp [h]
  · cases hpm : m.productManager <;> simp [h]
  · simp [hpm, hp]
  · cases ho : m.getOrder orderId with
    | none => simp [hpm]
    | some r => simp [hpm, hp, Product.isInStock, hs]

/-- C6. `OrderManager.addItemToOrder(orderId, productId, quantity)` returns false and leaves
the whole manager state, hence every stored order, unchanged whenever no order has id
orderId, or no product has id productId, or the product's stockQuantity is less than
quantity. -/
theorem C6_addItemToOrder_failure_unchanged (m : OrderManager)
    (orderId productId quantity : Int)
    (h : (∀ o ∈ m.orders, o.orderId ≠ orderId) ∨
      (∀ pm, m.productManager = some pm → ∀ p ∈ pm.products, p.productId ≠ productId) ∨
      (∀ pm j p, m.productManager = some pm → pm.getProduct productId = some (j, p) →
        p.stockQuantity < quantity)) :
    m.addItemToOrder orderId productId quantity = (false, m) := by
  apply addItemToOrder_failure
  rcases h with h | h | h
  · right; left
    exact (findIf_eq_none _ _).mpr (fun o ho => by simpa using h o ho)
  · cases hpm : m.productManager with
    | none => left; rfl
    | some pm =>
      right; right; left
      exact ⟨pm, rfl, (findIf_eq_none _ _).mpr (fun p hp => by simpa using h pm hpm p hp)⟩
  · cases hpm : m.productManager with
    | none => left; rfl
    | some pm =>
      cases hp : pm.getProduct productId with
      | none => right; right; left; exact ⟨pm, rfl, hp⟩
      | some r => right; right; right; exact ⟨pm, r.1, r.2, rfl, hp, h pm r.1 r.2 hpm hp⟩

/-- C6, at a concrete input (test `AddItemInsufficientStock`): 100 laptops asked for with 50
in stock; the call returns false and the state is unchanged. -/
theorem C6_addItemToOrder_failure_unchanged_witness :
    (testOrderManager.createOrder 1 testNow).2.addItemToOrder 1 1 100 =
      (false, (testOrderManager.createOrder 1 testNow).2) :=
  C6_addItemToOrder_failure_unchanged (testOrderManager.createOrder 1 testNow).2 1 1 100
    (Or.inr (Or.inr (by
      intro pm j p hpm hp
      have hm : (testOrderManager.createOrder 1 testNow).2.productManager =
          some testProductManager := by decide!
      rw [hm] at hpm
      cases hpm
      have hg : testProductManager.getProduct 1 =
          some (0, Product.new 1 "Laptop" "High-performance laptop" "Electronics"
            (99999 / 100) 50 10) := by decide!
      rw [hg] at hp
      cases hp
      decide)))

/-- C7. Whenever an order with id orderId and a product with id productId exist and the
product's stockQuantity is at least quantity, `OrderManager.addItemToOrder` returns true and
the addressed order (the first one with that id, at position `i`) afterwards equals the
result of `Order.addItem` applied to it with `OrderItem(productId, name, quantity, price)`
built from the product's current name and price; all other orders, and the rest of the
manager state, are unchanged. -/
theorem C7_addItemToOrder_delegates_to_addItem (m : OrderManager) (pm : ProductManager)
    (orderId productId quantity : Int)
    (hpm : m.productManager = some pm)
    (hord : ∃ o ∈ m.orders, o.orderId = orderId)
    (hprod : ∃ p ∈ pm.products, p.productId = productId)
    (hstock : ∀ j p, pm.getProduct productId = some (j, p) → p.stockQuantity ≥ quantity) :
    ∃ (i j : Nat) (o : Order) (p : Product),
      m.getOrder orderId = some (i, o) ∧ m.orders[i]? = some o ∧ o.orderId = orderId ∧
      pm.getProduct productId = some (j, p) ∧ pm.products[j]? = some p ∧
      p.productId = productId ∧
      (m.addItemToOrder orderId productId quantity).1 = true ∧
      (m.addItemToOrder orderId productId quantity).2.orders.length = m.orders.length ∧
      (m.addItemToOrder orderId productId quantity).2.orders[i]? =
        some (o.addItem (OrderItem.new productId p.name quantity p.price)) ∧
      (∀ k, k ≠ i →
        (m.addItemToOrder orderId productId quantity).2.orders[k]? = m.orders[k]?) ∧
      (m.addItemToOrder orderId productId quantity).2.nextOrderId = m.nextOrderId ∧
      (m.addItemToOrder orderId productId quantity).2.productManager = m.productManager ∧
      (m.addItemToOrder orderId productId quantity).2.customerManager = m.customerManager := by
  obtain ⟨i, o, ho⟩ := findIf_of_exists (fun o => o.orderId == orderId) m.orders
    (by obtain ⟨o, hmem, hid⟩ := hord; exact ⟨o, hmem, by simp [hid]⟩)
  obtain ⟨j, p, hp⟩ := findIf_of_exists (fun p => p.productId == productId) pm.products
    (by obtain ⟨p, hmem, hid⟩ := hprod; exact ⟨p, hmem, by simp [hid]⟩)
  obtain ⟨hi, hgo, hpo⟩ := findIf_getElem _ _ _ _ ho
  obtain ⟨_, hgp, hpp⟩ := findIf_getElem _ _ _ _ hp
  refine ⟨i, j, o, p, ho, hgo, by simpa using hpo, hp, hgp, by simpa using hpp, ?_⟩
  rw [addItemToOrder_success m pm orderId productId quantity i j o p hpm ho hp (hstock j p hp)]
  refine ⟨rfl, by simp, by simp [List.getElem?_set_self hi], ?_, rfl, rfl, rfl⟩
  intro k hk
  simp [List.getElem?_set_ne (Ne.symm hk)]

/-- C7, at a concrete input (test `AddItemToOrder`): 2 laptops added to the fresh order 1. -/
theorem C7_addItemToOrder_delegates_to_addItem_witness :
    ∃ (i j : Nat) (o : Order) (p : Product),
      (testOrderManager.createOrder 1 testNow).2.getOrder 1 = some (i, o) ∧
      (testOrderManager.createOrder 1 testNow).2.orders[i]? = some o ∧ o.orderId = 1 ∧
      testProductManager.getProduct 1 = some (j, p) ∧ testProductManager.products[j]? = some p ∧
      p.productId = 1 ∧
      ((testOrderManager.createOrder 1 testNow).2.addItemToOrder 1 1 2).1 = true ∧
      ((testOrderManager.createOrder 1 testNow).2.addItemToOrder 1 1 2).2.orders.length =
        (testOrderManager.createOrder 1 testNow).2.orders.length ∧
      ((testOrderManager.createOrder 1 testNow).2.addItemToOrder 1 1 2).2.orders[i]? =
        some (o.addItem (OrderItem.new 1 p.name 2 p.price)) ∧
      (∀ k, k ≠ i →
        ((testOrderManager.createOrder 1 testNow).2.addItemToOrder 1 1 2).2.orders[k]? =
          (testOrderManager.createOrder 1 testNow).2.orders[k]?) ∧
      ((testOrderManager.createOrder 1 testNow).2.addItemToOrder 1 1 2).2.nextOrderId =
        (testOrderManager.createOrder 1 testNow).2.nextOrderId ∧
      ((testOrderManager.createOrder 1 testNow).2.addItemToOrder 1 1 2).2.productManager =
        (testOrderManager.createOrder 1 testNow).2.productManager ∧
      ((testOrderManager.createOrder 1 testNow).2.addItemToOrder 1 1 2).2.customerManager =
        (testOrderManager.createOrder 1 testNow).2.customerManager :=
  C7_addItemToOrder_delegates_to_addItem (testOrderManager.createOrder 1 testNow).2
    testProductManager 1 1 2 (by decide!)
    ⟨(Order.new 1 1 "John Doe" testNow).setShippingAddress "123 Main St, New York, USA",
      by decide!, by decide⟩
    ⟨Product.new 1 "Laptop" "High-performance laptop" "Electronics" (99999 / 100) 50 10,
      by decide!, by decide⟩
    (by
      intro j p hp
      have hg : testProductManager.getProduct 1 =
          some (0, Product.new 1 "Laptop" "High-performance laptop" "Electronics"
            (99999 / 100) 50 10) := by decide!
      rw [hg] at hp
      cases hp
      decide)

/-! ## Stock -/

/-- C8. No stock decrement: `addItemToOrder` (successful or failed) and every other
OrderManager operation (createOrder, removeItemFromOrder, updateOrderItemQuantity,
updateOrderStatus and its confirm / process / ship / deliver / cancel wrappers, deleteOrder)
leave the product catalog, hence every product's stockQuantity, unchanged. -/
theorem C8_no_stock_decrement (m : OrderManager) :
    (∀ orderId productId quantity,
      (m.addItemToOrder orderId productId quantity).2.productManager = m.productManager) ∧
    (∀ customerId now, (m.createOrder customerId now).2.productManager = m.productManager) ∧
    (∀ orderId productId,
      (m.removeItemFromOrder orderId productId).2.productManager = m.productManager) ∧
    (∀ orderId productId newQuantity,
      (m.updateOrderItemQuantity orderId productId newQuantity).2.productManager =
        m.productManager) ∧
    (∀ orderId newStatus,
      (m.updateOrderStatus orderId newStatus).2.productManager = m.productManager) ∧
    (∀ orderId, (m.confirmOrder orderId).2.productManager = m.productManager) ∧
    (∀ orderId, (m.processOrder orderId).2.productManager = m.productManager) ∧
    (∀ orderId, (m.shipOrder orderId).2.productManager = m.productManager) ∧
    (∀ orderId, (m.deliverOrder orderId).2.productManager = m.productManager) ∧
    (∀ orderId, (m.cancelOrder orderId).2.productManager = m.productManager) ∧
    (∀ orderId, (m.deleteOrder orderId).2.productManager = m.productManager) ∧
    (∀ orderId productId quantity forProduct,
      (m.addItemToOrder orderId productId quantity).2.stockOf forProduct =
        m.stockOf forProduct) := by
  have hstatus : ∀ orderId newStatus,
      (m.updateOrderStatus orderId newStatus).2.productManager = m.productManager := by
    intro orderId newStatus
    unfold OrderManager.updateOrderStatus
    split <;> rfl
  have hadd : ∀ orderId productId quantity,
      (m.addItemToOrder orderId productId quantity).2.productManager = m.productManager := by
    intro orderId productId quantity
    unfold OrderManager.addItemToOrder
    split
    · rfl
    · split
      · split_ifs <;> rfl
      · rfl
  refine ⟨hadd, ?_, ?_, ?_, hstatus, fun _ => hstatus _ _, fun _ => hstatus _ _,
    fun _ => hstatus _ _, fun _ => hstatus _ _, fun _ => hstatus _ _, ?_, ?_⟩
  · intro customerId now
    unfold OrderManager.createOrder
    split
    · rfl
    · split <;> rfl
  · intro orderId productId
    unfold OrderManager.removeItemFromOrder
    split <;> rfl
  · intro orderId productId newQuantity
    unfold OrderManager.updateOrderItemQuantity
    split <;> rfl
  · intro orderId
    unfold OrderManager.deleteOrder
    split <;> rfl
  · intro orderId productId quantity forProduct
    unfold OrderManager.stockOf
    rw [hadd]

/-- C9. The code on the scenarios of the integration tests. After orders holding 10 and 5
laptops have been filled from a stock of 50, `isProductAvailable(1, 36)` is still true (the
test expects false), as is `isProductAvailable(1, 50)`; and after the order holding 2
laptops and 1 mouse has been confirmed, processed, shipped and delivered, the stock
quantities are still 50 and 100 (the test expects 48 and 99). -/
theorem C9_stock_not_consumed_by_orders :
    (stockScenario.orders.map (fun o => o.items.map (fun item => (item.productId, item.quantity))) =
      [[(1, 10)], [(1, 5), (2, 30)]]) ∧
    (stockScenario.productManager.map
        (fun pm => (pm.isProductAvailable 1 35, pm.isProductAvailable 1 36,
          pm.isProductAvailable 1 50, pm.isProductAvailable 1 51)) =
      some (true, true, true, false)) ∧
    ((lifecycleScenario.getOrder 1).map
        (fun r => (r.2.status, r.2.items.map (fun item => (item.productId, item.quantity)))) =
      some (OrderStatus.DELIVERED, [(1, 2), (2, 1)])) ∧
    lifecycleScenario.stockOf 1 = some 50 ∧ lifecycleScenario.stockOf 2 = some 100 := by
  decide!

/-- The items of an order after `addItem` of a product that has no line on the order: the
item is appended and is the one line for its product. -/
theorem addItem_new_line (o : Order) (item : OrderItem)
    (h : o.linesFor item.productId = []) :
    (o.addItem item).items = o.items ++ [item] ∧
    (o.addItem item).linesFor item.productId = [item] := by
  have hall : ∀ x ∈ o.items, (fun e : OrderItem => e.productId == item.productId) x = false :=
    fun x hx => by simpa using List.filter_eq_nil_iff.mp h x hx
  have hitems := addItem_items_not_found o item ((findIf_eq_none _ _).mpr hall)
  refine ⟨hitems, ?_⟩
  unfold Order.linesFor at h ⊢
  rw [hitems, List.filter_append, h]
  simp

/-- C10, as stated, fails in its last part when q1 + q2 leaves the range of `int`: with
stock 2000000000, two `addItemToOrder` calls of 2000000000 bolts on the fresh order 1 both
return true and the stock stays 2000000000, but the resulting single line has quantity
-294967296, not 4000000000, and does not exceed the stock. -/
theorem C10_check_without_reserve_counterexample :
    bulkOrderManager.stockOf 1 = some 2000000000 ∧
    ((bulkOrderManager.createOrder 1 testNow).2.addItemToOrder 1 1 2000000000).1 = true ∧
    (((bulkOrderManager.createOrder 1 testNow).2.addItemToOrder 1 1 2000000000).2.addItemToOrder
      1 1 2000000000).1 = true ∧
    (((bulkOrderManager.createOrder 1 testNow).2.addItemToOrder 1 1 2000000000).2.addItemToOrder
      1 1 2000000000).2.stockOf 1 = some 2000000000 ∧
    ((((bulkOrderManager.createOrder 1 testNow).2.addItemToOrder 1 1
      2000000000).2.addItemToOrder 1 1 2000000000).2.getOrder 1).map
        (fun r => r.2.items.map (fun item => (item.productId, item.quantity))) =
      some [(1, -294967296)] ∧
    (-294967296 : Int) ≠ 2000000000 + 2000000000 := by
  decide!

/-- C10, amended. Check-without-reserve: for every product P with stock S and all quantities
q1, q2 with q1 <= S and q2 <= S, two successive `addItemToOrder` calls for P on the same
existing order both return true, whatever q1 + q2 is and whatever the order already holds,
and the product's stock is S throughout; on an order that had no line for P, when q1 + q2
lies in the range of `int`, the resulting single line for P has quantity q1 + q2. -/
theorem C10_check_without_reserve_amended (m : OrderManager) (pm : ProductManager)
    (orderId productId q1 q2 : Int) (i j : Nat) (o : Order) (p : Product)
    (hpm : m.productManager = some pm) (ho : m.getOrder orderId = some (i, o))
    (hp : pm.getProduct productId = some (j, p))
    (h1 : q1 ≤ p.stockQuantity) (h2 : q2 ≤ p.stockQuantity) :
    (m.addItemToOrder orderId productId q1).1 = true ∧
    ((m.addItemToOrder orderId productId q1).2.addItemToOrder orderId productId q2).1 = true ∧
    ((m.addItemToOrder orderId productId q1).2.addItemToOrder orderId productId q2).2.stockOf
        productId = some p.stockQuantity ∧
    (o.linesFor productId = [] → -2147483648 ≤ q1 + q2 → q1 + q2 ≤ 2147483647 →
      ∃ o2 : Order,
        ((m.addItemToOrder orderId productId q1).2.addItemToOrder orderId productId q2).2.getOrder
          orderId = some (i, o2) ∧
        o2.linesFor productId =
          [{ productId := productId, productName := p.name, quantity := q1 + q2,
             unitPrice := p.price, totalPrice := ((q1 + q2 : Int) : ℚ) * p.price }]) := by
  have e1 := addItemToOrder_success m pm orderId productId q1 i j o p hpm ho hp h1
  have ho1 := getOrder_set m orderId i o (o.addItem (OrderItem.new productId p.name q1 p.price))
    ho rfl
  have e2 := addItemToOrder_success
    { m with orders := m.orders.set i (o.addItem (OrderItem.new productId p.name q1 p.price)) }
    pm orderId productId q2 i j _ p hpm ho1 hp h2
  rw [e1]
  simp only []
  rw [e2]
  refine ⟨trivial, rfl, ?_, ?_⟩
  · simp [OrderManager.stockOf, hpm, hp]
  · intro hnone hlo hhi
    refine ⟨_, getOrder_set _ orderId i _ _ ho1 rfl, ?_⟩
    have hl := (addItem_new_line o (OrderItem.new productId p.name q1 p.price) hnone).2
    have hm := (addItem_merge _ (OrderItem.new productId p.name q2 p.price) _ hl).2
    simp only [OrderItem.new] at hm ⊢
    rw [wrapInt32_of_inRange (q1 + q2) hlo hhi] at hm
    exact hm

/-- C10 amended, at a concrete input: stock 50, the fresh order 1 (no lines), 30 laptops
added twice; both calls succeed, the stock is still 50 and the one line holds 60 laptops. -/
theorem C10_check_without_reserve_amended_witness :
    ((testOrderManager.createOrder 1 testNow).2.addItemToOrder 1 1 30).1 = true ∧
    (((testOrderManager.createOrder 1 testNow).2.addItemToOrder 1 1 30).2.addItemToOrder
      1 1 30).1 = true ∧
    (((testOrderManager.createOrder 1 testNow).2.addItemToOrder 1 1 30).2.addItemToOrder
      1 1 30).2.stockOf 1 = some 50 ∧
    (∃ o2 : Order,
      (((testOrderManager.createOrder 1 testNow).2.addItemToOrder 1 1 30).2.addItemToOrder
        1 1 30).2.getOrder 1 = some (0, o2) ∧
      o2.linesFor 1 =
        [{ productId := 1, productName := "Laptop", quantity := 30 + 30,
           unitPrice := 99999 / 100, totalPrice := ((30 + 30 : Int) : ℚ) * (99999 / 100) }]) := by
  have h := C10_check_without_reserve_amended (testOrderManager.createOrder 1 testNow).2
    testProductManager 1 1 30 30 0 0
    ((Order.new 1 1 "John Doe" testNow).setShippingAddress "123 Main St, New York, USA")
    (Product.new 1 "Laptop" "High-performance laptop" "Electronics" (99999 / 100) 50 10)
    (by decide!) (by decide!) (by decide!) (by decide) (by decide)
  exact ⟨h.1, h.2.1, h.2.2.1, h.2.2.2 (by decide!) (by decide) (by decide)⟩

/-! ## Checks that the order engine does not make -/

/-- C11. The code on test `LargeOrderQuantities`: order 1 already holds 50 mice and the
stock is 100; `addItemToOrder(1, 2, 60)` returns true (the test expects false) and the
line then holds 110 mice, more than the stock. -/
theorem C11_addItemToOrder_ignores_quantity_on_order :
    largeQuantitiesScenario.orderSummary 1 =
      some
        { status := OrderStatus.PENDING, lines := [(2, 50)], totalAmount := 2999 / 2,
          discountAmount := 0, finalAmount := 2999 / 2 } ∧
    largeQuantitiesScenario.stockOf 2 = some 100 ∧
    (largeQuantitiesScenario.addItemToOrder 1 2 60).1 = true ∧
    (largeQuantitiesScenario.addItemToOrder 1 2 60).2.orderSummary 1 =
      some
        { status := OrderStatus.PENDING, lines := [(2, 110)], totalAmount := 32989 / 10,
          discountAmount := 0, finalAmount := 32989 / 10 } := by
  decide!

/-- C12. The code on test `UpdateOrderItemQuantityInsufficientStock`: order 1 holds 2
laptops and the stock is 50; `updateOrderItemQuantity(1, 1, 100)` returns true (the test
expects false), the line then holds 100 laptops and the totals follow. -/
theorem C12_updateOrderItemQuantity_ignores_stock :
    managerWithTwoLaptops.orderSummary 1 =
      some
        { status := OrderStatus.PENDING, lines := [(1, 2)], totalAmount := 99999 / 50,
          discountAmount := 0, finalAmount := 99999 / 50 } ∧
    managerWithTwoLaptops.stockOf 1 = some 50 ∧
    (managerWithTwoLaptops.updateOrderItemQuantity 1 1 100).1 = true ∧
    (managerWithTwoLaptops.updateOrderItemQuantity 1 1 100).2.orderSummary 1 =
      some
        { status := OrderStatus.PENDING, lines := [(1, 100)], totalAmount := 99999,
          discountAmount := 0, finalAmount := 99999 } := by
  decide!

/-- C13. The code on the last call of test `DataConsistencyValidation`: order 1 holds 1
laptop and is CONFIRMED; `addItemToOrder(1, 2, 1)` returns true (the test expects false)
and the confirmed order gains a second line and a new total. -/
theorem C13_addItemToOrder_ignores_status :
    confirmedOrderScenario.orderSummary 1 =
      some
        { status := OrderStatus.CONFIRMED, lines := [(1, 1)], totalAmount := 99999 / 100,
          discountAmount := 0, finalAmount := 99999 / 100 } ∧
    (confirmedOrderScenario.addItemToOrder 1 2 1).1 = true ∧
    (confirmedOrderScenario.addItemToOrder 1 2 1).2.orderSummary 1 =
      some
        { status := OrderStatus.CONFIRMED, lines := [(1, 1), (2, 1)], totalAmount := 51499 / 50,
          discountAmount := 0, finalAmount := 51499 / 50 } := by
  decide!

/-! ## Creating orders -/

/-- C14. `OrderManager.createOrder(customerId)` returns false when no CustomerManager is set
or no customer with that id exists in it, and then the whole manager state, in particular the
order collection and the next order id, is unchanged. -/
theorem C14_createOrder_unknown_customer (m : OrderManager) (customerId : Int) (now : String)
    (h : m.customerManager = none ∨
      ∀ cm, m.customerManager = some cm → ∀ c ∈ cm.customers, c.customerId ≠ customerId) :
    m.createOrder customerId now = (false, m) ∧
    (m.createOrder customerId now).2.orders = m.orders ∧
    (m.createOrder customerId now).2.nextOrderId = m.nextOrderId := by
  have hres : m.createOrder customerId now = (false, m) := by
    unfold OrderManager.createOrder
    cases hcm : m.customerManager with
    | none => rfl
    | some cm =>
      rcases h with h | h
      · rw [hcm] at h
        exact absurd h (by simp)
      · have hnone : cm.getCustomer customerId = none :=
          (findIf_eq_none _ _).mpr (fun c hc => by simpa using h cm hcm c hc)
        simp [hnone]
  rw [hres]
  exact ⟨rfl, rfl, rfl⟩

/-- C14, at a concrete input (test `CreateOrderInvalidCustomer`): customer 999 does not
exist. -/
theorem C14_createOrder_unknown_customer_witness :
    testOrderManager.createOrder 999 testNow = (false, testOrderManager) ∧
    (testOrderManager.createOrder 999 testNow).2.orders = testOrderManager.orders ∧
    (testOrderManager.createOrder 999 testNow).2.nextOrderId = testOrderManager.nextOrderId :=
  C14_createOrder_unknown_customer testOrderManager 999 testNow
    (Or.inr (by
      intro cm hcm c hc
      have hm : testOrderManager.customerManager = some testCustomerManager := rfl
      rw [hm] at hcm
      cases hcm
      have hall : ∀ c ∈ testCustomerManager.customers, c.customerId ≠ 999 := by decide
      exact hall c hc))

/-- C15. When a customer with id customerId exists, `OrderManager.createOrder` returns true
and appends exactly one order to the end of the collection, leaving the existing orders
unchanged; the new order has orderId equal to the previous next-id counter, which is then
incremented by one (the `int` increment `nextOrderId++`: the counter plus one whenever the
counter is below 2147483647), the given customerId, the name of the customer (the first one
with that id), shippingAddress address + ", " + city + ", " + country, status PENDING, no
items, and totalAmount = discountAmount = finalAmount = 0. -/
theorem C15_createOrder_appends_new_order (m : OrderManager) (cm : CustomerManager)
    (customerId : Int) (now : String)
    (hcm : m.customerManager = some cm)
    (hex : ∃ c ∈ cm.customers, c.customerId = customerId) :
    ∃ (j : Nat) (c : Customer),
      cm.getCustomer customerId = some (j, c) ∧ cm.customers[j]? = some c ∧
      c.customerId = customerId ∧
      (m.createOrder customerId now).1 = true ∧
      (m.createOrder customerId now).2.orders =
        m.orders ++
          [{ orderId := m.nextOrderId, customerId := customerId, customerName := c.name,
             items := [], status := OrderStatus.PENDING, orderDate := now,
             shippingAddress := c.address ++ ", " ++ c.city ++ ", " ++ c.country,
             totalAmount := 0, discountAmount := 0, finalAmount := 0, notes := "" }] ∧
      (m.createOrder customerId now).2.nextOrderId = wrapInt32 (m.nextOrderId + 1) ∧
      (-2147483648 ≤ m.nextOrderId + 1 → m.nextOrderId + 1 ≤ 2147483647 →
        (m.createOrder customerId now).2.nextOrderId = m.nextOrderId + 1) ∧
      (m.createOrder customerId now).2.productManager = m.productManager ∧
      (m.createOrder customerId now).2.customerManager = m.customerManager := by
  obtain ⟨j, c, hc⟩ := findIf_of_exists (fun c => c.customerId == customerId) cm.customers
    (by obtain ⟨c, hmem, hid⟩ := hex; exact ⟨c, hmem, by simp [hid]⟩)
  obtain ⟨_, hgc, hpc⟩ := findIf_getElem _ _ _ _ hc
  have hc' : cm.getCustomer customerId = some (j, c) := hc
  refine ⟨j, c, hc, hgc, by simpa using hpc, ?_⟩
  simp only [OrderManager.createOrder, hcm, hc', OrderManager.generateNextId, Order.new,
    Order.setShippingAddress]
  exact ⟨trivial, trivial, trivial, fun hlo hhi => wrapInt32_of_inRange _ hlo hhi, trivial,
    trivial⟩

/-- C15, at a concrete input (test `CreateOrder`): the first order for customer 1. -/
theorem C15_createOrder_appends_new_order_witness :
    ∃ (j : Nat) (c : Customer),
      testCustomerManager.getCustomer 1 = some (j, c) ∧
      testCustomerManager.customers[j]? = some c ∧ c.customerId = 1 ∧
      (testOrderManager.createOrder 1 testNow).1 = true ∧
      (testOrderManager.createOrder 1 testNow).2.orders =
        testOrderManager.orders ++
          [{ orderId := testOrderManager.nextOrderId, customerId := 1, customerName := c.name,
             items := [], status := OrderStatus.PENDING, orderDate := testNow,
             shippingAddress := c.address ++ ", " ++ c.city ++ ", " ++ c.country,
             totalAmount := 0, discountAmount := 0, finalAmount := 0, notes := "" }] ∧
      (testOrderManager.createOrder 1 testNow).2.nextOrderId =
        wrapInt32 (testOrderManager.nextOrderId + 1) ∧
      (-2147483648 ≤ testOrderManager.nextOrderId + 1 →
        testOrderManager.nextOrderId + 1 ≤ 2147483647 →
        (testOrderManager.createOrder 1 testNow).2.nextOrderId =
          testOrderManager.nextOrderId + 1) ∧
      (testOrderManager.createOrder 1 testNow).2.productManager =
        testOrderManager.productManager ∧
      (testOrderManager.createOrder 1 testNow).2.customerManager =
        testOrderManager.customerManager :=
  C15_createOrder_appends_new_order testOrderManager testCustomerManager 1 testNow rfl
    ⟨{ customerId := 1, name := "John Doe", email := "john@email.com", phone := "+1234567890",
       address := "123 Main St", city := "New York", country := "USA", isActive := true },
      by decide, by decide⟩

/-! ## The end-to-end scenario -/

/-- C16. The code on the end-to-end scenario, amounts as exact decimals: `createOrder` for
the existing customer 1 and the two `addItemToOrder` calls (2 units at 999.99, 1 unit at
29.99) return true and give totalAmount 2029.97; `applyDiscount(1, 10)` returns false and
changes nothing, so discountAmount stays 0 and finalAmount 2029.97 (tests `ApplyDiscount` and
`CompleteOrderLifecycle` expect true and a discount of 10%; `Order::applyDiscount(10)` on the
same order gives 202.997 and 1826.973). The rest is as claimed: confirmOrder, processOrder,
shipOrder and deliverOrder each return true in that sequence and the status ends at
DELIVERED; a cancelOrder attempted once the order is SHIPPED returns false and leaves the
order as it is, SHIPPED. -/
theorem C16_applyDiscount_placeholder_returns_false :
    (testOrderManager.createOrder 1 testNow).1 = true ∧
    ((testOrderManager.createOrder 1 testNow).2.addItemToOrder 1 1 2).1 = true ∧
    (((testOrderManager.createOrder 1 testNow).2.addItemToOrder 1 1 2).2.addItemToOrder 1 2 1).1 =
      true ∧
    endToEndOrdered.orderSummary 1 =
      some
        { status := OrderStatus.PENDING, lines := [(1, 2), (2, 1)], totalAmount := 202997 / 100,
          discountAmount := 0, finalAmount := 202997 / 100 } ∧
    endToEndOrdered.applyDiscount 1 10 = (false, endToEndOrdered) ∧
    endToEndDiscounted.orderSummary 1 =
      some
        { status := OrderStatus.PENDING, lines := [(1, 2), (2, 1)], totalAmount := 202997 / 100,
          discountAmount := 0, finalAmount := 202997 / 100 } ∧
    (endToEndOrdered.getOrder 1).map (fun r => (r.2.applyDiscount 10).discountAmount) =
      some (202997 / 1000) ∧
    (endToEndOrdered.getOrder 1).map (fun r => (r.2.applyDiscount 10).finalAmount) =
      some (1826973 / 1000) ∧
    (endToEndDiscounted.confirmOrder 1).1 = true ∧
    ((endToEndDiscounted.confirmOrder 1).2.getOrder 1).map (fun r => r.2.status) =
      some OrderStatus.CONFIRMED ∧
    ((endToEndDiscounted.confirmOrder 1).2.processOrder 1).1 = true ∧
    (((endToEndDiscounted.confirmOrder 1).2.processOrder 1).2.getOrder 1).map
      (fun r => r.2.status) = some OrderStatus.PROCESSING ∧
    (((endToEndDiscounted.confirmOrder 1).2.processOrder 1).2.shipOrder 1).1 = true ∧
    endToEndShipped.orderSummary 1 =
      some
        { status := OrderStatus.SHIPPED, lines := [(1, 2), (2, 1)], totalAmount := 202997 / 100,
          discountAmount := 0, finalAmount := 202997 / 100 } ∧
    endToEndShipped.cancelOrder 1 = (false, endToEndShipped) ∧
    (endToEndShipped.deliverOrder 1).1 = true ∧
    (endToEndShipped.deliverOrder 1).2.orderSummary 1 =
      some
        { status := OrderStatus.DELIVERED, lines := [(1, 2), (2, 1)],
          totalAmount := 202997 / 100, discountAmount := 0, finalAmount := 202997 / 100 } := by
  decide!

/-! ## Terminal states -/

/-- Writing back the value an iterator points to changes nothing. -/
theorem set_of_getElem? {α : Type} (xs : List α) (i : Nat) (x : α) (h : xs[i]? = some x) :
    xs.set i x = xs := by
  induction xs generalizing i with
  | nil => rfl
  | cons y ys ih =>
    cases i with
    | zero =>
      simp at h
      simp [h]
    | succ k =>
      simp at h
      simp [ih k h]

/-- In a terminal state `updateStatus` rejects every target and changes nothing. -/
theorem updateStatus_terminal (o : Order)
    (h : o.status = OrderStatus.DELIVERED ∨ o.status = OrderStatus.CANCELLED)
    (newStatus : OrderStatus) : o.updateStatus newStatus = (false, o) := by
  rcases h with h | h <;> simp [Order.updateStatus, Order.canChangeStatusTo, h]

/-- Every status call is `updateOrderStatus` on the addressed id with some target. -/
theorem statusCall_eq_updateOrderStatus (m : OrderManager) (call : StatusCall) :
    ∃ newStatus, m.statusCall call = m.updateOrderStatus call.orderId newStatus := by
  cases call with
  | updateOrderStatus orderId newStatus => exact ⟨newStatus, rfl⟩
  | confirmOrder orderId => exact ⟨OrderStatus.CONFIRMED, rfl⟩
  | processOrder orderId => exact ⟨OrderStatus.PROCESSING, rfl⟩
  | shipOrder orderId => exact ⟨OrderStatus.SHIPPED, rfl⟩
  | deliverOrder orderId => exact ⟨OrderStatus.DELIVERED, rfl⟩
  | cancelOrder orderId => exact ⟨OrderStatus.CANCELLED, rfl⟩

/-- `updateOrderStatus`, whatever order it addresses, leaves an order in a terminal state
where and as it is. -/
theorem updateOrderStatus_keeps_terminal (m : OrderManager) (i : Nat) (o : Order)
    (hget : m.orders[i]? = some o)
    (h : o.status = OrderStatus.DELIVERED ∨ o.status = OrderStatus.CANCELLED)
    (orderId : Int) (newStatus : OrderStatus) :
    (m.updateOrderStatus orderId newStatus).2.orders[i]? = some o := by
  unfold OrderManager.updateOrderStatus
  cases hg : m.getOrder orderId with
  | none => simpa using hget
  | some r =>
    obtain ⟨k, ok⟩ := r
    obtain ⟨hk, hgk, _⟩ := findIf_getElem _ _ _ _ hg
    by_cases hki : k = i
    · subst hki
      have hok : ok = o := Option.some.inj (hgk.symm.trans hget)
      subst hok
      simp [updateStatus_terminal ok h, List.getElem?_set_self hk]
    · simp [List.getElem?_set_ne hki, hget]

/-- A sequence of status calls leaves an order in a terminal state where and as it is. -/
theorem runStatusCalls_keeps_terminal (calls : List StatusCall) (m : OrderManager) (i : Nat)
    (o : Order) (hget : m.orders[i]? = some o)
    (h : o.status = OrderStatus.DELIVERED ∨ o.status = OrderStatus.CANCELLED) :
    (m.runStatusCalls calls).orders[i]? = some o := by
  induction calls generalizing m with
  | nil => exact hget
  | cons call rest ih =>
    obtain ⟨newStatus, hcall⟩ := statusCall_eq_updateOrderStatus m call
    have hstep := updateOrderStatus_keeps_terminal m i o hget h call.orderId newStatus
    rw [← hcall] at hstep
    exact ih (m.statusCall call).2 hstep

/-- C17. Terminal states are absorbing: once an order's status is DELIVERED or CANCELLED,
every call in any sequence of `Order.updateStatus` calls returns false and the order stays
as it is; and for such an order stored in an OrderManager, after any sequence of
updateOrderStatus / confirm / process / ship / deliver / cancel calls (whatever orders they
address) the order is still stored unchanged, and every further such call that addresses it
returns false and changes nothing. -/
theorem C17_terminal_states_absorbing (o : Order)
    (h : o.status = OrderStatus.DELIVERED ∨ o.status = OrderStatus.CANCELLED) :
    (∀ targets : List OrderStatus,
      o.updateStatusAll targets = (List.replicate targets.length false, o)) ∧
    (∀ (m : OrderManager) (i : Nat), m.orders[i]? = some o →
      ∀ calls : List StatusCall,
        (m.runStatusCalls calls).orders[i]? = some o ∧
        ∀ (call : StatusCall) (o' : Order),
          (m.runStatusCalls calls).getOrder call.orderId = some (i, o') →
          o' = o ∧ (m.runStatusCalls calls).statusCall call = (false, m.runStatusCalls calls)) := by
  constructor
  · intro targets
    induction targets with
    | nil => rfl
    | cons newStatus rest ih =>
      simp [Order.updateStatusAll, updateStatus_terminal o h, ih, List.replicate_succ]
  · intro m i hget calls
    have hkeep := runStatusCalls_keeps_terminal calls m i o hget h
    refine ⟨hkeep, ?_⟩
    intro call o' hg
    obtain ⟨hi, hgi, _⟩ := findIf_getElem _ _ _ _ hg
    have ho' : o' = o := Option.some.inj (hgi.symm.trans hkeep)
    subst ho'
    refine ⟨rfl, ?_⟩
    obtain ⟨newStatus, hcall⟩ := statusCall_eq_updateOrderStatus (m.runStatusCalls calls) call
    rw [hcall]
    simp only [OrderManager.updateOrderStatus, hg, updateStatus_terminal o' h]
    congr 1
    have hset : (m.runStatusCalls calls).orders.set i o' = (m.runStatusCalls calls).orders :=
      set_of_getElem? (m.runStatusCalls calls).orders i o' hgi
    rw [hset]

/-- C17, at a concrete input: the delivered order of the end-to-end scenario; three further
`updateStatus` calls and three further manager calls leave it DELIVERED, and a `cancelOrder`
after them returns false. -/
theorem C17_terminal_states_absorbing_witness :
    (deliveredOrder.status = OrderStatus.DELIVERED ∨
      deliveredOrder.status = OrderStatus.CANCELLED) ∧
    deliveredOrder.updateStatusAll
        [OrderStatus.CANCELLED, OrderStatus.PENDING, OrderStatus.SHIPPED] =
      (List.replicate 3 false, deliveredOrder) ∧
    (endToEndDelivered.runStatusCalls
        [StatusCall.cancelOrder 1, StatusCall.confirmOrder 1,
          StatusCall.updateOrderStatus 1 OrderStatus.PROCESSING]).orders[0]? =
      some deliveredOrder ∧
    (endToEndDelivered.runStatusCalls
        [StatusCall.cancelOrder 1, StatusCall.confirmOrder 1,
          StatusCall.updateOrderStatus 1 OrderStatus.PROCESSING]).statusCall
        (StatusCall.cancelOrder 1) =
      (false, endToEndDelivered.runStatusCalls
        [StatusCall.cancelOrder 1, StatusCall.confirmOrder 1,
          StatusCall.updateOrderStatus 1 OrderStatus.PROCESSING]) := by
  have h := C17_terminal_states_absorbing deliveredOrder (Or.inl (by decide!))
  have hm := h.2 endToEndDelivered 0 (by decide!)
    [StatusCall.cancelOrder 1, StatusCall.confirmOrder 1,
      StatusCall.updateOrderStatus 1 OrderStatus.PROCESSING]
  exact ⟨Or.inl (by decide!),
    h.1 [OrderStatus.CANCELLED, OrderStatus.PENDING, OrderStatus.SHIPPED], hm.1,
    (hm.2 (StatusCall.cancelOrder 1) deliveredOrder (by decide!)).2⟩

/-! ## Discounts -/

/-- C18. For every order and every percent p with 0 <= p <= 100, `Order.applyDiscount(p)`
sets discountAmount to totalAmount * p / 100 and finalAmount to
max(0, totalAmount - discountAmount), and leaves items, totalAmount, status and all other
fields unchanged. -/
theorem C18_applyDiscount_in_range (o : Order) (p : ℚ) (h0 : 0 ≤ p) (h100 : p ≤ 100) :
    o.applyDiscount p =
      { o with discountAmount := o.totalAmount * p / 100,
               finalAmount := max 0 (o.totalAmount - o.totalAmount * p / 100) } := by
  have hd : o.totalAmount * (p / 100) = o.totalAmount * p / 100 := by ring
  simp only [Order.applyDiscount, ge_iff_le, h0, h100, and_self, if_true,
    Order.calculateFinalAmount, clamp_eq_max, hd]

/-- C18, at a concrete input (test `ApplyDiscount`): total 1999.98 and p = 10 give
discountAmount 199.998 and finalAmount 1799.982. -/
theorem C18_applyDiscount_in_range_witness :
    orderWithTwoLaptops.totalAmount = 199998 / 100 ∧
    orderWithTwoLaptops.applyDiscount 10 =
      { orderWithTwoLaptops with
          discountAmount := orderWithTwoLaptops.totalAmount * 10 / 100,
          finalAmount := max 0 (orderWithTwoLaptops.totalAmount -
            orderWithTwoLaptops.totalAmount * 10 / 100) } ∧
    (orderWithTwoLaptops.applyDiscount 10).discountAmount = 199998 / 1000 ∧
    (orderWithTwoLaptops.applyDiscount 10).finalAmount = 1799982 / 1000 :=
  ⟨by decide!, C18_applyDiscount_in_range orderWithTwoLaptops 10 (by decide!) (by decide!),
    by decide!, by decide!⟩

/-- C19. For every order and every percent p with p < 0 or p > 100, `Order.applyDiscount(p)`
is a no-op: discountAmount, finalAmount and every other field of the order are unchanged. -/
theorem C19_applyDiscount_out_of_range (o : Order) (p : ℚ) (h : p < 0 ∨ p > 100) :
    o.applyDiscount p = o := by
  have hn : ¬ (p ≥ 0 ∧ p ≤ 100) := by
    rintro ⟨h0, h100⟩
    rcases h with h | h
    · exact absurd h0 (not_le.mpr h)
    · exact absurd h100 (not_le.mpr h)
  simp only [Order.applyDiscount, hn, if_false]

/-- C19, at a concrete input (test `ApplyDiscountInvalidPercentage`): `applyDiscount(-5)`
and `applyDiscount(101)` change nothing. -/
theorem C19_applyDiscount_out_of_range_witness :
    orderWithTwoLaptops.applyDiscount (-5) = orderWithTwoLaptops ∧
    orderWithTwoLaptops.applyDiscount 101 = orderWithTwoLaptops :=
  ⟨C19_applyDiscount_out_of_range orderWithTwoLaptops (-5) (Or.inl (by decide!)),
   C19_applyDiscount_out_of_range orderWithTwoLaptops 101 (Or.inr (by decide!))⟩

/-! ## Validity -/

/-- C20. `Order.isValid()` returns true if and only if orderId > 0 and customerId > 0 and
customerName is non-empty and the item list is non-empty and finalAmount >= 0; consequently
every order with zero items, in particular a default-constructed order and
`Order(id, customerId, name)` before any addItem, is invalid. -/
theorem C20_isValid_iff (o : Order) (id customerId : Int) (customerName now : String) :
    (o.isValid = true ↔
      o.orderId > 0 ∧ o.customerId > 0 ∧ o.customerName ≠ "" ∧ o.items ≠ [] ∧
        o.finalAmount ≥ 0) ∧
    (o.items = [] → o.isValid = false) ∧
    (Order.default now).isValid = false ∧
    (Order.new id customerId customerName now).isValid = false := by
  refine ⟨?_, ?_, ?_, ?_⟩
  · simp only [Order.isValid, Bool.and_eq_true, decide_eq_true_eq, Bool.not_eq_true',
      ← Bool.not_eq_true, String.isEmpty_iff, List.isEmpty_iff, and_assoc]
  · intro hitems
    simp [Order.isValid, hitems]
  · simp [Order.isValid, Order.default]
  · simp [Order.isValid, Order.new]

/-! ## Removing items and changing quantities -/

/-- Recomputing both totals of an order whose items were replaced, in explicit form. -/
theorem recalculate_items (o : Order) (items : List OrderItem) :
    ({ o with items := items }).calculateTotalAmount.calculateFinalAmount =
      { o with items := items, totalAmount := sumTotalPrice items,
               finalAmount := max 0 (sumTotalPrice items - o.discountAmount) } := by
  simp only [Order.calculateTotalAmount, Order.calculateFinalAmount, foldl_totalPrice,
    clamp_eq_max, zero_add]

/-- When some element satisfies the predicate, the vector splits at the first such element,
which is the one `find_if` returns. -/
theorem findIf_split_of_exists {α : Type} (p : α → Bool) (xs : List α)
    (h : ∃ x ∈ xs, p x = true) :
    ∃ a x b, xs = a ++ x :: b ∧ p x = true ∧ (∀ y ∈ a, p y = false) ∧
      findIf p xs = some (a.length, x) := by
  obtain ⟨i, x, hf⟩ := findIf_of_exists p xs h
  obtain ⟨a, b, hxs, hlen, hpx, hall⟩ := (findIf_eq_some p xs i x).mp hf
  subst hlen
  exact ⟨a, x, b, hxs, hpx, hall, hf⟩

/-- `removeItem` when the product is on the order: the first line for it is erased and the
totals are recomputed. -/
theorem removeItem_found (o : Order) (productId : Int) (a b : List OrderItem) (x : OrderItem)
    (hitems : o.items = a ++ x :: b)
    (hf : findIf (fun item => item.productId == productId) o.items = some (a.length, x)) :
    o.removeItem productId =
      (true, { o with items := a ++ b, totalAmount := sumTotalPrice (a ++ b),
                      finalAmount := max 0 (sumTotalPrice (a ++ b) - o.discountAmount) }) := by
  simp only [Order.removeItem, hf]
  rw [recalculate_items, hitems, eraseIdx_append_cons]

/-- `removeItem` when the product is not on the order. -/
theorem removeItem_not_found (o : Order) (productId : Int)
    (h : ∀ x ∈ o.items, x.productId ≠ productId) : o.removeItem productId = (false, o) := by
  have hf : findIf (fun item => item.productId == productId) o.items = none :=
    (findIf_eq_none _ _).mpr (fun x hx => by simpa using h x hx)
  simp only [Order.removeItem, hf]

/-- C21. `Order.removeItem(productId)`: if some line has that productId it returns true,
removes that line (the first one for the product), keeps every other line unchanged and in
the same relative order, recomputes totalAmount and finalAmount and changes nothing else; if
no line has that productId it returns false and the whole order is unchanged. -/
theorem C21_removeItem (o : Order) (productId : Int) :
    ((∃ x ∈ o.items, x.productId = productId) →
      ∃ (a : List OrderItem) (x : OrderItem) (b : List OrderItem),
        o.items = a ++ x :: b ∧ x.productId = productId ∧
        (∀ y ∈ a, y.productId ≠ productId) ∧
        o.removeItem productId =
          (true, { o with items := a ++ b, totalAmount := sumTotalPrice (a ++ b),
                          finalAmount := max 0 (sumTotalPrice (a ++ b) - o.discountAmount) })) ∧
    ((∀ x ∈ o.items, x.productId ≠ productId) → o.removeItem productId = (false, o)) := by
  constructor
  · intro hex
    obtain ⟨a, x, b, hitems, hpx, hall, hf⟩ :=
      findIf_split_of_exists (fun item : OrderItem => item.productId == productId) o.items
        (by obtain ⟨x, hx, hid⟩ := hex; exact ⟨x, hx, by simp [hid]⟩)
    exact ⟨a, x, b, hitems, by simpa using hpx, fun y hy => by simpa using hall y hy,
      removeItem_found o productId a b x hitems hf⟩
  · exact removeItem_not_found o productId

/-- C21, at a concrete input (test `RemoveItem`): laptop and mouse on the order; removing
product 1 succeeds, removing product 999 returns false and changes nothing. -/
theorem C21_removeItem_witness :
    (∃ (a : List OrderItem) (x : OrderItem) (b : List OrderItem),
      orderLaptopMouse.items = a ++ x :: b ∧ x.productId = 1 ∧ (∀ y ∈ a, y.productId ≠ 1) ∧
      orderLaptopMouse.removeItem 1 =
        (true, { orderLaptopMouse with
          items := a ++ b, totalAmount := sumTotalPrice (a ++ b),
          finalAmount := max 0 (sumTotalPrice (a ++ b) - orderLaptopMouse.discountAmount) })) ∧
    orderLaptopMouse.removeItem 999 = (false, orderLaptopMouse) ∧
    (orderLaptopMouse.removeItem 1).2.items = [oneMouse] :=
  ⟨(C21_removeItem orderLaptopMouse 1).1 ⟨twoLaptops, by decide!, by decide⟩,
   (C21_removeItem orderLaptopMouse 999).2 (by decide!), by decide!⟩

/-- `updateItemQuantity` with a positive quantity when the product is on the order. -/
theorem updateItemQuantity_found (o : Order) (productId newQuantity : Int)
    (a b : List OrderItem) (x : OrderItem) (hq : newQuantity > 0)
    (hitems : o.items = a ++ x :: b)
    (hf : findIf (fun item => item.productId == productId) o.items = some (a.length, x)) :
    o.updateItemQuantity productId newQuantity =
      (true,
        { o with
          items := a ++ { x with quantity := newQuantity,
                                 totalPrice := (newQuantity : ℚ) * x.unitPrice } :: b,
          totalAmount := sumTotalPrice
            (a ++ { x with quantity := newQuantity,
                           totalPrice := (newQuantity : ℚ) * x.unitPrice } :: b),
          finalAmount := max 0 (sumTotalPrice
            (a ++ { x with quantity := newQuantity,
                           totalPrice := (newQuantity : ℚ) * x.unitPrice } :: b) -
              o.discountAmount) }) := by
  simp only [Order.updateItemQuantity, not_le.mpr hq, if_false, hf]
  rw [recalculate_items, hitems, set_append_cons]

/-- C22. `Order.updateItemQuantity(productId, q)` with q > 0: if a line for productId exists
it returns true, sets that line's quantity to q and its totalPrice to q * unitPrice, leaves
its unitPrice and productName and all other lines unchanged, recomputes the order totals and
changes nothing else; if no such line exists it returns false and the order is unchanged. -/
theorem C22_updateItemQuantity_positive (o : Order) (productId q : Int) (hq : q > 0) :
    ((∃ x ∈ o.items, x.productId = productId) →
      ∃ (a : List OrderItem) (x : OrderItem) (b : List OrderItem),
        o.items = a ++ x :: b ∧ x.productId = productId ∧
        (∀ y ∈ a, y.productId ≠ productId) ∧
        o.updateItemQuantity productId q =
          (true,
            { o with
              items := a ++ { productId := x.productId, productName := x.productName,
                              quantity := q, unitPrice := x.unitPrice,
                              totalPrice := (q : ℚ) * x.unitPrice } :: b,
              totalAmount := sumTotalPrice
                (a ++ { productId := x.productId, productName := x.productName,
                        quantity := q, unitPrice := x.unitPrice,
                        totalPrice := (q : ℚ) * x.unitPrice } :: b),
              finalAmount := max 0 (sumTotalPrice
                (a ++ { productId := x.productId, productName := x.productName,
                        quantity := q, unitPrice := x.unitPrice,
                        totalPrice := (q : ℚ) * x.unitPrice } :: b) - o.discountAmount) })) ∧
    ((∀ x ∈ o.items, x.productId ≠ productId) →
      o.updateItemQuantity productId q = (false, o)) := by
  constructor
  · intro hex
    obtain ⟨a, x, b, hitems, hpx, hall, hf⟩ :=
      findIf_split_of_exists (fun item : OrderItem => item.productId == productId) o.items
        (by obtain ⟨x, hx, hid⟩ := hex; exact ⟨x, hx, by simp [hid]⟩)
    exact ⟨a, x, b, hitems, by simpa using hpx, fun y hy => by simpa using hall y hy,
      updateItemQuantity_found o productId q a b x hq hitems hf⟩
  · intro h
    have hf : findIf (fun item => item.productId == productId) o.items = none :=
      (findIf_eq_none _ _).mpr (fun x hx => by simpa using h x hx)
    simp only [Order.updateItemQuantity, not_le.mpr hq, if_false, hf]

/-- C22, at a concrete input (test `UpdateItemQuantity`): quantity 2 at 999.99 updated to 5
gives totalPrice 4999.95; updating the absent product 999 returns false. -/
theorem C22_updateItemQuantity_positive_witness :
    (∃ (a : List OrderItem) (x : OrderItem) (b : List OrderItem),
      orderLaptop.items = a ++ x :: b ∧ x.productId = 1 ∧ (∀ y ∈ a, y.productId ≠ 1) ∧
      orderLaptop.updateItemQuantity 1 5 =
        (true,
          { orderLaptop with
            items := a ++ { productId := x.productId, productName := x.productName,
                            quantity := 5, unitPrice := x.unitPrice,
                            totalPrice := ((5 : Int) : ℚ) * x.unitPrice } :: b,
            totalAmount := sumTotalPrice
              (a ++ { productId := x.productId, productName := x.productName,
                      quantity := 5, unitPrice := x.unitPrice,
                      totalPrice := ((5 : Int) : ℚ) * x.unitPrice } :: b),
            finalAmount := max 0 (sumTotalPrice
              (a ++ { productId := x.productId, productName := x.productName,
                      quantity := 5, unitPrice := x.unitPrice,
                      totalPrice := ((5 : Int) : ℚ) * x.unitPrice } :: b) -
                orderLaptop.discountAmount) })) ∧
    orderLaptop.updateItemQuantity 999 3 = (false, orderLaptop) ∧
    (orderLaptop.updateItemQuantity 1 5).2.items =
      [{ productId := 1, productName := "Laptop", quantity := 5, unitPrice := 99999 / 100,
         totalPrice := 499995 / 100 }] :=
  ⟨(C22_updateItemQuantity_positive orderLaptop 1 5 (by decide)).1
      ⟨twoLaptops, by decide!, by decide⟩,
   (C22_updateItemQuantity_positive orderLaptop 999 3 (by decide)).2 (by decide!), by decide!⟩

/-- C23. For every order, productId and newQuantity <= 0,
`Order.updateItemQuantity(productId, newQuantity)` has exactly the return value and the
resulting order of `Order.removeItem(productId)`: when the product is present it returns true
and the (first) line for it is removed, when it is absent it returns false and nothing
changes. -/
theorem C23_updateItemQuantity_nonpositive_is_removeItem (o : Order)
    (productId newQuantity : Int) (h : newQuantity ≤ 0) :
    o.updateItemQuantity productId newQuantity = o.removeItem productId ∧
    ((∃ x ∈ o.items, x.productId = productId) →
      (o.updateItemQuantity productId newQuantity).1 = true ∧
      ∃ (a : List OrderItem) (x : OrderItem) (b : List OrderItem),
        o.items = a ++ x :: b ∧ x.productId = productId ∧
        (∀ y ∈ a, y.productId ≠ productId) ∧
        (o.updateItemQuantity productId newQuantity).2.items = a ++ b) ∧
    ((∀ x ∈ o.items, x.productId ≠ productId) →
      o.updateItemQuantity productId newQuantity = (false, o)) := by
  have heq : o.updateItemQuantity productId newQuantity = o.removeItem productId := by
    simp only [Order.updateItemQuantity, h, if_true]
  refine ⟨heq, ?_, ?_⟩
  · intro hex
    obtain ⟨a, x, b, hitems, hpx, hall, hf⟩ :=
      findIf_split_of_exists (fun item : OrderItem => item.productId == productId) o.items
        (by obtain ⟨x, hx, hid⟩ := hex; exact ⟨x, hx, by simp [hid]⟩)
    rw [heq, removeItem_found o productId a b x hitems hf]
    exact ⟨rfl, a, x, b, hitems, by simpa using hpx, fun y hy => by simpa using hall y hy, rfl⟩
  · intro habs
    rw [heq]
    exact removeItem_not_found o productId habs

/-- C23, at a concrete input: on the order with 2 laptops and 1 mouse,
`updateItemQuantity(1, 0)` is `removeItem(1)` and leaves the mouse; on the absent product
999 it returns false. -/
theorem C23_updateItemQuantity_nonpositive_is_removeItem_witness :
    orderLaptopMouse.updateItemQuantity 1 0 = orderLaptopMouse.removeItem 1 ∧
    (orderLaptopMouse.updateItemQuantity 1 0).1 = true ∧
    (∃ (a : List OrderItem) (x : OrderItem) (b : List OrderItem),
      orderLaptopMouse.items = a ++ x :: b ∧ x.productId = 1 ∧ (∀ y ∈ a, y.productId ≠ 1) ∧
      (orderLaptopMouse.updateItemQuantity 1 0).2.items = a ++ b) ∧
    orderLaptopMouse.updateItemQuantity 999 (-3) = (false, orderLaptopMouse) := by
  have h := C23_updateItemQuantity_nonpositive_is_removeItem orderLaptopMouse 1 0 (by decide)
  have h1 := h.2.1 ⟨twoLaptops, by decide!, by decide⟩
  exact ⟨h.1, h1.1, h1.2,
    (C23_updateItemQuantity_nonpositive_is_removeItem orderLaptopMouse 999 (-3)
      (by decide)).2.2 (by decide!)⟩

/-- C24. The code on test `UpdateItemQuantity`: on the order holding the line for product 1,
`updateItemQuantity(1, 0)` and `updateItemQuantity(1, -1)` both return true (the test expects
false) and remove the line. -/
theorem C24_updateItemQuantity_nonpositive_returns_true :
    orderLaptop.items = [twoLaptops] ∧
    (orderLaptop.updateItemQuantity 1 0).1 = true ∧
    (orderLaptop.updateItemQuantity 1 0).2.items = [] ∧
    (orderLaptop.updateItemQuantity 1 (-1)).1 = true ∧
    (orderLaptop.updateItemQuantity 1 (-1)).2.items = [] := by
  decide!

/-! ## Status changes through the manager -/

/-- C25. `OrderManager.updateOrderStatus(orderId, s)` returns false and leaves the manager
state, hence every stored order, unchanged when no order has id orderId or when the status of
the addressed order does not allow the transition to s; otherwise it returns true, sets the
status of that order to s and changes no other field of that order and no other order. -/
theorem C25_updateOrderStatus (m : OrderManager) (orderId : Int) (s : OrderStatus) :
    ((∀ o ∈ m.orders, o.orderId ≠ orderId) → m.updateOrderStatus orderId s = (false, m)) ∧
    (∀ (i : Nat) (o : Order), m.getOrder orderId = some (i, o) →
      (o.status, s) ∉ specTransitionTable → m.updateOrderStatus orderId s = (false, m)) ∧
    (∀ (i : Nat) (o : Order), m.getOrder orderId = some (i, o) →
      (o.status, s) ∈ specTransitionTable →
      m.updateOrderStatus orderId s =
        (true, { m with orders := m.orders.set i { o with status := s } }) ∧
      (m.updateOrderStatus orderId s).2.orders.length = m.orders.length ∧
      (m.updateOrderStatus orderId s).2.orders[i]? = some { o with status := s } ∧
      ∀ k, k ≠ i → (m.updateOrderStatus orderId s).2.orders[k]? = m.orders[k]?) := by
  refine ⟨?_, ?_, ?_⟩
  · intro h
    have hg : m.getOrder orderId = none :=
      (findIf_eq_none _ _).mpr (fun o ho => by simpa using h o ho)
    simp only [OrderManager.updateOrderStatus, hg]
  · intro i o hg hnot
    obtain ⟨_, hgi, _⟩ := findIf_getElem _ _ _ _ hg
    simp only [OrderManager.updateOrderStatus, hg, Order.updateStatus,
      canChangeStatusTo_eq_mem_table, hnot, decide_False, Bool.false_eq_true, if_false,
      set_of_getElem? m.orders i o hgi]
  · intro i o hg hin
    obtain ⟨hi, _, _⟩ := findIf_getElem _ _ _ _ hg
    have hres : m.updateOrderStatus orderId s =
        (true, { m with orders := m.orders.set i { o with status := s } }) := by
      simp only [OrderManager.updateOrderStatus, hg, Order.updateStatus,
        canChangeStatusTo_eq_mem_table, hin, decide_True, if_true]
    rw [hres]
    refine ⟨rfl, by simp, by simp [List.getElem?_set_self hi], ?_⟩
    intro k hk
    simp [List.getElem?_set_ne (Ne.symm hk)]

/-- C25, at a concrete input (tests `UpdateOrderStatus`, `UpdateOrderStatusInvalidTransition`):
on the pending order 1, DELIVERED is rejected without change, CONFIRMED is applied, and an
unknown order id is rejected. -/
theorem C25_updateOrderStatus_witness :
    managerWithOneLaptop.updateOrderStatus 999 OrderStatus.CONFIRMED =
      (false, managerWithOneLaptop) ∧
    managerWithOneLaptop.updateOrderStatus 1 OrderStatus.DELIVERED =
      (false, managerWithOneLaptop) ∧
    (managerWithOneLaptop.updateOrderStatus 1 OrderStatus.CONFIRMED).1 = true ∧
    (managerWithOneLaptop.updateOrderStatus 1 OrderStatus.CONFIRMED).2.orderSummary 1 =
      some
        { status := OrderStatus.CONFIRMED, lines := [(1, 1)], totalAmount := 99999 / 100,
          discountAmount := 0, finalAmount := 99999 / 100 } := by
  have hget : managerWithOneLaptop.getOrder 1 =
      some (0, ((Order.new 1 1 "John Doe" testNow).setShippingAddress
        "123 Main St, New York, USA").addItem (OrderItem.new 1 "Laptop" 1 (99999 / 100))) := by
    decide!
  have h1 := (C25_updateOrderStatus managerWithOneLaptop 999 OrderStatus.CONFIRMED).1
    (by decide!)
  have h2 := (C25_updateOrderStatus managerWithOneLaptop 1 OrderStatus.DELIVERED).2.1 0 _ hget
    (by decide!)
  have h3 := (C25_updateOrderStatus managerWithOneLaptop 1 OrderStatus.CONFIRMED).2.2 0 _ hget
    (by decide!)
  refine ⟨h1, h2, ?_, by decide!⟩
  rw [h3.1]

/-! ## Fulfilment check and item count -/

/-- `isProductAvailable` is true exactly when the product is found and holds the quantity. -/
theorem isProductAvailable_iff (pm : ProductManager) (productId quantity : Int) :
    pm.isProductAvailable productId quantity = true ↔
      ∃ (j : Nat) (p : Product), pm.getProduct productId = some (j, p) ∧
        pm.products[j]? = some p ∧ p.productId = productId ∧ p.stockQuantity ≥ quantity := by
  unfold ProductManager.isProductAvailable
  cases hg : pm.getProduct productId with
  | none => simp
  | some r =>
    obtain ⟨j, p⟩ := r
    obtain ⟨_, hgj, hpp⟩ := findIf_getElem _ _ _ _ hg
    have hid : p.productId = productId := by simpa using hpp
    simp only [Product.isInStock, decide_eq_true_eq, Option.some.injEq, Prod.mk.injEq]
    constructor
    · intro hs
      exact ⟨j, p, ⟨rfl, rfl⟩, hgj, hid, hs⟩
    · rintro ⟨j', p', ⟨rfl, rfl⟩, _, _, hs⟩
      exact hs

/-- The loop of `canFulfillOrder` is true exactly when every item is available. -/
theorem canFulfillItems_iff (pm : ProductManager) (items : List OrderItem) :
    OrderManager.canFulfillItems pm items = true ↔
      ∀ item ∈ items, pm.isProductAvailable item.productId item.quantity = true := by
  induction items with
  | nil => simp [OrderManager.canFulfillItems]
  | cons item rest ih =>
    cases ha : pm.isProductAvailable item.productId item.quantity <;>
      simp [OrderManager.canFulfillItems, ha, ih]

/-- C26. With a product catalog set, `OrderManager.canFulfillOrder(orderId)` returns true if
and only if an order with that id exists and, for every line item of that order, a product
with the line's productId exists in the catalog and its stockQuantity is at least the line's
quantity; it returns false for a missing order (and when no catalog is set), and it modifies
neither orders nor products. -/
theorem C26_canFulfillOrder (m : OrderManager) (orderId : Int) :
    (∀ pm : ProductManager, m.productManager = some pm →
      ((m.canFulfillOrder orderId).1 = true ↔
        ∃ (i : Nat) (o : Order), m.getOrder orderId = some (i, o) ∧ m.orders[i]? = some o ∧
          o.orderId = orderId ∧
          ∀ item ∈ o.items, ∃ (j : Nat) (p : Product),
            pm.getProduct item.productId = some (j, p) ∧ pm.products[j]? = some p ∧
            p.productId = item.productId ∧ p.stockQuantity ≥ item.quantity)) ∧
    ((∀ o ∈ m.orders, o.orderId ≠ orderId) → (m.canFulfillOrder orderId).1 = false) ∧
    (m.productManager = none → (m.canFulfillOrder orderId).1 = false) ∧
    (m.canFulfillOrder orderId).2 = m := by
  refine ⟨?_, ?_, ?_, ?_⟩
  · intro pm hpm
    unfold OrderManager.canFulfillOrder
    cases hg : m.getOrder orderId with
    | none => simp
    | some r =>
      obtain ⟨i, o⟩ := r
      obtain ⟨_, hgi, hpo⟩ := findIf_getElem _ _ _ _ hg
      have hid : o.orderId = orderId := by simpa using hpo
      simp only [hpm, canFulfillItems_iff, isProductAvailable_iff, Option.some.injEq,
        Prod.mk.injEq]
      constructor
      · intro h
        exact ⟨i, o, ⟨rfl, rfl⟩, hgi, hid, h⟩
      · rintro ⟨i', o', ⟨rfl, rfl⟩, _, _, h⟩
        exact h
  · intro h
    have hg : m.getOrder orderId = none :=
      (findIf_eq_none _ _).mpr (fun o ho => by simpa using h o ho)
    simp [OrderManager.canFulfillOrder, hg]
  · intro hpm
    unfold OrderManager.canFulfillOrder
    cases hg : m.getOrder orderId <;> simp [hpm]
  · unfold OrderManager.canFulfillOrder
    split <;> rfl

/-- C26, at a concrete input (test `CanFulfillOrder`): order 1 holding 10 laptops against a
stock of 50 can be fulfilled; the unknown order 999 cannot. -/
theorem C26_canFulfillOrder_witness :
    ((managerWithTenLaptops.canFulfillOrder 1).1 = true ↔
      ∃ (i : Nat) (o : Order), managerWithTenLaptops.getOrder 1 = some (i, o) ∧
        managerWithTenLaptops.orders[i]? = some o ∧ o.orderId = 1 ∧
        ∀ item ∈ o.items, ∃ (j : Nat) (p : Product),
          testProductManager.getProduct item.productId = some (j, p) ∧
          testProductManager.products[j]? = some p ∧
          p.productId = item.productId ∧ p.stockQuantity ≥ item.quantity) ∧
    (managerWithTenLaptops.canFulfillOrder 1).1 = true ∧
    (managerWithTenLaptops.canFulfillOrder 999).1 = false ∧
    (managerWithTenLaptops.canFulfillOrder 1).2 = managerWithTenLaptops :=
  ⟨(C26_canFulfillOrder managerWithTenLaptops 1).1 testProductManager (by decide!),
   by decide!,
   (C26_canFulfillOrder managerWithTenLaptops 999).2.1 (by decide!),
   (C26_canFulfillOrder managerWithTenLaptops 1).2.2.2⟩

/-- The accumulation loop of `getItemCount` computes the sum of the quantities reduced to
32 bits. -/
theorem foldl_quantity (items : List OrderItem) (z : Int) :
    items.foldl (fun count item => wrapInt32 (count + item.quantity)) (wrapInt32 z) =
      wrapInt32 (z + (items.map (fun item => item.quantity)).sum) := by
  induction items generalizing z with
  | nil => simp
  | cons x xs ih =>
    simp only [List.foldl_cons, List.map_cons, List.sum_cons, wrapInt32_add_wrap, ih]
    rw [add_assoc]

/-- The item count is the sum of the quantities reduced to 32 bits. -/
theorem getItemCount_eq_wrap (o : Order) :
    o.getItemCount = wrapInt32 (o.items.map (fun item => item.quantity)).sum := by
  have h := foldl_quantity o.items 0
  have h0 : wrapInt32 0 = 0 := by decide
  rw [h0, zero_add] at h
  exact h

/-- C29, as stated, fails when the sum of the quantities leaves the range of `int`: the
order with two lines of 2000000000 units has quantities summing to 4000000000 and item
count -294967296. -/
theorem C29_getItemCount_counterexample :
    boltAndNutOrder.items.map (fun item => item.quantity) = [2000000000, 2000000000] ∧
    (boltAndNutOrder.items.map (fun item => item.quantity)).sum = 4000000000 ∧
    boltAndNutOrder.getItemCount = -294967296 ∧
    boltAndNutOrder.getItemCount ≠ (boltAndNutOrder.items.map (fun item => item.quantity)).sum := by
  decide!

/-- C29, amended. For every order whose quantities sum to a value in the range of `int`,
`Order.getItemCount()` equals the sum of the quantities of all line items, not the number of
lines (in general it is that sum reduced to 32 bits). It is a `const` member, here a function
of the order that returns the count only. -/
theorem C29_getItemCount_amended (o : Order)
    (hlo : -2147483648 ≤ (o.items.map (fun item => item.quantity)).sum)
    (hhi : (o.items.map (fun item => item.quantity)).sum ≤ 2147483647) :
    o.getItemCount = (o.items.map (fun item => item.quantity)).sum ∧
    o.getItemCount = wrapInt32 (o.items.map (fun item => item.quantity)).sum := by
  have h := getItemCount_eq_wrap o
  exact ⟨by rw [h, wrapInt32_of_inRange _ hlo hhi], h⟩

/-- C29 amended, at a concrete input: the order with a line of quantity 2 and a line of
quantity 1 has item count 3 and 2 lines. -/
theorem C29_getItemCount_amended_witness :
    orderLaptopMouse.items.map (fun item => item.quantity) = [2, 1] ∧
    orderLaptopMouse.items.length = 2 ∧ orderLaptopMouse.getItemCount = 3 ∧
    orderLaptopMouse.getItemCount =
      (orderLaptopMouse.items.map (fun item => item.quantity)).sum :=
  ⟨by decide!, by decide!, by decide!,
    (C29_getItemCount_amended orderLaptopMouse (by decide!) (by decide!)).1⟩

/-! ## Quantities of line items -/

/-- `addItem` of an item with a positive quantity keeps all quantities positive, as long as
the bound on the quantities so far plus the added quantity stays in the range of `int`. -/
theorem addItem_quantities_within (o : Order) (item : OrderItem) (bound : Int)
    (h : ∀ e ∈ o.items, 0 < e.quantity ∧ e.quantity ≤ bound) (hb : 0 ≤ bound)
    (hq : item.quantity > 0) (hmax : bound + item.quantity ≤ 2147483647) :
    ∀ e ∈ (o.addItem item).items, 0 < e.quantity ∧ e.quantity ≤ bound + item.quantity := by
  cases hf : findIf (fun existing => existing.productId == item.productId) o.items with
  | none =>
    rw [addItem_items_not_found o item hf]
    intro e he
    rcases List.mem_append.mp he with he | he
    · have := h e he
      omega
    · rw [List.mem_singleton.mp he]
      omega
  | some r =>
    obtain ⟨i, x⟩ := r
    rw [addItem_items_found o item i x hf]
    obtain ⟨_, hgi, _⟩ := findIf_getElem _ _ _ _ hf
    have hx := h x (List.getElem?_mem hgi)
    intro e he
    rcases List.mem_or_eq_of_mem_set he with he | he
    · have := h e he
      omega
    · rw [he]
      show 0 < wrapInt32 (x.quantity + item.quantity) ∧
        wrapInt32 (x.quantity + item.quantity) ≤ bound + item.quantity
      rw [wrapInt32_of_inRange _ (by omega) (by omega)]
      omega

/-- `removeItem` keeps all quantities positive and within the bound. -/
theorem removeItem_quantities_within (o : Order) (productId : Int) (bound : Int)
    (h : ∀ e ∈ o.items, 0 < e.quantity ∧ e.quantity ≤ bound) :
    ∀ e ∈ (o.removeItem productId).2.items, 0 < e.quantity ∧ e.quantity ≤ bound := by
  unfold Order.removeItem
  split
  · intro e he
    exact h e (List.mem_of_mem_eraseIdx he)
  · exact h

/-- `updateItemQuantity` keeps all quantities positive, whatever the new quantity; the bound
grows by the new quantity when that is positive. -/
theorem updateItemQuantity_quantities_within (o : Order) (productId newQuantity : Int)
    (bound : Int) (h : ∀ e ∈ o.items, 0 < e.quantity ∧ e.quantity ≤ bound) (hb : 0 ≤ bound) :
    ∀ e ∈ (o.updateItemQuantity productId newQuantity).2.items,
      0 < e.quantity ∧ e.quantity ≤ bound + (if newQuantity > 0 then newQuantity else 0) := by
  unfold Order.updateItemQuantity
  split_ifs with hq hpos hpos
  · omega
  · intro e he
    have := removeItem_quantities_within o productId bound h e he
    omega
  · split
    · intro e he
      rcases List.mem_or_eq_of_mem_set he with he | he
      · have := h e he
        omega
      · rw [he]
        show 0 < newQuantity ∧ newQuantity ≤ bound + newQuantity
        omega
    · intro e he
      have := h e he
      omega
  · omega

/-- Writing an order with quantities within the bound through a `getOrder` pointer keeps the
invariant of the collection. -/
theorem quantitiesWithin_set (m : OrderManager) (i : Nat) (o' : Order) (bound bound' : Int)
    (h : m.quantitiesWithin bound) (hle : bound ≤ bound')
    (ho' : ∀ e ∈ o'.items, 0 < e.quantity ∧ e.quantity ≤ bound') :
    OrderManager.quantitiesWithin { m with orders := m.orders.set i o' } bound' := by
  intro o ho
  rcases List.mem_or_eq_of_mem_set ho with ho | ho
  · intro e he
    have := h o ho e he
    omega
  · rw [ho]
    exact ho'

/-- One call that adds a positive quantity, with the bound plus the call's amount in the
range of `int`, keeps all quantities positive and within the new bound. -/
theorem quantitiesWithin_itemCall (m : OrderManager) (call : ItemCall) (bound : Int)
    (h : m.quantitiesWithin bound) (hb : 0 ≤ bound) (hcall : call.addsPositive)
    (hmax : bound + call.amount ≤ 2147483647) :
    (m.itemCall call).2.quantitiesWithin (bound + call.amount) := by
  cases call with
  | createOrder customerId now =>
    have hsame : bound + (ItemCall.createOrder customerId now).amount = bound := by
      simp [ItemCall.amount]
    rw [hsame]
    simp only [OrderManager.itemCall, OrderManager.createOrder]
    split
    · exact h
    · split
      · exact h
      · intro o ho
        rcases List.mem_append.mp ho with ho | ho
        · exact h o ho
        · rw [List.mem_singleton.mp ho]
          intro e he
          simp [Order.setShippingAddress, Order.new] at he
  | addItemToOrder orderId productId quantity =>
    have hmono : m.quantitiesWithin (bound + quantity) := by
      intro o ho e he
      have := h o ho e he
      have hq : quantity > 0 := hcall
      omega
    simp only [OrderManager.itemCall, OrderManager.addItemToOrder, ItemCall.amount] at hmax ⊢
    split
    · exact hmono
    · split
      · rename_i i order _ product hg _
        split_ifs
        · exact hmono
        · obtain ⟨_, hgi, _⟩ := findIf_getElem _ _ _ _ hg
          exact quantitiesWithin_set m i _ bound _ h (by have hq : quantity > 0 := hcall; omega)
            (addItem_quantities_within order (OrderItem.new productId product.name quantity
              product.price) bound (h order (List.getElem?_mem hgi)) hb hcall hmax)
      · exact hmono
  | removeItemFromOrder orderId productId =>
    have hsame : bound + (ItemCall.removeItemFromOrder orderId productId).amount = bound := by
      simp [ItemCall.amount]
    rw [hsame]
    simp only [OrderManager.itemCall, OrderManager.removeItemFromOrder]
    split
    · rename_i i order hg
      obtain ⟨_, hgi, _⟩ := findIf_getElem _ _ _ _ hg
      exact quantitiesWithin_set m i _ bound bound h (le_refl _)
        (removeItem_quantities_within order productId bound (h order (List.getElem?_mem hgi)))
    · exact h
  | updateOrderItemQuantity orderId productId newQuantity =>
    have hge : bound ≤ bound + (if newQuantity > 0 then newQuantity else 0) := by
      split_ifs <;> omega
    simp only [OrderManager.itemCall, OrderManager.updateOrderItemQuantity, ItemCall.amount]
    split
    · rename_i i order hg
      obtain ⟨_, hgi, _⟩ := findIf_getElem _ _ _ _ hg
      exact quantitiesWithin_set m i _ bound _ h hge
        (updateItemQuantity_quantities_within order productId newQuantity bound
          (h order (List.getElem?_mem hgi)) hb)
    · intro o ho e he
      have := h o ho e he
      omega

/-- The amount of a call that adds a positive quantity is not negative. -/
theorem amount_nonneg (call : ItemCall) (hcall : call.addsPositive) : 0 ≤ call.amount := by
  cases call with
  | createOrder customerId now => simp [ItemCall.amount]
  | addItemToOrder orderId productId quantity =>
    have hq : quantity > 0 := hcall
    simp only [ItemCall.amount]
    omega
  | removeItemFromOrder orderId productId => simp [ItemCall.amount]
  | updateOrderItemQuantity orderId productId newQuantity =>
    simp only [ItemCall.amount]
    split_ifs <;> omega

/-- A run of calls that add positive quantities, with the bound plus the calls' amounts in
the range of `int`, keeps all quantities positive. -/
theorem quantitiesWithin_run (calls : List ItemCall) (m : OrderManager) (bound : Int)
    (h : m.quantitiesWithin bound) (hb : 0 ≤ bound)
    (hcalls : ∀ call ∈ calls, call.addsPositive)
    (hmax : bound + (calls.map ItemCall.amount).sum ≤ 2147483647) :
    (m.runItemCalls calls).quantitiesWithin (bound + (calls.map ItemCall.amount).sum) := by
  induction calls generalizing m bound with
  | nil => simpa [OrderManager.runItemCalls] using h
  | cons c rest ih =>
    have hc := hcalls c (List.mem_cons_self c rest)
    have hrest : ∀ call ∈ rest, call.addsPositive :=
      fun call hmem => hcalls call (List.mem_cons_of_mem c hmem)
    have hsum : ∀ (l : List ItemCall), (∀ call ∈ l, call.addsPositive) →
        0 ≤ (l.map ItemCall.amount).sum := by
      intro l
      induction l with
      | nil => intro _; simp
      | cons d ds ihd =>
        intro hl
        have h1 := amount_nonneg d (hl d (List.mem_cons_self d ds))
        have h2 := ihd (fun call hmem => hl call (List.mem_cons_of_mem d hmem))
        simp only [List.map_cons, List.sum_cons]
        omega
    have hc0 := amount_nonneg c hc
    have hr0 := hsum rest hrest
    simp only [List.map_cons, List.sum_cons] at hmax ⊢
    have hstep := quantitiesWithin_itemCall m c bound h hb hc (by omega)
    have hnext := ih (m.itemCall c).2 (bound + c.amount) hstep (by omega) hrest (by omega)
    rw [add_assoc] at hnext
    exact hnext

/-- C30, as stated, fails: from the empty order collection of the test fixture,
`createOrder(1)` and `addItemToOrder(1, 1, -5)` both return true (the stock check
`50 >= -5` passes) and order 1 then holds a line of quantity -5. With positive quantities
only it fails when a line's quantity leaves the range of `int`: on the bulk catalog (stock
2000000000), `createOrder(1)` and two calls `addItemToOrder(1, 1, 2000000000)` leave a line
of quantity -294967296. -/
theorem C30_quantities_positive_counterexample :
    (testOrderManager.orders = [] ∧
      (testOrderManager.createOrder 1 testNow).1 = true ∧
      ((testOrderManager.createOrder 1 testNow).2.addItemToOrder 1 1 (-5)).1 = true ∧
      (testOrderManager.runItemCalls negativeQuantityCalls).orderSummary 1 =
        some
          { status := OrderStatus.PENDING, lines := [(1, -5)], totalAmount := -(99999 / 20),
            discountAmount := 0, finalAmount := 0 }) ∧
    (bulkOrderManager.orders = [] ∧
      (bulkOrderManager.runItemCalls bulkQuantityCalls).orderSummary 1 =
        some
          { status := OrderStatus.PENDING, lines := [(1, -294967296)],
            totalAmount := -294967296, discountAmount := 0, finalAmount := 0 }) ∧
    ¬ (∀ (m : OrderManager) (calls : List ItemCall), m.orders = [] →
        ∀ o ∈ (m.runItemCalls calls).orders, ∀ item ∈ o.items, item.quantity > 0) := by
  refine ⟨by decide!, by decide!, ?_⟩
  intro hall
  have h := hall testOrderManager negativeQuantityCalls rfl
  have hbad : ∃ o ∈ (testOrderManager.runItemCalls negativeQuantityCalls).orders,
      ∃ item ∈ o.items, item.quantity = -5 := by decide!
  obtain ⟨o, ho, item, hitem, hq⟩ := hbad
  have := h o ho item hitem
  omega

/-- C30, amended. In every OrderManager state reachable from an empty order collection by
createOrder, addItemToOrder, removeItemFromOrder and updateOrderItemQuantity calls in which
every addItemToOrder call passes a quantity > 0 and the quantities passed to addItemToOrder,
together with the positive quantities passed to updateOrderItemQuantity, sum to at most
2147483647 (all other arguments arbitrary integers), every line item of every order has
quantity > 0. -/
theorem C30_quantities_positive_amended (m : OrderManager) (calls : List ItemCall)
    (hempty : m.orders = [])
    (hcalls : ∀ call ∈ calls, call.addsPositive)
    (hmax : (calls.map ItemCall.amount).sum ≤ 2147483647) :
    ∀ o ∈ (m.runItemCalls calls).orders, ∀ item ∈ o.items, item.quantity > 0 := by
  have hinit : m.quantitiesWithin 0 := by
    intro o ho
    rw [hempty] at ho
    exact absurd ho (List.not_mem_nil o)
  have hrun := quantitiesWithin_run calls m 0 hinit (le_refl _) hcalls (by omega)
  intro o ho item hitem
  exact (hrun o ho item hitem).1

/-- C30 amended, at a concrete input: six calls from the empty collection of the test
fixture, with positive quantities added (2 and 3, and 7 set, 12 in all) and a non-positive
quantity passed to `updateOrderItemQuantity`; the remaining line has quantity 7. -/
theorem C30_quantities_positive_amended_witness :
    (∀ o ∈ (testOrderManager.runItemCalls positiveQuantityCalls).orders,
      ∀ item ∈ o.items, item.quantity > 0) ∧
    (positiveQuantityCalls.map ItemCall.amount).sum = 12 ∧
    (testOrderManager.runItemCalls positiveQuantityCalls).orderSummary 1 =
      some
        { status := OrderStatus.PENDING, lines := [(2, 7)], totalAmount := 20993 / 100,
          discountAmount := 0, finalAmount := 20993 / 100 } :=
  ⟨C30_quantities_positive_amended testOrderManager positiveQuantityCalls rfl
    (by
      intro call hcall
      simp only [positiveQuantityCalls, List.mem_cons, List.mem_singleton, List.not_mem_nil,
        or_false] at hcall
      rcases hcall with h | h | h | h | h | h <;> subst h <;>
        simp [ItemCall.addsPositive])
    (by decide),
   by decide, by decide!⟩

/-! ## Serialisation -/

/-- One round of the `getline` loop: a field without the delimiter, followed by the
delimiter, is pushed whole and the loop goes on after the delimiter. -/
theorem splitLoop_field (d : Char) (f rest item : List Char) (h : d ∉ f) :
    Utils.splitLoop d (f ++ d :: rest) item =
      String.mk (item ++ f) :: Utils.splitLoop d rest [] := by
  induction f generalizing item with
  | nil => simp [Utils.splitLoop]
  | cons c cs ih =>
    have hc : c ≠ d := fun hcd => h (by simp [hcd])
    have hcs : d ∉ cs := fun hmem => h (List.mem_cons_of_mem c hmem)
    have hrest := ih (item ++ [c]) hcs
    simp only [List.append_assoc, List.singleton_append] at hrest
    simp only [List.cons_append, Utils.splitLoop, hc, if_false]
    exact hrest

/-- The text of an order without items splits on `|` into its ten header fields only: the
empty eleventh field after the last `|` is not produced by the `getline` loop. -/
theorem split_serialize_no_items (nt : NumText) (o : Order) (hitems : o.items = [])
    (hfields : ∀ f ∈ o.headerFields nt, '|' ∉ f.data) :
    Utils.split (Order.serialize nt o) '|' = o.headerFields nt := by
  have h0 := hfields (showInt o.orderId) (by simp [Order.headerFields])
  have h1 := hfields (showInt o.customerId) (by simp [Order.headerFields])
  have h2 := hfields o.customerName (by simp [Order.headerFields])
  have h3 := hfields (Order.statusToString o.status) (by simp [Order.headerFields])
  have h4 := hfields o.orderDate (by simp [Order.headerFields])
  have h5 := hfields o.shippingAddress (by simp [Order.headerFields])
  have h6 := hfields (nt.showDouble o.totalAmount) (by simp [Order.headerFields])
  have h7 := hfields (nt.showDouble o.discountAmount) (by simp [Order.headerFields])
  have h8 := hfields (nt.showDouble o.finalAmount) (by simp [Order.headerFields])
  have h9 := hfields o.notes (by simp [Order.headerFields])
  have hbar : ("|" : String).data = ['|'] := rfl
  have hnone : (Order.serializeItems nt []).data = [] := rfl
  simp only [Utils.split, Order.serialize, hitems, String.data_append, hbar, hnone,
    List.append_assoc, List.singleton_append, List.append_nil, List.cons_append,
    List.nil_append]
  rw [splitLoop_field _ _ _ _ h0, splitLoop_field _ _ _ _ h1, splitLoop_field _ _ _ _ h2,
    splitLoop_field _ _ _ _ h3, splitLoop_field _ _ _ _ h4, splitLoop_field _ _ _ _ h5,
    splitLoop_field _ _ _ _ h6, splitLoop_field _ _ _ _ h7, splitLoop_field _ _ _ _ h8,
    splitLoop_field _ _ _ _ h9]
  simp [Utils.splitLoop, Order.headerFields]

/-- With fewer than 11 fields `deserialize` returns the default-constructed order. -/
theorem deserialize_short (nt : NumText) (now data : String)
    (h : (Utils.split data '|').length < 11) :
    Order.deserialize nt now data = some (Order.default now) := by
  simp only [Order.deserialize, ge_iff_le, not_le.mpr h, if_false]

/-- Every order without items is read back as the default-constructed order: its text has
only ten fields. -/
theorem deserialize_serialize_no_items (nt : NumText) (o : Order) (now : String)
    (hitems : o.items = []) (hfields : ∀ f ∈ o.headerFields nt, '|' ∉ f.data) :
    Order.deserialize nt now (Order.serialize nt o) = some (Order.default now) := by
  apply deserialize_short
  rw [split_serialize_no_items nt o hitems hfields]
  simp [Order.headerFields]

/-- C27. The code on an order with an empty item list: `Order(1, 100, "John Doe")`, none of
whose fields contains a delimiter, is written as ten fields each followed by `|`;
`Utils::split` yields those ten fields only, so `deserialize` takes the branch for fewer
than 11 fields and returns the default order: orderId 0, customerId 0 and an empty
customerName instead of 1, 100 and "John Doe". -/
theorem C27_round_trip_loses_order_without_items :
    freshOrder.items = [] ∧
    Order.serialize sampleNumText freshOrder = "1|100|John Doe|Pending|2024-01-15 10:30:00||0|0|0||" ∧
    (Utils.split (Order.serialize sampleNumText freshOrder) '|').length = 10 ∧
    Order.deserialize sampleNumText testNow (Order.serialize sampleNumText freshOrder) =
      some (Order.default testNow) ∧
    ((Order.deserialize sampleNumText testNow (Order.serialize sampleNumText freshOrder)).map
        (fun o => (o.orderId, o.customerId, o.customerName)) = some (0, 0, "")) ∧
    (freshOrder.orderId, freshOrder.customerId, freshOrder.customerName) = (1, 100, "John Doe") := by
  have hfields : ∀ f ∈ freshOrder.headerFields sampleNumText, '|' ∉ f.data := by decide!
  have hsplit := split_serialize_no_items sampleNumText freshOrder rfl hfields
  have hdes := deserialize_serialize_no_items sampleNumText freshOrder testNow rfl hfields
  refine ⟨rfl, by decide!, ?_, hdes, ?_, by decide!⟩
  · rw [hsplit]
    rfl
  · rw [hdes]
    rfl

/-- C28. For every input string that `Utils::split` on `|` breaks into fewer than 11 fields,
`Order.deserialize` does not throw and returns the default order: orderId 0, customerId 0,
empty customerName, empty item list, status PENDING and
totalAmount = discountAmount = finalAmount = 0. -/
theorem C28_deserialize_fewer_than_11_fields (nt : NumText) (now data : String)
    (h : (Utils.split data '|').length < 11) :
    Order.deserialize nt now data = some (Order.default now) ∧
    (Order.default now).orderId = 0 ∧ (Order.default now).customerId = 0 ∧
    (Order.default now).customerName = "" ∧ (Order.default now).items = [] ∧
    (Order.default now).status = OrderStatus.PENDING ∧ (Order.default now).totalAmount = 0 ∧
    (Order.default now).discountAmount = 0 ∧ (Order.default now).finalAmount = 0 :=
  ⟨deserialize_short nt now data h, rfl, rfl, rfl, rfl, rfl, rfl, rfl, rfl⟩

/-- C28, at a concrete input: a line of three fields. -/
theorem C28_deserialize_fewer_than_11_fields_witness :
    (Utils.split "7|3|John Doe" '|').length = 3 ∧
    Order.deserialize sampleNumText testNow "7|3|John Doe" = some (Order.default testNow) ∧
    (Order.default testNow).orderId = 0 ∧ (Order.default testNow).customerId = 0 ∧
    (Order.default testNow).customerName = "" ∧ (Order.default testNow).items = [] ∧
    (Order.default testNow).status = OrderStatus.PENDING ∧
    (Order.default testNow).totalAmount = 0 ∧ (Order.default testNow).discountAmount = 0 ∧
    (Order.default testNow).finalAmount = 0 :=
  ⟨by decide, C28_deserialize_fewer_than_11_fields sampleNumText testNow "7|3|John Doe"
    (by decide)⟩

/-! ## Stock operations of the catalog -/

/-- C31. The code on test `NegativeStockOperations`, on the catalog of the test fixture (all
stock quantities >= 0, laptop stock 50): `updateStock(1, -20)` returns true and sets the
stock to -20, and `addStock(1, -10)` returns true (the stock stays 50); the test expects
false for both. Only `reduceStock(1, -5)` returns false. -/
theorem C31_updateStock_accepts_negative :
    (∀ p ∈ testProductManager.products, p.stockQuantity ≥ 0) ∧
    (testProductManager.updateStock 1 (-20)).1 = true ∧
    (testProductManager.updateStock 1 (-20)).2.stockOf 1 = some (-20) ∧
    (testProductManager.addStock 1 (-10)).1 = true ∧
    (testProductManager.addStock 1 (-10)).2.stockOf 1 = some 50 ∧
    testProductManager.reduceStock 1 (-5) = (false, testProductManager) := by
  decide!

/-- C32. The code on test `ReduceStockZeroAmount`: `reduceStock(0)` returns false, for the
test product and for every product (the test expects true); the stock is unchanged. The
other cases are as claimed: with 0 < q <= stock the call returns true and subtracts q, with
q < 0 or q > stock it returns false and changes nothing. -/
theorem C32_reduceStock_zero_returns_false (p : Product) (q : Int) :
    testLaptop.reduceStock 0 = (false, testLaptop) ∧
    p.reduceStock 0 = (false, p) ∧
    (0 < q ∧ q ≤ p.stockQuantity →
      p.reduceStock q = (true, { p with stockQuantity := p.stockQuantity - q })) ∧
    (q < 0 ∨ q > p.stockQuantity → p.reduceStock q = (false, p)) := by
  refine ⟨by decide!, by simp [Product.reduceStock], ?_, ?_⟩
  · rintro ⟨h0, h1⟩
    have hn : ¬ (q ≤ 0 ∨ q > p.stockQuantity) := by omega
    simp only [Product.reduceStock, hn, if_false]
  · intro h
    have hy : q ≤ 0 ∨ q > p.stockQuantity := by omega
    simp only [Product.reduceStock, hy, if_true]

/-- C34. The code on test `CalculateOrderTotal`: order 1 holds 2 laptops at 999.99 and 3
mice at 29.99, the sum of unitPrice * quantity is 2089.95 (as is the order's totalAmount),
and `calculateOrderTotal(1)` returns 0 (the test expects the sum). -/
theorem C34_calculateOrderTotal_returns_zero :
    (managerLaptopsAndMice.getOrder 1).map
        (fun r => (r.2.items.map (fun item => item.unitPrice * (item.quantity : ℚ))).sum) =
      some (208995 / 100) ∧
    (managerLaptopsAndMice.getOrder 1).map (fun r => r.2.totalAmount) = some (208995 / 100) ∧
    managerLaptopsAndMice.calculateOrderTotal 1 = 0 := by
  decide!

/-! ## The discount under item mutations -/

/-- The four item mutations leave `discountAmount` as it was. -/
theorem item_mutations_keep_discount (o : Order) (item : OrderItem)
    (productId newQuantity : Int) :
    (o.addItem item).discountAmount = o.discountAmount ∧
    (o.removeItem productId).2.discountAmount = o.discountAmount ∧
    (o.updateItemQuantity productId newQuantity).2.discountAmount = o.discountAmount ∧
    o.clearItems.discountAmount = o.discountAmount := by
  refine ⟨rfl, ?_, ?_, rfl⟩
  · unfold Order.removeItem
    split <;> rfl
  · unfold Order.updateItemQuantity Order.removeItem
    split_ifs
    · split <;> rfl
    · split <;> rfl

/-- After each of the four item mutations, `finalAmount` is
`max(0, totalAmount - discountAmount)` of the resulting order, provided it was so before. -/
theorem item_mutations_final (o : Order) (item : OrderItem) (productId newQuantity : Int)
    (h : o.finalAmount = max 0 (o.totalAmount - o.discountAmount)) :
    (o.addItem item).finalAmount =
      max 0 ((o.addItem item).totalAmount - (o.addItem item).discountAmount) ∧
    (o.removeItem productId).2.finalAmount =
      max 0 ((o.removeItem productId).2.totalAmount -
        (o.removeItem productId).2.discountAmount) ∧
    (o.updateItemQuantity productId newQuantity).2.finalAmount =
      max 0 ((o.updateItemQuantity productId newQuantity).2.totalAmount -
        (o.updateItemQuantity productId newQuantity).2.discountAmount) ∧
    o.clearItems.finalAmount = max 0 (o.clearItems.totalAmount - o.clearItems.discountAmount) := by
  refine ⟨(totalsOk_recalculate _).2, ?_, ?_, (totalsOk_recalculate _).2⟩
  · unfold Order.removeItem
    split
    · exact (totalsOk_recalculate _).2
    · exact h
  · unfold Order.updateItemQuantity Order.removeItem
    split_ifs
    · split
      · exact (totalsOk_recalculate _).2
      · exact h
    · split
      · exact (totalsOk_recalculate _).2
      · exact h

/-- `applyDiscount` with a percentage in range, field by field. -/
theorem applyDiscount_fields (o : Order) (p : ℚ) (h0 : 0 ≤ p) (h100 : p ≤ 100) :
    (o.applyDiscount p).discountAmount = o.totalAmount * p / 100 ∧
    (o.applyDiscount p).totalAmount = o.totalAmount ∧
    (o.applyDiscount p).items = o.items ∧
    (o.applyDiscount p).finalAmount =
      max 0 ((o.applyDiscount p).totalAmount - (o.applyDiscount p).discountAmount) := by
  have hd : o.totalAmount * (p / 100) = o.totalAmount * p / 100 := by ring
  simp only [Order.applyDiscount, ge_iff_le, h0, h100, and_self, if_true,
    Order.calculateFinalAmount, clamp_eq_max, hd, and_self]

/-- C39. Item mutations never touch the discount: for every order, `Order.addItem`,
`removeItem`, `updateItemQuantity` and `clearItems` leave discountAmount exactly as it was;
so after `applyDiscount(p)` with 0 <= p <= 100 followed by an item mutation, discountAmount
is still p percent of the old total while finalAmount is
max(0, new totalAmount - old discountAmount). -/
theorem C39_item_mutations_keep_discount (o : Order) (item : OrderItem)
    (productId newQuantity : Int) (p : ℚ) (h0 : 0 ≤ p) (h100 : p ≤ 100) :
    ((o.addItem item).discountAmount = o.discountAmount ∧
      (o.removeItem productId).2.discountAmount = o.discountAmount ∧
      (o.updateItemQuantity productId newQuantity).2.discountAmount = o.discountAmount ∧
      o.clearItems.discountAmount = o.discountAmount) ∧
    (((o.applyDiscount p).addItem item).discountAmount = o.totalAmount * p / 100 ∧
      ((o.applyDiscount p).addItem item).finalAmount =
        max 0 (((o.applyDiscount p).addItem item).totalAmount - o.totalAmount * p / 100)) ∧
    (((o.applyDiscount p).removeItem productId).2.discountAmount = o.totalAmount * p / 100 ∧
      ((o.applyDiscount p).removeItem productId).2.finalAmount =
        max 0 (((o.applyDiscount p).removeItem productId).2.totalAmount -
          o.totalAmount * p / 100)) ∧
    (((o.applyDiscount p).updateItemQuantity productId newQuantity).2.discountAmount =
        o.totalAmount * p / 100 ∧
      ((o.applyDiscount p).updateItemQuantity productId newQuantity).2.finalAmount =
        max 0 (((o.applyDiscount p).updateItemQuantity productId newQuantity).2.totalAmount -
          o.totalAmount * p / 100)) ∧
    ((o.applyDiscount p).clearItems.discountAmount = o.totalAmount * p / 100 ∧
      (o.applyDiscount p).clearItems.finalAmount =
        max 0 ((o.applyDiscount p).clearItems.totalAmount - o.totalAmount * p / 100)) := by
  obtain ⟨hd, _, _, hf⟩ := applyDiscount_fields o p h0 h100
  obtain ⟨k1, k2, k3, k4⟩ :=
    item_mutations_keep_discount (o.applyDiscount p) item productId newQuantity
  obtain ⟨f1, f2, f3, f4⟩ :=
    item_mutations_final (o.applyDiscount p) item productId newQuantity hf
  rw [k1] at f1
  rw [k2] at f2
  rw [k3] at f3
  rw [k4] at f4
  rw [hd] at k1 k2 k3 k4 f1 f2 f3 f4
  exact ⟨item_mutations_keep_discount o item productId newQuantity,
    ⟨k1, f1⟩, ⟨k2, f2⟩, ⟨k3, f3⟩, ⟨k4, f4⟩⟩

/-- C39, at a concrete input: 2 laptops (total 1999.98), 10% discount (199.998), then a mouse
is added: the total becomes 2029.97, the discount is still 199.998 and the final amount is
1829.972. -/
theorem C39_item_mutations_keep_discount_witness :
    ((orderLaptop.applyDiscount 10).addItem oneMouse).discountAmount =
      orderLaptop.totalAmount * 10 / 100 ∧
    ((orderLaptop.applyDiscount 10).addItem oneMouse).finalAmount =
      max 0 (((orderLaptop.applyDiscount 10).addItem oneMouse).totalAmount -
        orderLaptop.totalAmount * 10 / 100) ∧
    ((orderLaptop.applyDiscount 10).addItem oneMouse).totalAmount = 202997 / 100 ∧
    ((orderLaptop.applyDiscount 10).addItem oneMouse).discountAmount = 199998 / 1000 ∧
    ((orderLaptop.applyDiscount 10).addItem oneMouse).finalAmount = 1829972 / 1000 := by
  have h := (C39_item_mutations_keep_discount orderLaptop oneMouse 1 1 10 (by decide!)
    (by decide!)).2.1
  exact ⟨h.1, h.2, by decide!, by decide!, by decide!⟩

/-! ## Snapshots on merged lines -/

/-- `addItem` of a product that is on the order: the first line for it gets the incoming
quantity added (as an `int`) and its total price recomputed from its own unit price; nothing
of the incoming item but its quantity is used. -/
theorem addItem_existing (o : Order) (item : OrderItem) (a b : List OrderItem) (x : OrderItem)
    (hitems : o.items = a ++ x :: b)
    (hf : findIf (fun e => e.productId == item.productId) o.items = some (a.length, x)) :
    (o.addItem item).items =
      a ++ { productId := x.productId, productName := x.productName,
             quantity := wrapInt32 (x.quantity + item.quantity), unitPrice := x.unitPrice,
             totalPrice := ((wrapInt32 (x.quantity + item.quantity) : Int) : ℚ) *
               x.unitPrice } :: b := by
  rw [addItem_items_found o item a.length x hf, hitems, set_append_cons]

/-- C38, as stated, fails in its formula for totalPrice when old quantity + incoming
quantity leaves the range of `int`: the order holds 2000000000 bolts at unit price 1;
`addItem` of 2000000000 units of product 1 named "Bolt M8" at unit price 2 leaves one line
named "Bolt" at unit price 1 (the snapshot is kept), with quantity -294967296 and totalPrice
-294967296, not (2000000000 + 2000000000) * 1. -/
theorem C38_merged_line_keeps_snapshot_counterexample :
    boltOrder.items = [manyBolts] ∧ manyBolts.quantity = 2000000000 ∧
    manyBolts.unitPrice = 1 ∧
    (boltOrder.addItem (OrderItem.new 1 "Bolt M8" 2000000000 2)).items =
      [{ productId := 1, productName := "Bolt", quantity := -294967296, unitPrice := 1,
         totalPrice := -294967296 }] ∧
    (-294967296 : ℚ) ≠ (((2000000000 + 2000000000 : Int) : ℚ)) * manyBolts.unitPrice := by
  decide!

/-- C38, amended. A merged line keeps its first snapshot: when `Order.addItem` receives an
item whose productId is already on the order, whatever its unitPrice and productName, the
existing (first) line for the product keeps its unitPrice and productName, its quantity
becomes old quantity + incoming quantity as an `int` and its totalPrice that quantity times
the original unitPrice; when old quantity + incoming quantity lies in the range of `int`,
the totalPrice is (old quantity + incoming quantity) * the original unitPrice; hence a
successful `addItemToOrder` of the product, whatever price the catalog now holds for it,
prices the added units at the line's old price. -/
theorem C38_merged_line_keeps_snapshot_amended (o : Order) (productId : Int)
    (hex : ∃ x ∈ o.items, x.productId = productId) :
    ∃ (a : List OrderItem) (x : OrderItem) (b : List OrderItem),
      o.items = a ++ x :: b ∧ x.productId = productId ∧ (∀ y ∈ a, y.productId ≠ productId) ∧
      (∀ item : OrderItem, item.productId = productId →
        (o.addItem item).items =
          a ++ { productId := x.productId, productName := x.productName,
                 quantity := wrapInt32 (x.quantity + item.quantity), unitPrice := x.unitPrice,
                 totalPrice := ((wrapInt32 (x.quantity + item.quantity) : Int) : ℚ) *
                   x.unitPrice } :: b) ∧
      (∀ item : OrderItem, item.productId = productId →
        -2147483648 ≤ x.quantity + item.quantity → x.quantity + item.quantity ≤ 2147483647 →
        (o.addItem item).items =
          a ++ { productId := x.productId, productName := x.productName,
                 quantity := x.quantity + item.quantity, unitPrice := x.unitPrice,
                 totalPrice := ((x.quantity + item.quantity : Int) : ℚ) * x.unitPrice } :: b) ∧
      (∀ (m : OrderManager) (pm : ProductManager) (orderId quantity : Int) (i j : Nat)
          (p : Product),
        m.productManager = some pm → m.getOrder orderId = some (i, o) →
        pm.getProduct productId = some (j, p) → p.stockQuantity ≥ quantity →
        -2147483648 ≤ x.quantity + quantity → x.quantity + quantity ≤ 2147483647 →
        (m.addItemToOrder orderId productId quantity).1 = true ∧
        ∃ o' : Order,
          (m.addItemToOrder orderId productId quantity).2.getOrder orderId = some (i, o') ∧
          o'.items =
            a ++ { productId := x.productId, productName := x.productName,
                   quantity := x.quantity + quantity, unitPrice := x.unitPrice,
                   totalPrice := ((x.quantity + quantity : Int) : ℚ) * x.unitPrice } :: b) := by
  obtain ⟨a, x, b, hitems, hpx, hall, hf⟩ :=
    findIf_split_of_exists (fun e : OrderItem => e.productId == productId) o.items
      (by obtain ⟨x, hx, hid⟩ := hex; exact ⟨x, hx, by simp [hid]⟩)
  refine ⟨a, x, b, hitems, by simpa using hpx, fun y hy => by simpa using hall y hy, ?_, ?_, ?_⟩
  · intro item hid
    subst hid
    exact addItem_existing o item a b x hitems hf
  · intro item hid hlo hhi
    subst hid
    have h := addItem_existing o item a b x hitems hf
    rw [wrapInt32_of_inRange _ hlo hhi] at h
    exact h
  · intro m pm orderId quantity i j p hpm ho hp hs hlo hhi
    rw [addItemToOrder_success m pm orderId productId quantity i j o p hpm ho hp hs]
    refine ⟨rfl, _, getOrder_set m orderId i o _ ho rfl, ?_⟩
    have h := addItem_existing o (OrderItem.new productId p.name quantity p.price) a b x hitems hf
    simp only [OrderItem.new] at h ⊢
    rw [wrapInt32_of_inRange _ hlo hhi] at h
    exact h

/-- C38 amended, at a concrete input: order 1 holds 2 laptops bought at 999.99, the catalog
now lists the laptop at 1099.99; `addItemToOrder(1, 1, 3)` leaves one line of 5 laptops at
unit price 999.99 and total price 4999.95. -/
theorem C38_merged_line_keeps_snapshot_amended_witness :
    repricedManager.stockOf 1 = some 50 ∧
    (repricedProductManager.getProduct 1).map (fun r => r.2.price) = some (109999 / 100) ∧
    (repricedManager.addItemToOrder 1 1 3).1 = true ∧
    ((repricedManager.addItemToOrder 1 1 3).2.getOrder 1).map (fun r => r.2.items) =
      some [{ productId := 1, productName := "Laptop", quantity := 5,
              unitPrice := 99999 / 100, totalPrice := 499995 / 100 }] ∧
    (∃ (a : List OrderItem) (x : OrderItem) (b : List OrderItem),
      orderWithTwoLaptops.items = a ++ x :: b ∧ x.productId = 1 ∧
      (∀ y ∈ a, y.productId ≠ 1) ∧ x.quantity = 2 ∧
      ∃ o' : Order,
        (repricedManager.addItemToOrder 1 1 3).2.getOrder 1 = some (0, o') ∧
        o'.items =
          a ++ { productId := x.productId, productName := x.productName,
                 quantity := x.quantity + 3, unitPrice := x.unitPrice,
                 totalPrice := ((x.quantity + 3 : Int) : ℚ) * x.unitPrice } :: b) := by
  obtain ⟨a, x, b, hitems, hid, hall, _, _, hm⟩ :=
    C38_merged_line_keeps_snapshot_amended orderWithTwoLaptops 1
      ⟨twoLaptops, by decide!, by decide⟩
  have hone : orderWithTwoLaptops.items = [twoLaptops] := by decide!
  have hx : x.quantity = 2 := by
    rw [hone] at hitems
    cases a with
    | nil =>
      have hx' : twoLaptops = x := (List.cons.inj hitems).1
      rw [← hx']
      decide
    | cons y ys =>
      have hnil := (List.cons.inj hitems).2
      exact absurd hnil.symm (by simp)
  have h := hm repricedManager repricedProductManager 1 3 0 0
    (testLaptop.setPrice (109999 / 100)) (by decide!) (by decide!) (by decide!) (by decide)
    (by omega) (by omega)
  exact ⟨by decide!, by decide!, by decide!, by decide!, a, x, b, hitems, hid, hall, hx, h.2⟩

/-! ## Line uniqueness and insertion order -/

/-- Writing a line with the same productId through the iterator leaves the sequence of
productIds as it is. -/
theorem productIds_set (items : List OrderItem) (p : OrderItem → Bool) (i : Nat)
    (x e : OrderItem) (hf : findIf p items = some (i, x)) (he : e.productId = x.productId) :
    (items.set i e).map (fun item => item.productId) =
      items.map (fun item => item.productId) := by
  obtain ⟨a, b, hxs, hlen, _, _⟩ := (findIf_eq_some p items i x).mp hf
  subst hxs hlen
  rw [set_append_cons]
  simp [he]

/-- The effect of one mutation on the sequence of productIds: a subsequence of the old
sequence is kept in its order, and at most one productId that was not on the order is
appended at the end. -/
theorem step_productIds (s : Order) (op : OrderOp) :
    ∃ kept : List Int, kept.Sublist s.productIds ∧
      ((s.step op).productIds = kept ∨
        ∃ new : Int, new ∉ s.productIds ∧ (s.step op).productIds = kept ++ [new]) := by
  have hsame : ∀ s' : Order, s'.productIds = s.productIds →
      ∃ kept : List Int, kept.Sublist s.productIds ∧
        (s'.productIds = kept ∨
          ∃ new : Int, new ∉ s.productIds ∧ s'.productIds = kept ++ [new]) :=
    fun s' h => ⟨s.productIds, List.Sublist.refl _, Or.inl h⟩
  have herase : ∀ i : Nat, ∃ kept : List Int, kept.Sublist s.productIds ∧
      ((s.items.eraseIdx i).map (fun item => item.productId) = kept ∨
        ∃ new : Int, new ∉ s.productIds ∧
          (s.items.eraseIdx i).map (fun item => item.productId) = kept ++ [new]) :=
    fun i => ⟨_, (List.eraseIdx_sublist s.items i).map _, Or.inl rfl⟩
  cases op with
  | addItem prodId name qty price =>
    cases hf : findIf (fun e => e.productId ==
        (OrderItem.new prodId name qty price).productId) s.items with
    | none =>
      refine ⟨s.productIds, List.Sublist.refl _, Or.inr ⟨prodId, ?_, ?_⟩⟩
      · intro hmem
        obtain ⟨y, hy, hyid⟩ := List.mem_map.mp hmem
        have := (findIf_eq_none _ _).mp hf y hy
        simp [OrderItem.new, hyid] at this
      · show (s.addItem (OrderItem.new prodId name qty price)).items.map
            (fun item => item.productId) = s.productIds ++ [prodId]
        rw [addItem_items_not_found s _ hf]
        simp [Order.productIds, OrderItem.new]
    | some r =>
      obtain ⟨i, x⟩ := r
      apply hsame
      show (s.addItem (OrderItem.new prodId name qty price)).items.map
          (fun item => item.productId) = s.productIds
      rw [addItem_items_found s _ i x hf]
      exact productIds_set s.items _ i x _ hf rfl
  | removeItem productId =>
    simp only [Order.step, Order.removeItem]
    split
    · exact herase _
    · exact hsame s rfl
  | updateItemQuantity productId newQuantity =>
    simp only [Order.step, Order.updateItemQuantity, Order.removeItem]
    split_ifs
    · split
      · exact herase _
      · exact hsame s rfl
    · split
      · rename_i i x hf
        apply hsame
        exact productIds_set s.items _ i x _ hf rfl
      · exact hsame s rfl
  | clearItems => exact ⟨[], List.nil_sublist _, Or.inl rfl⟩
  | applyDiscount discountPercent =>
    apply hsame
    simp only [Order.step, Order.applyDiscount]
    split_ifs <;> rfl
  | setDiscountAmount discount => exact hsame _ rfl

/-- One mutation keeps the productIds pairwise distinct. -/
theorem step_productIds_nodup (s : Order) (op : OrderOp) (h : s.productIds.Nodup) :
    (s.step op).productIds.Nodup := by
  obtain ⟨kept, hsub, hres | ⟨new, hnew, hres⟩⟩ := step_productIds s op
  · rw [hres]
    exact hsub.nodup h
  · rw [hres]
    refine List.Nodup.append (hsub.nodup h) (List.nodup_singleton new) ?_
    intro z hz hz'
    rw [List.mem_singleton] at hz'
    subst hz'
    exact hnew (hsub.subset hz)

/-- C35. Line uniqueness and insertion order: starting from an order with no items, after
any sequence of mutations (`addItem`, `removeItem`, `updateItemQuantity`, `clearItems`, and
also the discount calls) no two line items share a productId; an item whose productId is not
yet on the order is appended at the end of the list; and any further mutation keeps a
subsequence of the productIds in their order, with at most one new productId appended at
the end. -/
theorem C35_line_uniqueness_and_order (o : Order) (hempty : o.items = [])
    (ops : List OrderOp) :
    (o.run ops).productIds.Nodup ∧
    (∀ item : OrderItem, item.productId ∉ (o.run ops).productIds →
      ((o.run ops).addItem item).items = (o.run ops).items ++ [item]) ∧
    (∀ op : OrderOp, ∃ kept : List Int, kept.Sublist (o.run ops).productIds ∧
      (((o.run ops).step op).productIds = kept ∨
        ∃ new : Int, new ∉ (o.run ops).productIds ∧
          ((o.run ops).step op).productIds = kept ++ [new])) := by
  have hnodup : ∀ (l : List OrderOp) (s : Order), s.productIds.Nodup →
      (s.run l).productIds.Nodup := by
    intro l
    induction l with
    | nil => intro s hs; exact hs
    | cons op rest ih => intro s hs; exact ih (s.step op) (step_productIds_nodup s op hs)
  refine ⟨hnodup ops o (by simp [Order.productIds, hempty]), ?_, fun op => step_productIds _ op⟩
  intro item hnot
  apply addItem_items_not_found
  apply (findIf_eq_none _ _).mpr
  intro y hy
  have hne : y.productId ≠ item.productId := by
    intro heq
    exact hnot (List.mem_map.mpr ⟨y, hy, heq⟩)
  simpa using hne

/-- C35, at a concrete input: laptop, mouse, laptop again, keyboard, mouse removed, laptop
set to 7 on the fresh order: the lines are laptop, keyboard; a webcam added next goes to the
end. -/
theorem C35_line_uniqueness_and_order_witness :
    (freshOrder.run sampleOrderOps).productIds.Nodup ∧
    (freshOrder.run sampleOrderOps).productIds = [1, 3] ∧
    ((freshOrder.run sampleOrderOps).addItem (OrderItem.new 4 "Webcam" 1 (4999 / 100))).items =
      (freshOrder.run sampleOrderOps).items ++ [OrderItem.new 4 "Webcam" 1 (4999 / 100)] ∧
    (∃ kept : List Int, kept.Sublist (freshOrder.run sampleOrderOps).productIds ∧
      (((freshOrder.run sampleOrderOps).step (OrderOp.removeItem 1)).productIds = kept ∨
        ∃ new : Int, new ∉ (freshOrder.run sampleOrderOps).productIds ∧
          ((freshOrder.run sampleOrderOps).step (OrderOp.removeItem 1)).productIds =
            kept ++ [new])) := by
  have h := C35_line_uniqueness_and_order freshOrder rfl sampleOrderOps
  exact ⟨h.1, by decide!, h.2.1 (OrderItem.new 4 "Webcam" 1 (4999 / 100)) (by decide!),
    h.2.2 (OrderOp.removeItem 1)⟩

/-! ## Order ids -/

/-- The loading loop keeps the orders that were stored before it. -/
theorem loadLines_keeps_orders (nt : NumText) (now : String) (lines : List String)
    (m m' : OrderManager) (hload : OrderManager.loadLines nt now lines m = some m') :
    ∀ o ∈ m.orders, o ∈ m'.orders := by
  induction lines generalizing m with
  | nil =>
    simp only [OrderManager.loadLines, Option.some.injEq] at hload
    rw [← hload]
    exact fun o ho => ho
  | cons line rest ih =>
    unfold OrderManager.loadLines at hload
    split_ifs at hload with hline
    · cases hd : Order.deserialize nt now line with
      | none => simp [hd] at hload
      | some order =>
        simp only [hd, Option.bind_eq_bind, Option.some_bind] at hload
        intro o ho
        refine ih _ hload o ?_
        split_ifs <;> simp [ho]
    · exact ih m hload

/-- The loading loop keeps every stored id below the counter and the counter at least 1,
when no loaded id is the largest `int`. -/
theorem loadLines_idsBelowCounter (nt : NumText) (now : String) (lines : List String)
    (m m' : OrderManager) (hload : OrderManager.loadLines nt now lines m = some m')
    (hrange : ∀ o ∈ m'.orders, o.orderId < 2147483647)
    (h : m.idsBelowCounter) (hone : 1 ≤ m.nextOrderId) :
    m'.idsBelowCounter ∧ 1 ≤ m'.nextOrderId := by
  induction lines generalizing m with
  | nil =>
    simp only [OrderManager.loadLines, Option.some.injEq] at hload
    rw [← hload]
    exact ⟨h, hone⟩
  | cons line rest ih =>
    unfold OrderManager.loadLines at hload
    split_ifs at hload with hline
    · cases hd : Order.deserialize nt now line with
      | none => simp [hd] at hload
      | some order =>
        simp only [hd, Option.bind_eq_bind, Option.some_bind] at hload
        have hkept := loadLines_keeps_orders nt now rest _ m' hload
        have hmem : order ∈ m'.orders := by
          apply hkept
          split_ifs <;> simp
        have hord := hrange order hmem
        refine ih _ hload ?_ ?_
        · intro o ho
          split_ifs at ho ⊢ with hge
          · simp only [List.mem_append, List.mem_singleton] at ho
            simp only at hge
            show o.orderId < wrapInt32 (order.orderId + 1)
            rw [wrapInt32_of_inRange _ (by omega) (by omega)]
            rcases ho with ho | ho
            · have := h o ho
              omega
            · rw [ho]
              omega
          · simp only [List.mem_append, List.mem_singleton] at ho
            simp only [ge_iff_le, not_le] at hge
            rcases ho with ho | ho
            · exact h o ho
            · rw [ho]
              exact hge
        · split_ifs with hge
          · simp only at hge
            show 1 ≤ wrapInt32 (order.orderId + 1)
            rw [wrapInt32_of_inRange _ (by omega) (by omega)]
            omega
          · exact hone
    · exact ih m hload h hone

/-- After the constructor has loaded the orders, none with the largest `int` as id, every
stored id is below the counter and the counter is at least 1. -/
theorem new_idsBelowCounter (nt : NumText) (now : String) (data : List String)
    (prodMgr : Option ProductManager) (custMgr : Option CustomerManager) (m0 : OrderManager)
    (hload : OrderManager.new nt now data prodMgr custMgr = some m0)
    (hrange : ∀ o ∈ m0.orders, o.orderId < 2147483647) :
    m0.idsBelowCounter ∧ 1 ≤ m0.nextOrderId := by
  refine loadLines_idsBelowCounter nt now data _ m0 hload hrange ?_ (le_refl _)
  intro o ho
  simp at ho

/-- `createOrder` either fails and changes nothing, or appends one order that carries the
old counter as its id and increments the counter. -/
theorem createOrder_cases (m : OrderManager) (customerId : Int) (now : String) :
    m.createOrder customerId now = (false, m) ∨
    ∃ o : Order, o.orderId = m.nextOrderId ∧
      m.createOrder customerId now =
        (true,
          { m with nextOrderId := wrapInt32 (m.nextOrderId + 1), orders := m.orders ++ [o] }) := by
  unfold OrderManager.createOrder
  split
  · exact Or.inl rfl
  · split
    · exact Or.inl rfl
    · exact Or.inr ⟨_, rfl, rfl⟩

/-- `deleteOrder` keeps the counter and leaves a sublist of the stored orders. -/
theorem deleteOrder_cases (m : OrderManager) (orderId : Int) :
    (m.deleteOrder orderId).2.nextOrderId = m.nextOrderId ∧
    (m.deleteOrder orderId).2.orders.Sublist m.orders := by
  unfold OrderManager.deleteOrder
  split
  · exact ⟨rfl, List.eraseIdx_sublist _ _⟩
  · exact ⟨rfl, List.Sublist.refl _⟩

/-- One `createOrder` or `deleteOrder` call keeps the id facts, when a `createOrder` does
not take the counter past the largest `int`; the counter grows by at most one, and only in
a `createOrder`. -/
theorem idsConsistent_idCall (m0 m : OrderManager) (assigned : List Int) (call : IdCall)
    (hbelow0 : m0.idsBelowCounter) (hone : 1 ≤ m0.nextOrderId)
    (h : m0.idsConsistent m assigned)
    (hmax : m.nextOrderId + (if call.isCreate then 1 else 0) ≤ 2147483647) :
    m0.idsConsistent (m.idCall assigned call).1 (m.idCall assigned call).2 ∧
    (m.idCall assigned call).1.nextOrderId ≤
      m.nextOrderId + (if call.isCreate then 1 else 0) := by
  obtain ⟨hnd, hbelow, hass, hpair, hloaded, hfrom, hmono⟩ := h
  cases call with
  | createOrder customerId now =>
    simp only [IdCall.isCreate, if_true] at hmax ⊢
    rcases createOrder_cases m customerId now with hc | ⟨o, hid, hc⟩
    · simp only [OrderManager.idCall, hc]
      exact ⟨⟨hnd, hbelow, hass, hpair, hloaded, hfrom, hmono⟩, by simp⟩
    · have hw : wrapInt32 (m.nextOrderId + 1) = m.nextOrderId + 1 :=
        wrapInt32_of_inRange _ (by omega) hmax
      have hres : m.idCall assigned (IdCall.createOrder customerId now) =
          ({ m with nextOrderId := m.nextOrderId + 1, orders := m.orders ++ [o] },
            assigned ++ [m.nextOrderId]) := by
        simp [OrderManager.idCall, hc, hid, hw]
      rw [hres]
      refine ⟨⟨?_, ?_, ?_, ?_, ?_, ?_, ?_⟩, le_refl _⟩
      · rw [List.map_append]
        refine List.Nodup.append hnd (by simp) ?_
        intro z hz hz'
        simp only [List.map_cons, List.map_nil, List.mem_singleton] at hz'
        obtain ⟨y, hy, hyz⟩ := List.mem_map.mp hz
        have := hbelow y hy
        omega
      · intro y hy
        simp only [List.mem_append, List.mem_singleton] at hy
        show y.orderId < m.nextOrderId + 1
        rcases hy with hy | hy
        · have := hbelow y hy
          omega
        · rw [hy]
          omega
      · intro a ha
        simp only [List.mem_append, List.mem_singleton] at ha
        show a < m.nextOrderId + 1
        rcases ha with ha | ha
        · have := hass a ha
          omega
        · omega
      · rw [List.pairwise_append]
        refine ⟨hpair, List.pairwise_singleton _ _, ?_⟩
        intro a ha b hb
        rw [List.mem_singleton] at hb
        rw [hb]
        exact hass a ha
      · intro a ha y hy
        simp only [List.mem_append, List.mem_singleton] at ha
        rcases ha with ha | ha
        · exact hloaded a ha y hy
        · have := hbelow0 y hy
          omega
      · intro y hy
        simp only [List.mem_append, List.mem_singleton] at hy ⊢
        rcases hy with hy | hy
        · rcases hfrom y hy with hy0 | hya
          · exact Or.inl hy0
          · exact Or.inr (Or.inl hya)
        · exact Or.inr (Or.inr (by rw [hy, hid]))
      · show m0.nextOrderId ≤ m.nextOrderId + 1
        omega
  | deleteOrder orderId =>
    obtain ⟨hnext, hsub⟩ := deleteOrder_cases m orderId
    simp only [OrderManager.idCall, IdCall.isCreate]
    refine ⟨⟨(hsub.map _).nodup hnd, ?_, ?_, hpair, hloaded, ?_, ?_⟩, by simp [hnext]⟩
    · intro y hy
      rw [hnext]
      exact hbelow y (hsub.subset hy)
    · intro a ha
      rw [hnext]
      exact hass a ha
    · intro y hy
      exact hfrom y (hsub.subset hy)
    · rw [hnext]
      exact hmono

/-- A sequence of `createOrder` and `deleteOrder` calls keeps the id facts, when the counter
plus the number of `createOrder` calls does not exceed the largest `int`. -/
theorem idsConsistent_foldl (m0 : OrderManager) (hbelow0 : m0.idsBelowCounter)
    (hone : 1 ≤ m0.nextOrderId) (calls : List IdCall) (m : OrderManager) (assigned : List Int)
    (h : m0.idsConsistent m assigned)
    (hmax : m.nextOrderId + ((calls.filter IdCall.isCreate).length : Int) ≤ 2147483647) :
    m0.idsConsistent (calls.foldl (fun acc call => acc.1.idCall acc.2 call) (m, assigned)).1
      (calls.foldl (fun acc call => acc.1.idCall acc.2 call) (m, assigned)).2 := by
  induction calls generalizing m assigned with
  | nil => exact h
  | cons call rest ih =>
    have hlen : ((List.filter IdCall.isCreate (call :: rest)).length : Int) =
        (if call.isCreate then 1 else 0) + ((rest.filter IdCall.isCreate).length : Int) := by
      cases hc : call.isCreate <;> simp [List.filter_cons, hc]
      omega
    rw [hlen] at hmax
    have hnn : (0 : Int) ≤ ((rest.filter IdCall.isCreate).length : Int) := Int.natCast_nonneg _
    have hstep := idsConsistent_idCall m0 m assigned call hbelow0 hone h (by omega)
    have hnext : (m.idCall assigned call).1.nextOrderId +
        ((rest.filter IdCall.isCreate).length : Int) ≤ 2147483647 := by
      have := hstep.2
      omega
    simp only [List.foldl_cons]
    exact ih (m.idCall assigned call).1 (m.idCall assigned call).2 hstep.1 hnext

/-- C36, as stated, fails when the counter leaves the range of `int`. After the load of one
order with id 2147483647 the counter is -2147483648 and `createOrder` assigns -2147483648,
which is not greater than the loaded id. After the load of two orders with the distinct ids
-2147483648 and 2147483647 the counter is -2147483648 too, and `createOrder` stores a second
order with id -2147483648. -/
theorem C36_order_ids_unique_never_reused_counterexample :
    ((managerLoadedFrom persistedOrderAtIntMax).orders.map (fun o => o.orderId) =
        [2147483647] ∧
      (managerLoadedFrom persistedOrderAtIntMax).nextOrderId = -2147483648 ∧
      ((managerLoadedFrom persistedOrderAtIntMax).runIdCalls
        [IdCall.createOrder 1 testNow]).2 = [-2147483648] ∧
      ¬ (∀ a ∈ ((managerLoadedFrom persistedOrderAtIntMax).runIdCalls
            [IdCall.createOrder 1 testNow]).2,
          ∀ o ∈ (managerLoadedFrom persistedOrderAtIntMax).orders, o.orderId < a)) ∧
    ((managerLoadedFrom persistedOrdersAtIntEnds).orders.map (fun o => o.orderId) =
        [-2147483648, 2147483647] ∧
      ((managerLoadedFrom persistedOrdersAtIntEnds).orders.map (fun o => o.orderId)).Nodup ∧
      (managerLoadedFrom persistedOrdersAtIntEnds).nextOrderId = -2147483648 ∧
      ((managerLoadedFrom persistedOrdersAtIntEnds).runIdCalls
        [IdCall.createOrder 1 testNow]).1.orders.map (fun o => o.orderId) =
        [-2147483648, 2147483647, -2147483648] ∧
      ¬ (((managerLoadedFrom persistedOrdersAtIntEnds).runIdCalls
        [IdCall.createOrder 1 testNow]).1.orders.map (fun o => o.orderId)).Nodup) := by
  decide!

/-- C36, amended. Order ids are unique and never reused while the counter stays in the range
of `int`: if the orders loaded at start-up have pairwise distinct ids, all below 2147483647,
and the counter after the load plus the number of `createOrder` calls does not exceed
2147483647, then after the sequence of `createOrder` and `deleteOrder` calls all stored
orders have pairwise distinct ids, the ids assigned by `createOrder` are strictly increasing
in the order of assignment and each is strictly greater than every loaded id, whether or not
the orders carrying those ids have since been deleted; every stored order is a loaded order
or carries an assigned id. -/
theorem C36_order_ids_unique_never_reused_amended (nt : NumText) (now : String)
    (data : List String) (prodMgr : Option ProductManager) (custMgr : Option CustomerManager)
    (m0 : OrderManager)
    (hload : OrderManager.new nt now data prodMgr custMgr = some m0)
    (hdistinct : (m0.orders.map (fun o => o.orderId)).Nodup)
    (hrange : ∀ o ∈ m0.orders, o.orderId < 2147483647) (calls : List IdCall)
    (hmax : m0.nextOrderId + ((calls.filter IdCall.isCreate).length : Int) ≤ 2147483647) :
    ((m0.runIdCalls calls).1.orders.map (fun o => o.orderId)).Nodup ∧
    (m0.runIdCalls calls).2.Pairwise (fun a b => a < b) ∧
    (∀ a ∈ (m0.runIdCalls calls).2, ∀ o ∈ m0.orders, o.orderId < a) ∧
    (∀ o ∈ (m0.runIdCalls calls).1.orders,
      o ∈ m0.orders ∨ o.orderId ∈ (m0.runIdCalls calls).2) := by
  obtain ⟨hbelow0, hone⟩ := new_idsBelowCounter nt now data prodMgr custMgr m0 hload hrange
  have hinit : m0.idsConsistent m0 [] :=
    ⟨hdistinct, hbelow0, by simp, List.Pairwise.nil, by simp, fun o ho => Or.inl ho,
      le_refl _⟩
  obtain ⟨h1, _, _, h4, h5, h6, _⟩ :=
    idsConsistent_foldl m0 hbelow0 hone calls m0 [] hinit hmax
  exact ⟨h1, h4, h5, h6⟩

/-- C36 amended, at a concrete input: orders 3 and 7 are loaded (counter 8); an order is
created (id 8), orders 7 and 8 are deleted, two more orders are created (ids 9 and 10, one
call for an unknown customer failing in between): the stored ids are 3, 9, 10. -/
theorem C36_order_ids_unique_never_reused_amended_witness :
    (loadedOrderManager.orders.map (fun o => o.orderId) = [3, 7] ∧
      loadedOrderManager.nextOrderId = 8) ∧
    ((loadedOrderManager.runIdCalls sampleIdCalls).1.orders.map (fun o => o.orderId) =
        [3, 9, 10] ∧
      (loadedOrderManager.runIdCalls sampleIdCalls).2 = [8, 9, 10]) ∧
    ((loadedOrderManager.runIdCalls sampleIdCalls).1.orders.map (fun o => o.orderId)).Nodup ∧
    (loadedOrderManager.runIdCalls sampleIdCalls).2.Pairwise (fun a b => a < b) ∧
    (∀ a ∈ (loadedOrderManager.runIdCalls sampleIdCalls).2,
      ∀ o ∈ loadedOrderManager.orders, o.orderId < a) ∧
    (∀ o ∈ (loadedOrderManager.runIdCalls sampleIdCalls).1.orders,
      o ∈ loadedOrderManager.orders ∨
        o.orderId ∈ (loadedOrderManager.runIdCalls sampleIdCalls).2) :=
  ⟨by decide!, by decide!,
    C36_order_ids_unique_never_reused_amended sampleNumText testNow persistedOrders none
      (some testCustomerManager) loadedOrderManager (by decide!) (by decide!) (by decide!)
      sampleIdCalls (by decide!)⟩

/-! ## Customers -/

/-- C33. The code on a duplicate e-mail address: the directory holds John (id 1,
john@email.com); `addCustomer` of a customer with the same address (in capitals), another
phone and customerId 1 in the argument returns true and stores the customer under id 2, so two stored
customers have the same e-mail address compared case-insensitively. `validateCustomer`
excludes from the uniqueness check the stored customer whose id equals the id field of the
argument. With customerId 3 in the argument, as in the test, the call returns false. -/
theorem C33_addCustomer_stores_duplicate_email :
    directoryWithJohn.customers.map (fun c => (c.customerId, Utils.toLower c.email)) =
      [(1, "john@email.com")] ∧
    (directoryWithJohn.addCustomer bobWithJohnsEmail).1 = true ∧
    (directoryWithJohn.addCustomer bobWithJohnsEmail).2.customers.map
        (fun c => (c.customerId, Utils.toLower c.email)) =
      [(1, "john@email.com"), (2, "john@email.com")] ∧
    directoryWithJohn.isEmailUnique bobWithJohnsEmail.email (-1) = false ∧
    directoryWithJohn.isEmailUnique bobWithJohnsEmail.email bobWithJohnsEmail.customerId = true ∧
    directoryWithJohn.addCustomer bobAsInTest = (false, directoryWithJohn) := by
  decide!

/-- C37. The code on a load of the single persisted customer with id 1: the constructor
stores the record and leaves the counter at 1 (`1 > 1` is false), so the next `addCustomer` assigns
id 1 again and two stored customers have id 1. -/
theorem C37_loadCustomers_counter_not_past_id_one :
    johnDoe.serialize = "1|John Doe|john@email.com|+1234567890|123 Main St|New York|USA|1" ∧
    CustomerManager.new sampleNumText [johnDoe.serialize] =
      some { customers := [johnDoe], nextCustomerId := 1 } ∧
    (CustomerManager.addCustomer { customers := [johnDoe], nextCustomerId := 1 } janeSmith).1 =
      true ∧
    (CustomerManager.addCustomer { customers := [johnDoe], nextCustomerId := 1 }
        janeSmith).2.customers.map (fun c => (c.customerId, c.name)) =
      [(1, "John Doe"), (1, "Jane Smith")] := by
  decide!

/-! ## The status text -/

/-- `statusToString` followed by `stringToStatus` gives the status back. -/
theorem stringToStatus_statusToString (s : OrderStatus) :
    Order.stringToStatus (Order.statusToString s) = s := by
  cases s <;> decide

/-- C40. The code on the status round trip. For each of the six OrderStatus values s,
`stringToStatus(statusToString(s)) = s`, and `statusToString` is injective; the order
`Order(3, 1, "John Doe")` with one line and status CONFIRMED is written with the status text
"Confirmed" and read back with status CONFIRMED. But `Order(1, 100, "John Doe")` set to
CANCELLED, which has no items, is written as ten fields each followed by `|`, with the
status text "Cancelled", and `deserialize` returns the default order, whose status is
PENDING; so it is for every order without items whose header fields contain no `|`. -/
theorem C40_status_lost_for_order_without_items :
    (∀ s : OrderStatus, Order.stringToStatus (Order.statusToString s) = s) ∧
    (∀ s t : OrderStatus, Order.statusToString s = Order.statusToString t → s = t) ∧
    (confirmedPenOrder.status = OrderStatus.CONFIRMED ∧
      Order.serialize sampleNumText confirmedPenOrder =
        "3|1|John Doe|Confirmed|2024-01-15 10:30:00|7|10|0|10||5,Pen,2,5" ∧
      (Order.deserialize sampleNumText testNow
          (Order.serialize sampleNumText confirmedPenOrder)).map (fun o => o.status) =
        some OrderStatus.CONFIRMED) ∧
    (cancelledFreshOrder.status = OrderStatus.CANCELLED ∧ cancelledFreshOrder.items = [] ∧
      Order.serialize sampleNumText cancelledFreshOrder =
        "1|100|John Doe|Cancelled|2024-01-15 10:30:00||0|0|0||" ∧
      (Utils.split (Order.serialize sampleNumText cancelledFreshOrder) '|').getD 3 "" =
        "Cancelled" ∧
      (Utils.split (Order.serialize sampleNumText cancelledFreshOrder) '|').length = 10 ∧
      (Order.deserialize sampleNumText testNow
          (Order.serialize sampleNumText cancelledFreshOrder)).map (fun o => o.status) =
        some OrderStatus.PENDING) ∧
    (∀ (nt : NumText) (now : String) (o : Order), o.items = [] →
      (∀ f ∈ o.headerFields nt, '|' ∉ f.data) →
      (Order.deserialize nt now (Order.serialize nt o)).map (fun o' => o'.status) =
        some OrderStatus.PENDING) := by
  refine ⟨stringToStatus_statusToString, ?_, by decide!, by decide!, ?_⟩
  · intro s t hst
    rw [← stringToStatus_statusToString s, ← stringToStatus_statusToString t, hst]
  · intro nt now o hitems hfields
    rw [deserialize_serialize_no_items nt o now hitems hfields]
    rfl

end OrdersManagment
